import Mathlib

/-!
# Sensor histories, sensors and the registry (`SensorSystem.h`)

A shallow embedding of the C++ sources `SensorSystem.h` / `SensorSystem.cpp`.

* A chain of `Nodo<T>` reached from `cabeza` is a `List T` (head first); a node is
  identified by its position in the chain.
* `ListaSensor<T>` is the pair of that chain and the counter `cantidad`.  The counter
  is an unbounded `Int`: it only ever counts live heap nodes, and the development
  assumes fewer than `2^31` of them.
* `int` readings are `Int`; the accumulator `suma` of `calcularPromedio` is wrapped to
  32 bits after every addition (`envolver32`).
* `float` is `F32`: the finite binary32 values are kept as the rationals they denote,
  together with the two infinities and NaN.  The two zeros are not told apart.
  Arithmetic rounds to nearest, ties to even (`F32.redondear`).
* What `procesarLectura` writes to the terminal is a value of `Salida`, what
  `imprimirInfo` writes is a value of `Info`; the `[Log]` trace lines of the list
  operations are not modelled.
* A `char` is a `Char`; a character buffer is a `List Char`, and the C string it holds
  is what comes before the first terminator (`cadena`).  A `String` argument stands for
  a `const char*`.
* `std::stof` is a parameter of the serial branch (`menuCaso8`): a function from the
  string to the float, `none` when it throws.
* A `SensorBase*` is a value of `Sensor`; the chain of `NodoGestion` is a `List Sensor`,
  and the pointer `buscarSensor` returns is the position of the node in that chain.
* Where two `ListaSensor<T>` objects are in play (copy construction, assignment), the
  nodes live on a heap `Monton T` and an object is its fields `Campos`; the predicate
  `Monton.Representa` ties a chain on the heap to the `List T` it holds.
-/

namespace SensorSystem

/-! ## Numbers -/

/-- Two's complement wrap of an integer into the 32-bit signed range. -/
def envolver32 (x : Int) : Int := (x + 2 ^ 31) % 2 ^ 32 - 2 ^ 31

/-- Round a rational to the nearest integer, ties to the even one. -/
def redondearPar (x : ℚ) : Int :=
  let f := ⌊x⌋
  let r := x - f
  if r < 1 / 2 then f else if 1 / 2 < r then f + 1 else if f % 2 = 0 then f else f + 1

/-- Halving loop behind `log2`; `fuel` bounds the number of halvings. -/
def log2Aux : (fuel : Nat) → Nat → Nat
  | 0, _ => 0
  | fuel + 1, n => if n < 2 then 0 else log2Aux fuel (n / 2) + 1

/-- Position of the leading binary digit of a positive natural number. -/
def log2 (n : Nat) : Nat := log2Aux n n

/-- Binary exponent of a non-zero rational: the `e` with `2 ^ e ≤ |q| < 2 ^ (e + 1)`. -/
def exponente (q : ℚ) : Int :=
  let e0 : Int := (log2 q.num.natAbs : Int) - (log2 q.den : Int)
  if (2 : ℚ) ^ e0 ≤ |q| then e0 else e0 - 1

/-- A C++ `float` (IEEE binary32). -/
inductive F32 where
  | num (q : ℚ)
  | inf (negativo : Bool)
  | nan
  deriving DecidableEq, Repr

namespace F32

/-- Rounding of a real result to binary32: 24 significant bits, least exponent `-126`,
nearest with ties to even, overflow to an infinity. -/
def redondear (q : ℚ) : F32 :=
  let e := max (exponente q) (-126)
  let ulp : ℚ := (2 : ℚ) ^ (e - 23)
  let r : ℚ := (redondearPar (q / ulp) : ℚ) * ulp
  if (2 : ℚ) ^ (128 : Nat) ≤ |r| then inf (decide (q < 0)) else num r

/-- The conversion `static_cast<float>(int)`, also applied to an `int` operand of a
float operation. -/
def ofInt (n : Int) : F32 := redondear (n : ℚ)

/-- Float addition. -/
def add : F32 → F32 → F32
  | nan, _ => nan
  | _, nan => nan
  | inf a, inf b => if a = b then inf a else nan
  | inf a, num _ => inf a
  | num _, inf b => inf b
  | num a, num b => redondear (a + b)

/-- Float division; a zero divisor counts as `+0.0`. -/
def div : F32 → F32 → F32
  | nan, _ => nan
  | _, nan => nan
  | inf _, inf _ => nan
  | inf a, num b => inf (xor a (decide (b < 0)))
  | num _, inf _ => num 0
  | num a, num b =>
    if b = 0 then (if a = 0 then nan else inf (decide (a < 0))) else redondear (a / b)

/-- The comparison `a < b` on floats: false as soon as one side is NaN. -/
def menorQue : F32 → F32 → Bool
  | nan, _ => false
  | _, nan => false
  | num a, num b => decide (a < b)
  | inf a, inf b => a && !b
  | inf a, num _ => a
  | num _, inf b => !b

instance : LT F32 := ⟨fun a b => menorQue a b = true⟩

instance (a b : F32) : Decidable (a < b) :=
  inferInstanceAs (Decidable (menorQue a b = true))

/-- Truncation of a rational toward zero. -/
def truncar (q : ℚ) : Int := Int.tdiv q.num q.den

/-- The conversion `static_cast<int>(float)`: the fractional part is dropped.  When the
truncated value does not fit in an `int`, and on infinities and NaN, C++ leaves the
result undefined; the model takes what the x86-64 conversion gives, the least `int`. -/
def aInt : F32 → Int
  | num q => if -2 ^ 31 ≤ truncar q ∧ truncar q < 2 ^ 31 then truncar q else -2 ^ 31
  | _ => -2 ^ 31

/-- A float that is a number, finite or infinite. -/
def esNumero : F32 → Bool
  | nan => false
  | _ => true

/-- A rational is a binary32 value when rounding leaves it as it is. -/
def Representable (q : ℚ) : Prop := redondear q = num q

instance (q : ℚ) : Decidable (Representable q) :=
  inferInstanceAs (Decidable (redondear q = num q))

end F32

/-- What the template `ListaSensor<T>` asks of its element type in `calcularPromedio`
and `getPrimero`: the value `0` / `T()`, `+=`, and `static_cast<float>`. -/
class Lectura (T : Type) where
  cero : T
  suma : T → T → T
  aFloat : T → F32

/-- Element type `int`: the sum wraps to 32 bits, the conversion to float rounds. -/
instance : Lectura Int where
  cero := 0
  suma a b := envolver32 (a + b)
  aFloat := F32.ofInt

/-- Element type `float`. -/
instance : Lectura F32 where
  cero := F32.num 0
  suma := F32.add
  aFloat := id

/-! ## `ListaSensor<T>` -/

/-- The list class: the chain of nodes from `cabeza` and the counter `cantidad`. -/
structure ListaSensor (T : Type) where
  nodos : List T
  cantidad : Int
  deriving DecidableEq, Repr

namespace ListaSensor

variable {T : Type}

/-- Default constructor: `cabeza(nullptr), cantidad(0)`. -/
def vacia : ListaSensor T := { nodos := [], cantidad := 0 }

/-- The walk of `insertar` to the last node, which then gets the new node as
`siguiente`; on the empty chain the new node becomes `cabeza`. -/
def enlazarAlFinal (valor : T) : List T → List T
  | [] => [valor]
  | dato :: siguiente => dato :: enlazarAlFinal valor siguiente

/-- Method `void insertar(T valor)`. -/
def insertar (l : ListaSensor T) (valor : T) : ListaSensor T :=
  { nodos := enlazarAlFinal valor l.nodos, cantidad := l.cantidad + 1 }

/-- The search loop of `eliminarMenor`.  `actual` is the part of the chain still to
visit and `pos` the position of its first node; `menor` is the position of the node the
pointer `menor` refers to and `datoMenor` its `dato`.  Returns the final `menor`. -/
def buscarMenor [LT T] [DecidableRel (fun a b : T => a < b)] :
    (actual : List T) → (pos : Nat) → (menor : Nat) → (datoMenor : T) → Nat
  | [], _, menor, _ => menor
  | dato :: siguiente, pos, menor, datoMenor =>
    if dato < datoMenor then buscarMenor siguiente (pos + 1) pos dato
    else buscarMenor siguiente (pos + 1) menor datoMenor

/-- Method `void eliminarMenor()`: nothing on the empty list; otherwise the node found by the
search is unlinked and `cantidad` is decremented. -/
def eliminarMenor [LT T] [DecidableRel (fun a b : T => a < b)]
    (l : ListaSensor T) : ListaSensor T :=
  match l.nodos with
  | [] => l
  | cabeza :: _ =>
    { nodos := l.nodos.eraseIdx (buscarMenor l.nodos 0 0 cabeza),
      cantidad := l.cantidad - 1 }

/-- The loop of `calcularPromedio`: adds every `dato` to `suma` and counts the nodes. -/
def acumular [Lectura T] : (actual : List T) → (suma : T) → (count : Int) → T × Int
  | [], suma, count => (suma, count)
  | dato :: siguiente, suma, count => acumular siguiente (Lectura.suma suma dato) (count + 1)

/-- Method `float calcularPromedio() const`. -/
def calcularPromedio [Lectura T] (l : ListaSensor T) : F32 :=
  match l.nodos with
  | [] => F32.num 0
  | _ :: _ =>
    let r := acumular l.nodos Lectura.cero 0
    F32.div (Lectura.aFloat r.1) (F32.ofInt r.2)

/-- Method `int getCantidad() const`. -/
def getCantidad (l : ListaSensor T) : Int := l.cantidad

/-- Method `T getPrimero() const`. -/
def getPrimero [Lectura T] (l : ListaSensor T) : T :=
  match l.nodos with
  | dato :: _ => dato
  | [] => Lectura.cero

/-- Copy constructor: starts empty and inserts every `dato` of `other`, head first. -/
def copiar (other : ListaSensor T) : ListaSensor T :=
  other.nodos.foldl insertar vacia

/-- Assignment `operator=`.  `mismo` says whether `this` and `other` are the same object
(`this == &other`), in which case nothing happens; otherwise the own nodes are
released, `cantidad` is reset and every `dato` of `other` is inserted. -/
def asignar (mismo : Bool) (this other : ListaSensor T) : ListaSensor T :=
  if mismo then this
  else other.nodos.foldl insertar { nodos := [], cantidad := 0 }

/-- The class invariant: the counter is the number of nodes of the chain. -/
def Coherente (l : ListaSensor T) : Prop := l.cantidad = (l.nodos.length : Int)

instance (l : ListaSensor T) : Decidable (Coherente l) :=
  inferInstanceAs (Decidable (l.cantidad = (l.nodos.length : Int)))

/-- The histories the public interface can produce, starting from the default
constructor: insertion, removal of the least reading, copy construction, assignment
from another history and self-assignment. -/
inductive Alcanzable [LT T] [DecidableRel (fun a b : T => a < b)] : ListaSensor T → Prop
  | vacia : Alcanzable vacia
  | insertar (l : ListaSensor T) (valor : T) : Alcanzable l → Alcanzable (l.insertar valor)
  | eliminarMenor (l : ListaSensor T) : Alcanzable l → Alcanzable l.eliminarMenor
  | copiar (other : ListaSensor T) : Alcanzable other → Alcanzable (copiar other)
  | asignar (this other : ListaSensor T) :
      Alcanzable this → Alcanzable other → Alcanzable (asignar false this other)
  | asignarMismo (this : ListaSensor T) : Alcanzable this → Alcanzable (asignar true this this)

end ListaSensor

/-! ## Sensors -/

/-- The three concrete sensor classes. -/
inductive TipoSensor where
  | temperatura
  | presion
  | vibracion
  deriving DecidableEq, Repr

/-- The sentence `procesarLectura` prints after the sensor tag, with the values it
carries. -/
inductive Mensaje where
  /-- Prints "Lectura mas baja eliminada. Promedio restante: P sobre N lecturas." -/
  | menorEliminada (promedio : F32) (cantidad : Int)
  /-- Prints "Una unica lectura: X. No se elimina nada." -/
  | unicaLectura (lectura : F32)
  /-- Prints "No hay lecturas para procesar." -/
  | sinLecturas
  /-- Prints "Promedio de lecturas: P sobre N lecturas." -/
  | promedioLecturas (promedio : F32) (cantidad : Int)
  /-- Prints "Conteo total de vibraciones: N, Promedio por lectura: P". -/
  | conteoVibraciones (cantidad : Int) (promedio : F32)
  deriving DecidableEq, Repr

/-- One line printed by `procesarLectura`: "[Procesando <tipo> <id>] <mensaje>". -/
structure Salida where
  tipo : TipoSensor
  id : String
  mensaje : Mensaje
  deriving DecidableEq, Repr

/-- The terminator of a C string. -/
def nulo : Char := Char.ofNat 0

/-- The C string found at a character pointer: the characters before the first
terminator. -/
def cadena (p : List Char) : List Char := p.takeWhile (fun c => c != nulo)

/-- The `n` characters `strncpy(dest, src, n)` writes to `dest`: the characters of the
C string `src`, `n` of them at most, then terminators up to `n`. -/
def strncpy (src : List Char) (n : Nat) : List Char :=
  let copiados := (cadena src).take n
  copiados ++ List.replicate (n - copiados.length) nulo

/-- The test `strcmp(a, b) == 0`: the two C strings are the same. -/
def strcmpIgual (a b : List Char) : Bool := cadena a == cadena b

/-- Class `SensorBase`: the buffer `char id[50]`. -/
structure SensorBase where
  id : List Char
  deriving DecidableEq, Repr

namespace SensorBase

/-- Constructor `SensorBase::SensorBase`: `strncpy(id, sensorId, sizeof(id) - 1)`, then
the terminator at `id[sizeof(id) - 1]`. -/
def crear (sensorId : String) : SensorBase :=
  { id := strncpy sensorId.data 49 ++ [nulo] }

/-- Method `const char* getId() const`: the C string in the buffer. -/
def getId (b : SensorBase) : String := String.mk (cadena b.id)

end SensorBase

/-- Class `SensorTemperatura`: a `SensorBase` with a `ListaSensor<float>`. -/
structure SensorTemperatura extends SensorBase where
  historial : ListaSensor F32
  deriving DecidableEq, Repr

/-- Class `SensorPresion`: a `SensorBase` with a `ListaSensor<int>`. -/
structure SensorPresion extends SensorBase where
  historial : ListaSensor Int
  deriving DecidableEq, Repr

/-- Class `SensorVibracion`: a `SensorBase` with a `ListaSensor<int>`. -/
structure SensorVibracion extends SensorBase where
  historial : ListaSensor Int
  deriving DecidableEq, Repr

/-- One line printed by `imprimirInfo`:
"[<T|P|V>-INFO <id>] Tipo: <tipo>, Lecturas: <lecturas>, Promedio: <promedio>". -/
structure Info where
  tipo : TipoSensor
  id : String
  lecturas : Int
  promedio : F32
  deriving DecidableEq, Repr

namespace SensorTemperatura

/-- Constructor `SensorTemperatura(sensorId)`: the history starts empty. -/
def crear (sensorId : String) : SensorTemperatura :=
  { SensorBase.crear sensorId with historial := ListaSensor.vacia }

/-- Method `void registrarLectura(float lectura)`. -/
def registrarLectura (s : SensorTemperatura) (lectura : F32) : SensorTemperatura :=
  { s with historial := s.historial.insertar lectura }

/-- Method `void procesarLectura()`: the sensor afterwards and the line printed. -/
def procesarLectura (s : SensorTemperatura) : SensorTemperatura × Salida :=
  let lecturasAntes := s.historial.getCantidad
  if lecturasAntes > 1 then
    let historial := s.historial.eliminarMenor
    let promedio := historial.calcularPromedio
    ({ s with historial := historial },
      ⟨TipoSensor.temperatura, s.getId, Mensaje.menorEliminada promedio historial.getCantidad⟩)
  else if lecturasAntes = 1 then
    let unicaLectura := s.historial.getPrimero
    (s, ⟨TipoSensor.temperatura, s.getId, Mensaje.unicaLectura unicaLectura⟩)
  else
    (s, ⟨TipoSensor.temperatura, s.getId, Mensaje.sinLecturas⟩)

/-- Method `void imprimirInfo() const`: the sensor, which a `const` method leaves as it
is, and the line printed. -/
def imprimirInfo (s : SensorTemperatura) : SensorTemperatura × Info :=
  (s, ⟨TipoSensor.temperatura, s.getId, s.historial.getCantidad,
    s.historial.calcularPromedio⟩)

end SensorTemperatura

namespace SensorPresion

/-- Constructor `SensorPresion(sensorId)`: the history starts empty. -/
def crear (sensorId : String) : SensorPresion :=
  { SensorBase.crear sensorId with historial := ListaSensor.vacia }

/-- Method `void procesarLectura()`: the sensor afterwards and the line printed. -/
def procesarLectura (s : SensorPresion) : SensorPresion × Salida :=
  let promedio := s.historial.calcularPromedio
  (s, ⟨TipoSensor.presion, s.getId, Mensaje.promedioLecturas promedio s.historial.getCantidad⟩)

/-- Method `void registrarLectura(float lectura)`: the reading is converted to `int`. -/
def registrarLectura (s : SensorPresion) (lectura : F32) : SensorPresion :=
  let lecturaInt := F32.aInt lectura
  { s with historial := s.historial.insertar lecturaInt }

/-- Method `void imprimirInfo() const`: the sensor, which a `const` method leaves as it
is, and the line printed. -/
def imprimirInfo (s : SensorPresion) : SensorPresion × Info :=
  (s, ⟨TipoSensor.presion, s.getId, s.historial.getCantidad, s.historial.calcularPromedio⟩)

end SensorPresion

namespace SensorVibracion

/-- Constructor `SensorVibracion(sensorId)`: the history starts empty. -/
def crear (sensorId : String) : SensorVibracion :=
  { SensorBase.crear sensorId with historial := ListaSensor.vacia }

/-- Method `void registrarLectura(float lectura)`: the reading is converted to `int`. -/
def registrarLectura (s : SensorVibracion) (lectura : F32) : SensorVibracion :=
  let conteoVibraciones := F32.aInt lectura
  { s with historial := s.historial.insertar conteoVibraciones }

/-- Method `void procesarLectura()`: the sensor afterwards and the line printed. -/
def procesarLectura (s : SensorVibracion) : SensorVibracion × Salida :=
  if s.historial.getCantidad > 0 then
    let promedio := s.historial.calcularPromedio
    (s, ⟨TipoSensor.vibracion, s.getId,
      Mensaje.conteoVibraciones s.historial.getCantidad promedio⟩)
  else
    (s, ⟨TipoSensor.vibracion, s.getId, Mensaje.sinLecturas⟩)

/-- Method `void imprimirInfo() const`: the sensor, which a `const` method leaves as it
is, and the line printed. -/
def imprimirInfo (s : SensorVibracion) : SensorVibracion × Info :=
  (s, ⟨TipoSensor.vibracion, s.getId, s.historial.getCantidad, s.historial.calcularPromedio⟩)

end SensorVibracion

/-! ## The polymorphic sensor and the registry -/

/-- The object behind a `SensorBase*`: one of the three concrete sensors. -/
inductive Sensor where
  | temperatura (s : SensorTemperatura)
  | presion (s : SensorPresion)
  | vibracion (s : SensorVibracion)
  deriving DecidableEq, Repr

/-- The calls a holder of a `SensorBase*` can make that write to the terminal or to
the sensor. -/
inductive Llamada where
  | registrarLectura (lectura : F32)
  | procesarLectura
  | imprimirInfo
  deriving DecidableEq, Repr

namespace Sensor

/-- The expressions `new SensorTemperatura(id)`, `new SensorPresion(id)` and
`new SensorVibracion(id)`. -/
def crear : TipoSensor → String → Sensor
  | TipoSensor.temperatura, sensorId => temperatura (SensorTemperatura.crear sensorId)
  | TipoSensor.presion, sensorId => presion (SensorPresion.crear sensorId)
  | TipoSensor.vibracion, sensorId => vibracion (SensorVibracion.crear sensorId)

/-- Virtual `getId()`: no class overrides `SensorBase::getId`. -/
def getId : Sensor → String
  | temperatura s => s.getId
  | presion s => s.getId
  | vibracion s => s.getId

/-- Virtual `registrarLectura(float)`. -/
def registrarLectura : Sensor → F32 → Sensor
  | temperatura s, lectura => temperatura (s.registrarLectura lectura)
  | presion s, lectura => presion (s.registrarLectura lectura)
  | vibracion s, lectura => vibracion (s.registrarLectura lectura)

/-- Virtual `procesarLectura()`. -/
def procesarLectura : Sensor → Sensor × Salida
  | temperatura s => (temperatura s.procesarLectura.1, s.procesarLectura.2)
  | presion s => (presion s.procesarLectura.1, s.procesarLectura.2)
  | vibracion s => (vibracion s.procesarLectura.1, s.procesarLectura.2)

/-- Virtual `imprimirInfo() const`. -/
def imprimirInfo : Sensor → Sensor × Info
  | temperatura s => (temperatura s.imprimirInfo.1, s.imprimirInfo.2)
  | presion s => (presion s.imprimirInfo.1, s.imprimirInfo.2)
  | vibracion s => (vibracion s.imprimirInfo.1, s.imprimirInfo.2)

/-- The sensor after one call made through the pointer. -/
def llamar (s : Sensor) : Llamada → Sensor
  | Llamada.registrarLectura lectura => s.registrarLectura lectura
  | Llamada.procesarLectura => s.procesarLectura.1
  | Llamada.imprimirInfo => s.imprimirInfo.1

end Sensor

/-- Class `SistemaGestion`: the chain of `NodoGestion` from `cabeza`, each node with
the sensor it points to. -/
structure SistemaGestion where
  sensores : List Sensor
  deriving DecidableEq, Repr

namespace SistemaGestion

/-- Constructor: `cabeza(nullptr)`. -/
def vacio : SistemaGestion := { sensores := [] }

/-- The walk of `agregarSensor` to the last node, which then gets the new node as
`siguiente`; on the empty chain the new node becomes `cabeza`. -/
def enlazarAlFinal (sensor : Sensor) : List Sensor → List Sensor
  | [] => [sensor]
  | s :: siguiente => s :: enlazarAlFinal sensor siguiente

/-- Method `void agregarSensor(SensorBase* sensor)`. -/
def agregarSensor (g : SistemaGestion) (sensor : Sensor) : SistemaGestion :=
  { sensores := enlazarAlFinal sensor g.sensores }

/-- The loop of `buscarSensor`: `actual` is the part of the chain still to visit and
`pos` the position of its first node. -/
def buscarDesde : (actual : List Sensor) → (pos : Nat) → (id : String) → Option Nat
  | [], _, _ => none
  | s :: siguiente, pos, id =>
    if strcmpIgual s.getId.data id.data then some pos else buscarDesde siguiente (pos + 1) id

/-- Method `SensorBase* buscarSensor(const char* id)`: the position of the node whose
sensor is returned, `none` for `nullptr`. -/
def buscarSensor (g : SistemaGestion) (id : String) : Option Nat :=
  buscarDesde g.sensores 0 id

/-- The loop of `ejecutarProcesamiento`: every sensor of the chain is processed in
turn; returns the sensors afterwards and the lines `procesarLectura` printed.  The
banner and the line "-> Procesando Sensor <id>..." before each call, which repeats the
identifier, are not kept. -/
def procesarDesde : (actual : List Sensor) → List Sensor × List Salida
  | [] => ([], [])
  | s :: siguiente =>
    let r := s.procesarLectura
    let rs := procesarDesde siguiente
    (r.1 :: rs.1, r.2 :: rs.2)

/-- Method `void ejecutarProcesamiento()`. -/
def ejecutarProcesamiento (g : SistemaGestion) : SistemaGestion × List Salida :=
  let r := procesarDesde g.sensores
  ({ sensores := r.1 }, r.2)

/-- The loop of `imprimirTodos`: `imprimirInfo` is called on every sensor of the chain
in turn; returns the sensors afterwards and the lines printed. -/
def imprimirDesde : (actual : List Sensor) → List Sensor × List Info
  | [] => ([], [])
  | s :: siguiente =>
    let r := s.imprimirInfo
    let rs := imprimirDesde siguiente
    (r.1 :: rs.1, r.2 :: rs.2)

/-- Method `void imprimirTodos()`. -/
def imprimirTodos (g : SistemaGestion) : SistemaGestion × List Info :=
  let r := imprimirDesde g.sensores
  ({ sensores := r.1 }, r.2)

end SistemaGestion

/-! ## Repeated removal, exact means, and calls through the registry -/

namespace ListaSensor

variable {T : Type}

/-- The value `eliminarMenor` writes to the log before it deletes the node,
`menor->dato`; nothing on the empty list. -/
def datoEliminado [LT T] [DecidableRel (fun a b : T => a < b)] (l : ListaSensor T) :
    Option T :=
  match l.nodos with
  | [] => none
  | cabeza :: _ => l.nodos[buscarMenor l.nodos 0 0 cabeza]?

/-- Successive calls of `eliminarMenor`, `n` of them: the values logged, in the order
of the calls, and the history left. -/
def eliminarVeces [LT T] [DecidableRel (fun a b : T => a < b)] :
    Nat → ListaSensor T → List T × ListaSensor T
  | 0, l => ([], l)
  | n + 1, l =>
    let r := eliminarVeces n l.eliminarMenor
    ((datoEliminado l).toList ++ r.1, r.2)

end ListaSensor

/-- The arithmetic mean of rationals, in exact arithmetic: the sum over the number of
values.  It is the yardstick `calcularPromedio` is compared with. -/
def mediaExacta (vs : List ℚ) : ℚ := vs.sum / (vs.length : ℚ)

/-- The rational a finite float denotes (zero for the infinities and NaN). -/
def F32.valor : F32 → ℚ
  | F32.num q => q
  | _ => 0

namespace SistemaGestion

/-- The call `sensor->registrarLectura(lectura)` through a pointer to the sensor of the
node at position `pos`: that sensor is replaced by what the call leaves. -/
def registrarEn : (actual : List Sensor) → (pos : Nat) → (lectura : F32) → List Sensor
  | [], _, _ => []
  | s :: siguiente, 0, lectura => s.registrarLectura lectura :: siguiente
  | s :: siguiente, pos + 1, lectura => s :: registrarEn siguiente pos lectura

/-- The statements `sensor = sistema.buscarSensor(id); if (sensor)
sensor->registrarLectura(lectura);` of the menu. -/
def registrarPorId (g : SistemaGestion) (id : String) (lectura : F32) : SistemaGestion :=
  match g.buscarSensor id with
  | some pos => { sensores := registrarEn g.sensores pos lectura }
  | none => g

end SistemaGestion

/-! ## The serial branch of the menu (`main.cpp`, `case 8`) -/

/-- What the serial branch writes to the terminal. -/
inductive Aviso where
  /-- Prints "[Timeout] No se recibio nada." -/
  | timeout
  /-- Prints "[ERR] Formato invalido: <s>". -/
  | formatoInvalido
  /-- Prints "[WARN] Sensor <id> no existe. Creandolo...". -/
  | creando
  /-- Prints "[OK] <id> <- <valor>". -/
  | ok (valor : F32)
  /-- Prints "[ERR] Valor no numerico: <valstr>". -/
  | valorNoNumerico
  deriving DecidableEq, Repr

/-- The separator of the three fields of a line. -/
def coma : Char := ','

/-- The scan of `std::string::find`: `resto` is what is left of the string from
position `pos` on. -/
def buscarComaEn : (resto : List Char) → (pos : Nat) → Option Nat
  | [], _ => none
  | c :: resto, pos => if c = coma then some pos else buscarComaEn resto (pos + 1)

/-- The call `s.find(',', desde)`: the position of the first comma at or after
`desde`, `none` for `npos`. -/
def buscarComa (s : List Char) (desde : Nat) : Option Nat :=
  buscarComaEn (s.drop desde) desde

/-- Value of a string of decimal digits, most significant first. -/
def valorDigitos (ds : List Char) : Nat :=
  ds.foldl (fun n c => 10 * n + (c.toNat - 48)) 0

/-- A stand-in for `std::stof` on plain decimal numerals: blanks, an optional sign,
digits, an optional fraction; what follows is ignored, as `std::stof` does, and `none`
stands for the exception thrown when no number starts the string or the value is out
of the range of `float`.  It serves to run the examples; the statements on the serial
branch hold for every parser. -/
def stofDecimal (valstr : String) : Option F32 :=
  let t := valstr.data.dropWhile Char.isWhitespace
  let signo : Bool × List Char :=
    match t with
    | '-' :: r => (true, r)
    | '+' :: r => (false, r)
    | _ => (false, t)
  let entera := signo.2.takeWhile Char.isDigit
  let fraccion : List Char :=
    match signo.2.dropWhile Char.isDigit with
    | '.' :: r => r.takeWhile Char.isDigit
    | _ => []
  if entera = [] ∧ fraccion = [] then none
  else
    let q : ℚ := (valorDigitos (entera ++ fraccion) : ℚ) / (10 : ℚ) ^ fraccion.length
    match F32.redondear (if signo.1 then -q else q) with
    | F32.num x => some (F32.num x)
    | _ => none

/-- The splitting of the line `s` in `case 8`: the character `tipo` and the strings
`id` and `valstr`, which stay `0` and empty unless two commas are found. -/
def camposLinea (s : String) : Char × String × String :=
  let p1 := buscarComa s.data 0
  let p2 := match p1 with
    | none => none
    | some i => buscarComa s.data (i + 1)
  match p1, p2 with
  | some i, some j =>
    (s.data.headD nulo, String.mk ((s.data.drop (i + 1)).take (j - (i + 1))),
      String.mk (s.data.drop (j + 1)))
  | _, _ => (nulo, "", "")

/-- The lookup of the sensor in `case 8`, with its creation when `buscarSensor` finds
none and `tipo` names a class: the registry afterwards, the pointer `sensor`, and what
is printed. -/
def resolverSensor (sistema : SistemaGestion) (tipo : Char) (id : String) :
    SistemaGestion × Option Nat × List Aviso :=
  match sistema.buscarSensor id with
  | some pos => (sistema, some pos, [])
  | none =>
    let creado :=
      if tipo = 'T' ∨ tipo = 't' then
        sistema.agregarSensor (Sensor.crear TipoSensor.temperatura id)
      else if tipo = 'P' ∨ tipo = 'p' then
        sistema.agregarSensor (Sensor.crear TipoSensor.presion id)
      else if tipo = 'V' ∨ tipo = 'v' then
        sistema.agregarSensor (Sensor.crear TipoSensor.vibracion id)
      else sistema
    (creado, creado.buscarSensor id, [Aviso.creando])

/-- The body of `case 8` of `menu`, after the line `s` has been read from the serial
device.  `stof` is the numeric parser, `none` when it throws.  Returns the registry
afterwards and what is printed. -/
def menuCaso8 (stof : String → Option F32) (sistema : SistemaGestion) (s : String) :
    SistemaGestion × List Aviso :=
  if s.data = [] then (sistema, [Aviso.timeout])
  else
    let campos := camposLinea s
    let tipo := campos.1
    let id := campos.2.1
    let valstr := campos.2.2
    if tipo = nulo ∨ id.data = [] ∨ valstr.data = [] then (sistema, [Aviso.formatoInvalido])
    else
      let buscado := resolverSensor sistema tipo id
      match stof valstr with
      | some valor =>
        match buscado.2.1 with
        | some pos =>
          ({ sensores := SistemaGestion.registrarEn buscado.1.sensores pos valor },
            buscado.2.2 ++ [Aviso.ok valor])
        | none => (buscado.1, buscado.2.2)
      | none => (buscado.1, buscado.2.2 ++ [Aviso.valorNoNumerico])

/-! ## The heap under `ListaSensor<T>`

The copy constructor and `operator=` are about two objects at once, so here the nodes
live on a heap and an object is its two fields.  The methods are the ones above written
on pointers; the lemmas further down show that, on the chain an object reaches, they do
what the methods on lists do. -/

/-- The `struct Nodo<T>`: `dato` and `siguiente`, `none` for `nullptr`. -/
structure Nodo (T : Type) where
  dato : T
  siguiente : Option Nat
  deriving DecidableEq, Repr

/-- The heap of nodes: the node at address `p` is the entry at position `p`, `none`
once it has been deleted.  `new` takes the first address never used. -/
abbrev Monton (T : Type) := List (Option (Nodo T))

/-- The fields of a `ListaSensor<T>` object. -/
structure Campos where
  cabeza : Option Nat
  cantidad : Int
  deriving DecidableEq, Repr

namespace Monton

variable {T : Type}

/-- The node a pointer refers to, if it is live. -/
def leer (m : Monton T) (p : Nat) : Option (Nodo T) := (m[p]?).join

/-- The expression `new Nodo<T>(valor)`: the heap afterwards and the address. -/
def nuevo (m : Monton T) (valor : T) : Monton T × Nat :=
  (m ++ [some { dato := valor, siguiente := none }], m.length)

/-- The assignment `p->siguiente = sig`. -/
def ponerSiguiente (m : Monton T) (p : Nat) (sig : Option Nat) : Monton T :=
  match leer m p with
  | some n => m.set p (some { dato := n.dato, siguiente := sig })
  | none => m

/-- The statement `delete p`. -/
def liberar (m : Monton T) (p : Nat) : Monton T := m.set p none

/-- The pointer `p->siguiente`. -/
def siguienteDe (m : Monton T) (p : Nat) : Option Nat :=
  (leer m p).bind (fun n => n.siguiente)

/-- The loop `while (actual->siguiente != nullptr) actual = actual->siguiente` of
`insertar`, run for `pasos` steps at most. -/
def ultimo (m : Monton T) : (pasos : Nat) → (actual : Nat) → Nat
  | 0, actual => actual
  | pasos + 1, actual =>
    match siguienteDe m actual with
    | some sig => ultimo m pasos sig
    | none => actual

/-- Method `insertar` on the heap: the heap and the fields of the object afterwards. -/
def insertar (m : Monton T) (l : Campos) (valor : T) : Monton T × Campos :=
  let r := nuevo m valor
  match l.cabeza with
  | none => (r.1, { cabeza := some r.2, cantidad := l.cantidad + 1 })
  | some c =>
    (ponerSiguiente r.1 (ultimo r.1 r.1.length c) (some r.2),
      { cabeza := some c, cantidad := l.cantidad + 1 })

/-- The search loop of `eliminarMenor` on the heap, with the four pointers of the
source, run for `pasos` steps at most: returns `menorAnterior` and `menor`. -/
def buscarMenorEn [LT T] [DecidableRel (fun a b : T => a < b)] (m : Monton T) :
    (pasos : Nat) → (anterior actual menorAnterior : Option Nat) → (menor : Nat) →
      Option Nat × Nat
  | 0, _, _, menorAnterior, menor => (menorAnterior, menor)
  | _ + 1, _, none, menorAnterior, menor => (menorAnterior, menor)
  | pasos + 1, anterior, some a, menorAnterior, menor =>
    match leer m a, leer m menor with
    | some na, some nm =>
      if na.dato < nm.dato then buscarMenorEn m pasos (some a) na.siguiente anterior a
      else buscarMenorEn m pasos (some a) na.siguiente menorAnterior menor
    | _, _ => (menorAnterior, menor)

/-- Method `eliminarMenor` on the heap. -/
def eliminarMenor [LT T] [DecidableRel (fun a b : T => a < b)]
    (m : Monton T) (l : Campos) : Monton T × Campos :=
  match l.cabeza with
  | none => (m, l)
  | some c =>
    let r := buscarMenorEn m m.length none (some c) none c
    match r.1 with
    | none =>
      (liberar m r.2, { cabeza := siguienteDe m r.2, cantidad := l.cantidad - 1 })
    | some ant =>
      (liberar (ponerSiguiente m ant (siguienteDe m r.2)) r.2,
        { cabeza := some c, cantidad := l.cantidad - 1 })

/-- The loop of `calcularPromedio` on the heap, run for `pasos` steps at most. -/
def acumularEn [Lectura T] (m : Monton T) :
    (pasos : Nat) → (actual : Option Nat) → (suma : T) → (count : Int) → T × Int
  | 0, _, suma, count => (suma, count)
  | _ + 1, none, suma, count => (suma, count)
  | pasos + 1, some a, suma, count =>
    match leer m a with
    | some n => acumularEn m pasos n.siguiente (Lectura.suma suma n.dato) (count + 1)
    | none => (suma, count)

/-- Method `calcularPromedio` on the heap. -/
def calcularPromedio [Lectura T] (m : Monton T) (l : Campos) : F32 :=
  match l.cabeza with
  | none => F32.num 0
  | some c =>
    let r := acumularEn m m.length (some c) Lectura.cero 0
    F32.div (Lectura.aFloat r.1) (F32.ofInt r.2)

/-- Method `getCantidad` on the fields. -/
def getCantidad (l : Campos) : Int := l.cantidad

/-- The loop of the copy constructor and of `operator=`: `insertar(actual->dato)` for
every node from `actual` on, run for `pasos` steps at most. -/
def copiarDesde (pasos : Nat) (m : Monton T) (actual : Option Nat) (this : Campos) :
    Monton T × Campos :=
  match pasos, actual with
  | 0, _ => (m, this)
  | _ + 1, none => (m, this)
  | pasos + 1, some a =>
    match leer m a with
    | some n =>
      let r := insertar m this n.dato
      copiarDesde pasos r.1 n.siguiente r.2
    | none => (m, this)

/-- Copy constructor on the heap: the new object starts with `cabeza(nullptr)` and
`cantidad(0)`. -/
def copiar (m : Monton T) (other : Campos) : Monton T × Campos :=
  copiarDesde m.length m other.cabeza { cabeza := none, cantidad := 0 }

/-- The loop that deletes every node from `actual` on, run for `pasos` steps at most. -/
def liberarDesde (m : Monton T) : (pasos : Nat) → (actual : Option Nat) → Monton T
  | 0, _ => m
  | _ + 1, none => m
  | pasos + 1, some a => liberarDesde (liberar m a) pasos (siguienteDe m a)

/-- Assignment `operator=` on the heap.  `mismo` is the test `this == &other`. -/
def asignar (mismo : Bool) (m : Monton T) (this other : Campos) : Monton T × Campos :=
  if mismo then (m, this)
  else
    let m1 := liberarDesde m m.length this.cabeza
    copiarDesde m1.length m1 other.cabeza { cabeza := none, cantidad := 0 }

/-- The chain from pointer `p` is made of live nodes at the pairwise different addresses
`dirs`, it holds the readings `datos` in this order, and it ends in `nullptr`. -/
inductive Representa (m : Monton T) : Option Nat → List T → List Nat → Prop
  | nil : Representa m none [] []
  | cons {a : Nat} {dato : T} {sig : Option Nat} {datos : List T} {dirs : List Nat} :
      leer m a = some { dato := dato, siguiente := sig } → a ∉ dirs →
      Representa m sig datos dirs → Representa m (some a) (dato :: datos) (a :: dirs)

end Monton

/-! ## Lemmas on the list operations -/

namespace ListaSensor

variable {T : Type}

theorem enlazarAlFinal_eq_append (valor : T) (xs : List T) :
    enlazarAlFinal valor xs = xs ++ [valor] := by
  induction xs with
  | nil => rfl
  | cons x xs ih => simp [enlazarAlFinal, ih]

theorem foldl_insertar (vs : List T) (l : ListaSensor T) :
    vs.foldl insertar l = { nodos := l.nodos ++ vs, cantidad := l.cantidad + vs.length } := by
  induction vs generalizing l with
  | nil => simp
  | cons v vs ih =>
    rw [List.foldl_cons, ih]
    simp only [insertar, enlazarAlFinal_eq_append, List.append_assoc, List.singleton_append,
      List.length_cons, Nat.cast_add, Nat.cast_one]
    congr 1
    omega

/-- The search loop ends at the position it started with or at a visited one. -/
theorem buscarMenor_rango [LT T] [DecidableRel (fun a b : T => a < b)] (actual : List T) :
    ∀ (pos menor : Nat) (datoMenor : T),
      buscarMenor actual pos menor datoMenor = menor ∨
        (pos ≤ buscarMenor actual pos menor datoMenor ∧
          buscarMenor actual pos menor datoMenor < pos + actual.length) := by
  induction actual with
  | nil => intro pos menor datoMenor; exact Or.inl rfl
  | cons dato siguiente ih =>
    intro pos menor datoMenor
    unfold buscarMenor
    by_cases hlt : dato < datoMenor
    · rw [if_pos hlt]
      rcases ih (pos + 1) pos dato with h | h
      · right; rw [h]; simp
      · right; simp only [List.length_cons]; omega
    · rw [if_neg hlt]
      rcases ih (pos + 1) menor datoMenor with h | h
      · exact Or.inl h
      · right; simp only [List.length_cons]; omega

theorem buscarMenor_lt_length [LT T] [DecidableRel (fun a b : T => a < b)]
    (cabeza : T) (resto : List T) :
    buscarMenor (cabeza :: resto) 0 0 cabeza < (cabeza :: resto).length := by
  rcases buscarMenor_rango (cabeza :: resto) 0 0 cabeza with h | h
  · rw [h]; simp
  · omega

/-- The search loop keeps, and so ends with, the first position whose `dato` no visited
`dato` is below, as long as `<` is a strict weak order on the values satisfying `P`. -/
theorem buscarMenor_inv [LT T] [DecidableRel (fun a b : T => a < b)] (P : T → Prop)
    (hirr : ∀ a, P a → ¬ a < a)
    (htr : ∀ a b c, P a → P b → P c → a < b → b < c → a < c)
    (hneg : ∀ a b c, P a → P b → P c → ¬ a < b → ¬ b < c → ¬ a < c)
    (xs : List T) (hP : ∀ x ∈ xs, P x) :
    ∀ (actual pre : List T) (menor : Nat) (datoMenor : T),
      xs = pre ++ actual →
      xs[menor]? = some datoMenor →
      (∀ x ∈ pre, ¬ x < datoMenor) →
      (∀ j y, j < menor → xs[j]? = some y → datoMenor < y) →
      ∃ d, xs[buscarMenor actual pre.length menor datoMenor]? = some d ∧
        (∀ x ∈ xs, ¬ x < d) ∧
        (∀ j y, j < buscarMenor actual pre.length menor datoMenor →
          xs[j]? = some y → d < y) := by
  intro actual
  induction actual with
  | nil =>
    intro pre menor datoMenor hxs hm h1 h2
    simp only [List.append_nil] at hxs
    subst hxs
    exact ⟨datoMenor, hm, h1, h2⟩
  | cons dato siguiente ih =>
    intro pre menor datoMenor hxs hm h1 h2
    have hxs2 : xs = (pre ++ [dato]) ++ siguiente := by simp [hxs]
    have hlen : (pre ++ [dato]).length = pre.length + 1 := by simp
    have hPd : P dato := hP dato (by simp [hxs])
    have hPm : P datoMenor := hP datoMenor (List.getElem?_mem hm)
    have hPpre : ∀ x ∈ pre, P x := fun x hx => hP x (by simp [hxs, hx])
    have hpos : xs[pre.length]? = some dato := by
      rw [hxs, List.getElem?_append_right (le_refl _)]; simp
    unfold buscarMenor
    by_cases hlt : dato < datoMenor
    · rw [if_pos hlt, ← hlen]
      refine ih (pre ++ [dato]) pre.length dato hxs2 hpos ?_ ?_
      · intro x hx
        rcases List.mem_append.1 hx with hx | hx
        · exact fun hxd => h1 x hx (htr x dato datoMenor (hPpre x hx) hPd hPm hxd hlt)
        · rw [List.mem_singleton.1 hx]; exact hirr dato hPd
      · intro j y hj hy
        have hy2 : pre[j]? = some y := by
          rw [hxs, List.getElem?_append_left hj] at hy; exact hy
        have hymem : y ∈ pre := List.getElem?_mem hy2
        by_contra hny
        exact hneg dato y datoMenor hPd (hPpre y hymem) hPm hny (h1 y hymem) hlt
    · rw [if_neg hlt, ← hlen]
      refine ih (pre ++ [dato]) menor datoMenor hxs2 hm ?_ h2
      intro x hx
      rcases List.mem_append.1 hx with hx | hx
      · exact h1 x hx
      · rw [List.mem_singleton.1 hx]; exact hlt

/-- On a non-empty chain whose values are strictly weakly ordered by `<`, the search
of `eliminarMenor` returns the first position holding a least value. -/
theorem buscarMenor_spec [LT T] [DecidableRel (fun a b : T => a < b)] (P : T → Prop)
    (hirr : ∀ a, P a → ¬ a < a)
    (htr : ∀ a b c, P a → P b → P c → a < b → b < c → a < c)
    (hneg : ∀ a b c, P a → P b → P c → ¬ a < b → ¬ b < c → ¬ a < c)
    (cabeza : T) (resto : List T) (hP : ∀ x ∈ cabeza :: resto, P x) :
    ∃ d, (cabeza :: resto)[buscarMenor (cabeza :: resto) 0 0 cabeza]? = some d ∧
      (∀ x ∈ cabeza :: resto, ¬ x < d) ∧
      (∀ j y, j < buscarMenor (cabeza :: resto) 0 0 cabeza →
        (cabeza :: resto)[j]? = some y → d < y) :=
  buscarMenor_inv P hirr htr hneg (cabeza :: resto) hP (cabeza :: resto) [] 0 cabeza rfl
    (by simp) (by simp) (by simp)

/-- The same over a strict weak order, in terms of `eliminarMenor` itself. -/
theorem eliminarMenor_spec [LT T] [DecidableRel (fun a b : T => a < b)] (P : T → Prop)
    (hirr : ∀ a, P a → ¬ a < a)
    (htr : ∀ a b c, P a → P b → P c → a < b → b < c → a < c)
    (hneg : ∀ a b c, P a → P b → P c → ¬ a < b → ¬ b < c → ¬ a < c)
    (l : ListaSensor T) (hne : l.nodos ≠ []) (hP : ∀ x ∈ l.nodos, P x) :
    ∃ i, ∃ _ : i < l.nodos.length,
      (∀ x ∈ l.nodos, ¬ x < l.nodos[i]) ∧
      (∀ j, j < i → ∀ _ : j < l.nodos.length, l.nodos[i] < l.nodos[j]) ∧
      (eliminarMenor l).nodos = l.nodos.eraseIdx i ∧
      (eliminarMenor l).cantidad = l.cantidad - 1 := by
  obtain ⟨nodos, cantidad⟩ := l
  cases nodos with
  | nil => exact absurd rfl hne
  | cons cabeza resto =>
    obtain ⟨d, hd, hmin, hfirst⟩ := buscarMenor_spec P hirr htr hneg cabeza resto hP
    obtain ⟨hi, hdi⟩ := List.getElem?_eq_some_iff.1 hd
    refine ⟨buscarMenor (cabeza :: resto) 0 0 cabeza, hi, ?_, ?_, rfl, rfl⟩
    · intro x hx
      simp only at hdi ⊢
      rw [hdi]; exact hmin x hx
    · intro j hj hjl
      simp only at hdi ⊢
      rw [hdi]
      exact hfirst j _ hj (List.getElem?_eq_getElem hjl)

theorem envolver32_suma (a b : Int) : envolver32 (envolver32 a + b) = envolver32 (a + b) := by
  unfold envolver32
  omega

theorem envolver32_id (x : Int) (h1 : -2 ^ 31 ≤ x) (h2 : x < 2 ^ 31) : envolver32 x = x := by
  unfold envolver32
  omega

/-- The loop of `calcularPromedio` counts every node once. -/
theorem acumular_count [Lectura T] (actual : List T) :
    ∀ (suma : T) (count : Int), (acumular actual suma count).2 = count + actual.length := by
  induction actual with
  | nil => intro suma count; simp [acumular]
  | cons dato siguiente ih =>
    intro suma count
    rw [acumular, ih]
    simp only [List.length_cons, Nat.cast_add, Nat.cast_one]
    omega

/-- On `int` readings the accumulator ends as the wrapped sum of the readings. -/
theorem acumular_suma_int (actual : List Int) :
    ∀ (suma count : Int),
      (acumular actual (envolver32 suma) count).1 = envolver32 (suma + actual.sum) := by
  induction actual with
  | nil => intro suma count; simp [acumular]
  | cons dato siguiente ih =>
    intro suma count
    rw [acumular]
    show (acumular siguiente (envolver32 (envolver32 suma + dato)) (count + 1)).1 = _
    rw [envolver32_suma, ih, List.sum_cons, add_assoc]

end ListaSensor

/-! ## Facts on the float model -/

namespace F32

/-- The halving loop never overshoots: `2 ^ log2Aux fuel n ≤ n`. -/
theorem log2Aux_le (fuel : Nat) : ∀ n : Nat, 1 ≤ n → 2 ^ log2Aux fuel n ≤ n := by
  induction fuel with
  | zero => intro n hn; simpa [log2Aux] using hn
  | succ fuel ih =>
    intro n hn
    unfold log2Aux
    by_cases h2 : n < 2
    · rw [if_pos h2]; simpa using hn
    · rw [if_neg h2]
      have h1 : 1 ≤ n / 2 := by omega
      have := ih (n / 2) h1
      rw [pow_succ]
      omega

/-- The leading digit is within the number. -/
theorem log2_le (n : Nat) (hn : 1 ≤ n) : 2 ^ log2 n ≤ n := log2Aux_le n n hn

/-- The exponent found for a positive integer is not above it. -/
theorem exponente_intCast_le (n : Int) (hn : 1 ≤ n) : (2 : ℚ) ^ exponente (n : ℚ) ≤ (n : ℚ) := by
  have hpos : (0 : ℚ) < (n : ℚ) := by exact_mod_cast (by omega : (0 : Int) < n)
  have habs : |(n : ℚ)| = (n : ℚ) := abs_of_pos hpos
  unfold exponente
  simp only [Rat.num_intCast, Rat.den_intCast]
  have hl1 : log2 1 = 0 := by decide
  rw [hl1]
  simp only [Nat.cast_zero, sub_zero, habs]
  have hnat : 1 ≤ n.natAbs := by omega
  have hle := log2_le n.natAbs hnat
  have hq : (2 : ℚ) ^ ((log2 n.natAbs : Nat) : Int) ≤ (n : ℚ) := by
    rw [zpow_natCast]
    have h1 : ((2 ^ log2 n.natAbs : Nat) : ℚ) ≤ ((n.natAbs : Nat) : ℚ) := by exact_mod_cast hle
    have h2 : ((n.natAbs : Nat) : ℚ) = (n : ℚ) := by
      have h3 : ((n.natAbs : Nat) : Int) = n := by omega
      calc ((n.natAbs : Nat) : ℚ) = (((n.natAbs : Nat) : Int) : ℚ) := (Int.cast_natCast _).symm
        _ = (n : ℚ) := by rw [h3]
    rw [← h2]
    exact_mod_cast hle
  rw [if_pos hq]
  exact hq

/-- Rounding a rational that is at least one gives at least one. -/
theorem redondearPar_pos (x : ℚ) (hx : 1 ≤ x) : 1 ≤ redondearPar x := by
  have hf : 1 ≤ ⌊x⌋ := Int.le_floor.2 (by exact_mod_cast hx)
  unfold redondearPar
  simp only
  split_ifs <;> omega

/-- The float of a positive `int` is not zero. -/
theorem ofInt_ne_zero (n : Int) (hn : 1 ≤ n) : ofInt n ≠ num 0 := by
  have hpos : (0 : ℚ) < (n : ℚ) := by exact_mod_cast (by omega : (0 : Int) < n)
  have h1 : (1 : ℚ) ≤ (n : ℚ) := by exact_mod_cast hn
  have hexp := exponente_intCast_le n hn
  have hulp : (0 : ℚ) < (2 : ℚ) ^ (max (exponente (n : ℚ)) (-126) - 23) := by positivity
  have hle : (2 : ℚ) ^ (max (exponente (n : ℚ)) (-126) - 23) ≤ (n : ℚ) := by
    rcases le_total (exponente (n : ℚ)) (-126) with h | h
    · rw [max_eq_right h]
      calc (2 : ℚ) ^ ((-126 : Int) - 23) ≤ 1 := by norm_num
        _ ≤ n := h1
    · rw [max_eq_left h]
      calc (2 : ℚ) ^ (exponente (n : ℚ) - 23) ≤ (2 : ℚ) ^ exponente (n : ℚ) :=
            zpow_le_zpow_right₀ (by norm_num) (by omega)
        _ ≤ n := hexp
  have hq : 1 ≤ (n : ℚ) / (2 : ℚ) ^ (max (exponente (n : ℚ)) (-126) - 23) := by
    rw [le_div_iff₀ hulp, one_mul]; exact hle
  have hr := redondearPar_pos _ hq
  unfold ofInt redondear
  simp only
  split_ifs
  · simp
  · intro h
    injection h with h
    have : (0 : ℚ) < (redondearPar ((n : ℚ) / (2 : ℚ) ^ (max (exponente (n : ℚ)) (-126) - 23)) : ℚ) := by
      exact_mod_cast (by omega : (0 : Int) < redondearPar ((n : ℚ) / (2 : ℚ) ^ (max (exponente (n : ℚ)) (-126) - 23)))
    have := mul_pos this hulp
    linarith

end F32

/-! ## The order of the floats that are numbers -/

namespace F32

theorem lt_iff_menorQue (a b : F32) : a < b ↔ menorQue a b = true := Iff.rfl

theorem lt_irrefl_numero (a : F32) : ¬ a < a := by
  rw [lt_iff_menorQue]
  rcases a with a | a | _ <;> simp [menorQue]

theorem lt_trans_numero (a b c : F32) (hab : a < b) (hbc : b < c) : a < c := by
  rw [lt_iff_menorQue] at *
  rcases a with a | a | _ <;> rcases b with b | b | _ <;> rcases c with c | c | _ <;>
    simp_all [menorQue]
  exact lt_trans hab hbc

theorem lt_negtrans_numero (a b c : F32) (ha : a.esNumero = true) (hb : b.esNumero = true)
    (hc : c.esNumero = true) (hab : ¬ a < b) (hbc : ¬ b < c) : ¬ a < c := by
  rw [lt_iff_menorQue] at *
  rcases a with a | a | _ <;> rcases b with b | b | _ <;> rcases c with c | c | _ <;>
    simp_all [menorQue, esNumero]
  exact le_trans hbc hab

end F32

/-! ## The claims on `ListaSensor<T>` -/

namespace ListaSensor

variable {T : Type}

/-- Claim C1. On a non-empty history over a linearly ordered element type,
`eliminarMenor` leaves the chain with position `i` erased, where `i` is the first
position holding the least value: every reading is at least `nodos[i]`, and every
reading before position `i` is strictly greater.  All other readings keep their
relative order (`List.eraseIdx`). -/
theorem eliminarMenor_quita_primer_minimo [LinearOrder T] (l : ListaSensor T)
    (hne : l.nodos ≠ []) :
    ∃ i, ∃ _ : i < l.nodos.length,
      (∀ x ∈ l.nodos, l.nodos[i] ≤ x) ∧
      (∀ j, j < i → ∀ _ : j < l.nodos.length, l.nodos[i] < l.nodos[j]) ∧
      (eliminarMenor l).nodos = l.nodos.eraseIdx i := by
  obtain ⟨i, hi, hmin, hfirst, herase, _⟩ :=
    eliminarMenor_spec (fun _ : T => True) (fun a _ => lt_irrefl a)
      (fun a b c _ _ _ hab hbc => lt_trans hab hbc)
      (fun a b c _ _ _ hab hbc => not_lt.2 (le_trans (not_lt.1 hbc) (not_lt.1 hab)))
      l hne (fun _ _ => trivial)
  exact ⟨i, hi, fun x hx => not_lt.1 (hmin x hx), hfirst, herase⟩

/-- Witness for C1 on the history `[3, 1, 2, 1]`, which becomes `[3, 2, 1]`. -/
theorem eliminarMenor_quita_primer_minimo_witness :
    (eliminarMenor (⟨[3, 1, 2, 1], 4⟩ : ListaSensor Int)).nodos = [3, 2, 1] ∧
    ∃ i, ∃ _ : i < ([3, 1, 2, 1] : List Int).length,
      (∀ x ∈ ([3, 1, 2, 1] : List Int), ([3, 1, 2, 1] : List Int)[i] ≤ x) ∧
      (∀ j, j < i → ∀ _ : j < ([3, 1, 2, 1] : List Int).length,
        ([3, 1, 2, 1] : List Int)[i] < ([3, 1, 2, 1] : List Int)[j]) ∧
      (eliminarMenor (⟨[3, 1, 2, 1], 4⟩ : ListaSensor Int)).nodos
        = ([3, 1, 2, 1] : List Int).eraseIdx i :=
  ⟨by decide,
    eliminarMenor_quita_primer_minimo (⟨[3, 1, 2, 1], 4⟩ : ListaSensor Int) (by decide)⟩

/-- Claim C2. `insertar` puts the new value at the tail: the chain becomes
`nodos ++ [valor]`, so every earlier position keeps its reading, and `getCantidad`
grows by exactly one. -/
theorem insertar_al_final (l : ListaSensor T) (valor : T) :
    (l.insertar valor).nodos = l.nodos ++ [valor] ∧
    (∀ i, i < l.nodos.length → (l.insertar valor).nodos[i]? = l.nodos[i]?) ∧
    (l.insertar valor).nodos[l.nodos.length]? = some valor ∧
    (l.insertar valor).nodos.length = l.nodos.length + 1 ∧
    (l.insertar valor).getCantidad = l.getCantidad + 1 := by
  have h : (l.insertar valor).nodos = l.nodos ++ [valor] := enlazarAlFinal_eq_append valor l.nodos
  refine ⟨h, ?_, ?_, ?_, rfl⟩
  · intro i hi
    rw [h, List.getElem?_append_left hi]
  · rw [h, List.getElem?_concat_length]
  · rw [h]; simp

/-- Witness for C2: inserting `7` into `[3, 1]`. -/
theorem insertar_al_final_witness :
    (insertar (⟨[3, 1], 2⟩ : ListaSensor Int) 7).nodos = [3, 1] ++ [7] ∧
    (insertar (⟨[3, 1], 2⟩ : ListaSensor Int) 7).nodos[0]? = ([3, 1] : List Int)[0]? ∧
    (insertar (⟨[3, 1], 2⟩ : ListaSensor Int) 7).getCantidad = 3 :=
  ⟨(insertar_al_final (⟨[3, 1], 2⟩ : ListaSensor Int) 7).1,
    (insertar_al_final (⟨[3, 1], 2⟩ : ListaSensor Int) 7).2.1 0 (by decide),
    (insertar_al_final (⟨[3, 1], 2⟩ : ListaSensor Int) 7).2.2.2.2⟩

/-- Every reachable history satisfies the class invariant. -/
theorem coherente_of_alcanzable [LT T] [DecidableRel (fun a b : T => a < b)]
    (l : ListaSensor T) (h : Alcanzable l) : Coherente l := by
  induction h with
  | vacia => simp [Coherente, vacia]
  | insertar l valor _ ih =>
    simp only [Coherente, insertar, enlazarAlFinal_eq_append] at ih ⊢
    simp [ih]
  | eliminarMenor l _ ih =>
    obtain ⟨nodos, cantidad⟩ := l
    cases nodos with
    | nil => exact ih
    | cons cabeza resto =>
      simp only [Coherente] at ih
      simp only [Coherente, eliminarMenor]
      have hlt := buscarMenor_lt_length cabeza resto
      rw [List.length_eraseIdx_of_lt hlt, ih]
      simp
  | copiar other _ _ =>
    simp [Coherente, copiar, foldl_insertar, vacia]
  | asignar this other _ _ _ _ =>
    simp [Coherente, asignar, foldl_insertar]
  | asignarMismo this _ ih =>
    simpa [asignar] using ih

/-- Claim C3. For every history reachable from the empty one by `insertar`,
`eliminarMenor`, copy construction and assignment, `getCantidad` is the number of nodes
of the chain and is not negative; `N` further insertions add exactly `N` to it, so that
`N` insertions into the empty history give `N`. -/
theorem getCantidad_es_numero_de_nodos [LT T] [DecidableRel (fun a b : T => a < b)]
    (l : ListaSensor T) (h : Alcanzable l) :
    l.getCantidad = (l.nodos.length : Int) ∧ 0 ≤ l.getCantidad ∧
    (∀ vs : List T, (vs.foldl insertar l).getCantidad = (l.nodos.length : Int) + vs.length) ∧
    (∀ vs : List T, (vs.foldl insertar (vacia : ListaSensor T)).getCantidad = vs.length) := by
  have hc : l.cantidad = (l.nodos.length : Int) := coherente_of_alcanzable l h
  refine ⟨hc, ?_, ?_, ?_⟩
  · show 0 ≤ l.cantidad
    rw [hc]; exact Int.natCast_nonneg _
  · intro vs
    rw [foldl_insertar]
    show l.cantidad + vs.length = _
    rw [hc]
  · intro vs
    rw [foldl_insertar]
    simp [getCantidad, vacia]

/-- Witness for C3: the history obtained from the empty one by inserting `5`, `2`, `9`,
removing the least reading, copying, and assigning that copy over another history. -/
theorem getCantidad_es_numero_de_nodos_witness :
    (asignar false (insertar vacia 4)
        (copiar (eliminarMenor (insertar (insertar (insertar
          (vacia : ListaSensor Int) 5) 2) 9)))).getCantidad = 2 ∧
    (([1, 2, 3] : List Int).foldl insertar (vacia : ListaSensor Int)).getCantidad = 3 :=
  have h := getCantidad_es_numero_de_nodos
    (asignar false (insertar vacia 4)
      (copiar (eliminarMenor (insertar (insertar (insertar (vacia : ListaSensor Int) 5) 2) 9))))
    (Alcanzable.asignar _ _ (Alcanzable.insertar _ _ Alcanzable.vacia)
      (Alcanzable.copiar _ (Alcanzable.eliminarMenor _
        (Alcanzable.insertar _ _ (Alcanzable.insertar _ _
          (Alcanzable.insertar _ _ Alcanzable.vacia))))))
  ⟨h.1, h.2.2.2 [1, 2, 3]⟩

/-- From `suma = 0` and `count = 0` the loop of `calcularPromedio` leaves, on `int`
readings, the wrapped sum of the chain and its length. -/
theorem acumular_int (xs : List Int) :
    acumular xs (Lectura.cero : Int) 0 = (envolver32 xs.sum, (xs.length : Int)) := by
  have h1 := acumular_suma_int xs 0 0
  have h2 := acumular_count xs (0 : Int) 0
  have h0 : envolver32 0 = 0 := by decide
  rw [h0, zero_add] at h1
  rw [zero_add] at h2
  exact Prod.ext h1 h2

/-- Claim C4. On a non-empty `int` history `calcularPromedio` is the float quotient of
the sum of the readings, accumulated in a 32-bit `int` and converted to float, by the
number of readings converted to float: a float division, not the integer one. -/
theorem calcularPromedio_int (l : ListaSensor Int) (hne : l.nodos ≠ []) :
    calcularPromedio l =
      F32.div (F32.ofInt (envolver32 l.nodos.sum)) (F32.ofInt (l.nodos.length : Int)) := by
  obtain ⟨nodos, cantidad⟩ := l
  cases nodos with
  | nil => exact absurd rfl hne
  | cons cabeza resto =>
    show F32.div (F32.ofInt (acumular (cabeza :: resto) (Lectura.cero : Int) 0).1)
      (F32.ofInt (acumular (cabeza :: resto) (Lectura.cero : Int) 0).2) = _
    rw [acumular_int]

/-- Witness for C4: `[80, 85]` gives `82.5` and `[25, 30]` gives `27.5`, where the
integer quotients would be `82` and `27`. -/
theorem calcularPromedio_int_witness :
    calcularPromedio (⟨[80, 85], 2⟩ : ListaSensor Int) =
      F32.div (F32.ofInt (envolver32 ([80, 85] : List Int).sum)) (F32.ofInt 2) ∧
    calcularPromedio (⟨[80, 85], 2⟩ : ListaSensor Int) = F32.num (165 / 2) ∧
    calcularPromedio (⟨[25, 30], 2⟩ : ListaSensor Int) = F32.num (55 / 2) ∧
    calcularPromedio (⟨[80, 85], 2⟩ : ListaSensor Int) ≠ F32.num ((165 / 2 : Int) : ℚ) :=
  ⟨calcularPromedio_int (⟨[80, 85], 2⟩ : ListaSensor Int) (by decide),
    by decide!, by decide!, by decide!⟩

/-- Counterexample to C5 as stated.  The history `[1, 0, 0]` has mean `1/3`, which no
float holds: `calcularPromedio` returns the float next to it.  The history
`[2147483647, 1]` has mean `1073741824`, and `calcularPromedio` returns `-1073741824`,
the 32-bit accumulator having wrapped. -/
theorem calcularPromedio_no_exacto :
    calcularPromedio (([1, 0, 0] : List Int).foldl insertar vacia)
      ≠ F32.num ((([1, 0, 0] : List Int).sum : ℚ) / 3) ∧
    calcularPromedio (([1, 0, 0] : List Int).foldl insertar vacia)
      = F32.num (11184811 / 33554432) ∧
    calcularPromedio (([2147483647, 1] : List Int).foldl insertar vacia)
      ≠ F32.num ((([2147483647, 1] : List Int).sum : ℚ) / 2) ∧
    calcularPromedio (([2147483647, 1] : List Int).foldl insertar vacia)
      = F32.num (-1073741824) :=
  ⟨by decide!, by decide!, by decide!, by decide!⟩

/-- Claim C5, amended. For every non-empty sequence of `int` insertions into an empty
history whose exact sum `S` lies in the 32-bit signed range, and for which `S`, the
number `n` of readings and the quotient `S / n` are binary32 values,
`calcularPromedio` is the exact arithmetic mean `S / n`. -/
theorem calcularPromedio_exacto (vs : List Int) (hne : vs ≠ [])
    (hmin : -2 ^ 31 ≤ vs.sum) (hmax : vs.sum < 2 ^ 31)
    (hS : F32.Representable (vs.sum : ℚ)) (hn : F32.Representable (vs.length : ℚ))
    (hq : F32.Representable ((vs.sum : ℚ) / (vs.length : ℚ))) :
    calcularPromedio (vs.foldl insertar vacia) = F32.num ((vs.sum : ℚ) / (vs.length : ℚ)) := by
  have hnodos : (vs.foldl insertar (vacia : ListaSensor Int)).nodos = vs := by
    rw [foldl_insertar]; simp [vacia]
  have hcalc : calcularPromedio (vs.foldl insertar (vacia : ListaSensor Int)) =
      F32.div (F32.ofInt (envolver32 vs.sum)) (F32.ofInt (vs.length : Int)) := by
    unfold calcularPromedio
    rw [hnodos]
    cases vs with
    | nil => exact absurd rfl hne
    | cons v vs => simp only [acumular_int]; rfl
  rw [hcalc, envolver32_id _ hmin hmax]
  have h1 : F32.ofInt vs.sum = F32.num (vs.sum : ℚ) := hS
  have h2 : F32.ofInt (vs.length : Int) = F32.num (vs.length : ℚ) := by
    have : ((vs.length : Int) : ℚ) = (vs.length : ℚ) := by push_cast; rfl
    unfold F32.ofInt
    rw [this]; exact hn
  have h3 : (vs.length : ℚ) ≠ 0 := by
    have : vs.length ≠ 0 := fun h => hne (List.length_eq_zero.1 h)
    exact_mod_cast this
  rw [h1, h2]
  show (if (vs.length : ℚ) = 0 then _ else F32.redondear ((vs.sum : ℚ) / (vs.length : ℚ))) = _
  rw [if_neg h3]
  exact hq

/-- Witness for C5 amended: the insertions `80`, `85` give the exact mean `165 / 2`. -/
theorem calcularPromedio_exacto_witness :
    calcularPromedio (([80, 85] : List Int).foldl insertar vacia) =
      F32.num (((([80, 85] : List Int).sum : Int) : ℚ) / (([80, 85] : List Int).length : ℚ)) :=
  calcularPromedio_exacto [80, 85] (by decide) (by decide) (by decide) (by decide!) (by decide!)
    (by decide!)

/-- Claim C6. `calcularPromedio` returns `0.0` on the empty history.  On every other
history the loop ends with `count` equal to the number of nodes, which is at least one;
the divisor, `count` converted to float, is therefore not zero, and the result is the
float division by it.  The function is defined on every history. -/
theorem calcularPromedio_sin_division_por_cero [Lectura T] (l : ListaSensor T) :
    (l.nodos = [] → calcularPromedio l = F32.num 0) ∧
    (l.nodos ≠ [] →
      (acumular l.nodos Lectura.cero 0).2 = (l.nodos.length : Int) ∧
      1 ≤ (acumular l.nodos Lectura.cero 0).2 ∧
      F32.ofInt (acumular l.nodos Lectura.cero 0).2 ≠ F32.num 0 ∧
      calcularPromedio l =
        F32.div (Lectura.aFloat (acumular l.nodos Lectura.cero 0).1)
          (F32.ofInt (acumular l.nodos Lectura.cero 0).2)) := by
  obtain ⟨nodos, cantidad⟩ := l
  cases nodos with
  | nil => exact ⟨fun _ => rfl, fun h => absurd rfl h⟩
  | cons cabeza resto =>
    refine ⟨fun h => absurd h (List.cons_ne_nil _ _), fun _ => ?_⟩
    have h2 := acumular_count (cabeza :: resto) (Lectura.cero : T) 0
    rw [zero_add] at h2
    have h1 : 1 ≤ (acumular (cabeza :: resto) (Lectura.cero : T) 0).2 := by
      rw [h2]
      simp only [List.length_cons, Nat.cast_add, Nat.cast_one]
      omega
    exact ⟨h2, h1, F32.ofInt_ne_zero _ h1, rfl⟩

/-- Witness for C6: the empty `int` history and the history `[80, 85]`. -/
theorem calcularPromedio_sin_division_por_cero_witness :
    calcularPromedio (vacia : ListaSensor Int) = F32.num 0 ∧
    (acumular ([80, 85] : List Int) Lectura.cero 0).2 = 2 ∧
    1 ≤ (acumular ([80, 85] : List Int) Lectura.cero 0).2 :=
  ⟨(calcularPromedio_sin_division_por_cero (vacia : ListaSensor Int)).1 rfl,
    ((calcularPromedio_sin_division_por_cero (⟨[80, 85], 2⟩ : ListaSensor Int)).2
      (by decide)).1,
    ((calcularPromedio_sin_division_por_cero (⟨[80, 85], 2⟩ : ListaSensor Int)).2
      (by decide)).2.1⟩

/-- Claim C7. `eliminarMenor` does nothing on an empty history, whose `getCantidad`
therefore stays `0`; on every non-empty history exactly one node leaves the chain and
`getCantidad` decreases by exactly one. -/
theorem eliminarMenor_cantidad [LT T] [DecidableRel (fun a b : T => a < b)]
    (l : ListaSensor T) :
    (l.nodos = [] → eliminarMenor l = l) ∧
    (eliminarMenor (vacia : ListaSensor T) = vacia ∧
      (eliminarMenor (vacia : ListaSensor T)).getCantidad = 0) ∧
    (l.nodos ≠ [] →
      (eliminarMenor l).getCantidad = l.getCantidad - 1 ∧
      (eliminarMenor l).nodos.length + 1 = l.nodos.length) := by
  obtain ⟨nodos, cantidad⟩ := l
  cases nodos with
  | nil => exact ⟨fun _ => rfl, ⟨rfl, rfl⟩, fun h => absurd rfl h⟩
  | cons cabeza resto =>
    refine ⟨fun h => absurd h (List.cons_ne_nil _ _), ⟨rfl, rfl⟩, fun _ => ⟨rfl, ?_⟩⟩
    have hlt := buscarMenor_lt_length cabeza resto
    show ((cabeza :: resto).eraseIdx (buscarMenor (cabeza :: resto) 0 0 cabeza)).length + 1 = _
    rw [List.length_eraseIdx_of_lt hlt]
    simp

/-- Witness for C7: the empty `int` history and the history `[3, 1, 2, 1]`. -/
theorem eliminarMenor_cantidad_witness :
    eliminarMenor (vacia : ListaSensor Int) = vacia ∧
    (eliminarMenor (⟨[3, 1, 2, 1], 4⟩ : ListaSensor Int)).getCantidad = 4 - 1 ∧
    (eliminarMenor (⟨[3, 1, 2, 1], 4⟩ : ListaSensor Int)).nodos.length + 1 = 4 :=
  ⟨(eliminarMenor_cantidad (vacia : ListaSensor Int)).1 rfl,
    ((eliminarMenor_cantidad (⟨[3, 1, 2, 1], 4⟩ : ListaSensor Int)).2.2 (by decide)).1,
    ((eliminarMenor_cantidad (⟨[3, 1, 2, 1], 4⟩ : ListaSensor Int)).2.2 (by decide)).2⟩

end ListaSensor

/-! ## The claims on the sensors -/

namespace SensorTemperatura

open ListaSensor

/-- Claim C8. A Temperature sensor with more than one reading, all of them numbers:
`procesarLectura` erases position `i` of the history, the first position holding a
least reading (no reading is below `nodos[i]`, those before it are strictly above);
the count goes down by one, and the line printed carries the mean of the history left
after the removal together with that new count. -/
theorem procesarLectura_elimina_menor (s : SensorTemperatura)
    (hinv : s.historial.Coherente)
    (hnum : ∀ x ∈ s.historial.nodos, x.esNumero = true)
    (h : 1 < s.historial.nodos.length) :
    ∃ i, ∃ _ : i < s.historial.nodos.length,
      (∀ x ∈ s.historial.nodos, ¬ x < s.historial.nodos[i]) ∧
      (∀ j, j < i → ∀ _ : j < s.historial.nodos.length,
        s.historial.nodos[i] < s.historial.nodos[j]) ∧
      (procesarLectura s).1.historial.nodos = s.historial.nodos.eraseIdx i ∧
      (procesarLectura s).1.historial.getCantidad = s.historial.getCantidad - 1 ∧
      (procesarLectura s).1.historial.getCantidad = ((s.historial.nodos.eraseIdx i).length : Int) ∧
      (procesarLectura s).1.id = s.id ∧
      (procesarLectura s).2.mensaje =
        Mensaje.menorEliminada
          (calcularPromedio
            (⟨s.historial.nodos.eraseIdx i, s.historial.getCantidad - 1⟩ : ListaSensor F32))
          (s.historial.getCantidad - 1) := by
  have hne : s.historial.nodos ≠ [] := by
    intro h0; rw [h0] at h; simp at h
  obtain ⟨i, hi, hmin, hfirst, herase, hcant⟩ :=
    eliminarMenor_spec (fun x : F32 => x.esNumero = true) (fun a _ => F32.lt_irrefl_numero a)
      (fun a b c _ _ _ hab hbc => F32.lt_trans_numero a b c hab hbc)
      F32.lt_negtrans_numero s.historial hne hnum
  have hc : s.historial.cantidad = (s.historial.nodos.length : Int) := hinv
  have hgt : s.historial.getCantidad > 1 := by
    show s.historial.cantidad > 1
    rw [hc]; exact_mod_cast h
  have hproc : procesarLectura s =
      ({ s with historial := s.historial.eliminarMenor },
        ⟨TipoSensor.temperatura, s.getId,
          Mensaje.menorEliminada s.historial.eliminarMenor.calcularPromedio
            s.historial.eliminarMenor.getCantidad⟩) := by
    unfold procesarLectura
    simp only [if_pos hgt]
  have hel : s.historial.eliminarMenor =
      (⟨s.historial.nodos.eraseIdx i, s.historial.getCantidad - 1⟩ : ListaSensor F32) := by
    cases hs : s.historial.eliminarMenor with
    | mk nodos cantidad =>
      rw [hs] at herase hcant
      simp only at herase hcant
      rw [herase, hcant]; rfl
  refine ⟨i, hi, hmin, hfirst, ?_, ?_, ?_, ?_, ?_⟩
  · rw [hproc]; exact herase
  · rw [hproc]; exact hcant
  · rw [hproc]
    show s.historial.eliminarMenor.cantidad = _
    rw [hcant, hc, List.length_eraseIdx_of_lt hi]
    have : 1 ≤ s.historial.nodos.length := by omega
    push_cast [this]; rfl
  · rw [hproc]
  · rw [hproc]
    show Mensaje.menorEliminada s.historial.eliminarMenor.calcularPromedio
      s.historial.eliminarMenor.getCantidad = _
    rw [hel]; rfl

/-- Witness for C8: the readings `45.3f` and `42.1f` registered on a new sensor;
processing leaves `[45.3f]` and prints the mean `45.3f` over one reading. -/
theorem procesarLectura_elimina_menor_witness :
    (procesarLectura (registrarLectura (registrarLectura (crear "T-001")
      (F32.redondear (453 / 10))) (F32.redondear (421 / 10)))).1.historial
        = ⟨[F32.redondear (453 / 10)], 1⟩ ∧
    (procesarLectura (registrarLectura (registrarLectura (crear "T-001")
      (F32.redondear (453 / 10))) (F32.redondear (421 / 10)))).2.mensaje
        = Mensaje.menorEliminada (F32.redondear (453 / 10)) 1 ∧
    ∃ i, ∃ _ : i < ([F32.redondear (453 / 10), F32.redondear (421 / 10)] : List F32).length,
      (procesarLectura (registrarLectura (registrarLectura (crear "T-001")
        (F32.redondear (453 / 10))) (F32.redondear (421 / 10)))).1.historial.nodos
          = ([F32.redondear (453 / 10), F32.redondear (421 / 10)] : List F32).eraseIdx i :=
  ⟨by decide!, by decide!,
    (procesarLectura_elimina_menor
      (registrarLectura (registrarLectura (crear "T-001")
        (F32.redondear (453 / 10))) (F32.redondear (421 / 10)))
      (by decide) (by decide!) (by decide)).imp
      (fun _ hi => hi.imp (fun _ hc => hc.2.2.1))⟩

/-- Claim C9. A Temperature sensor with at most one reading is left as it is by
`procesarLectura`; with exactly one reading the line printed carries that reading, the
head of the history, and with none it says there is nothing to process. -/
theorem procesarLectura_sin_eliminar (s : SensorTemperatura)
    (hinv : s.historial.Coherente) (h : s.historial.nodos.length ≤ 1) :
    (procesarLectura s).1 = s ∧
    (∀ x, s.historial.nodos = [x] →
      (procesarLectura s).2.mensaje = Mensaje.unicaLectura x ∧ s.historial.getPrimero = x) ∧
    (s.historial.nodos = [] → (procesarLectura s).2.mensaje = Mensaje.sinLecturas) := by
  have hc : s.historial.cantidad = (s.historial.nodos.length : Int) := hinv
  have hle : ¬ s.historial.getCantidad > 1 := by
    show ¬ s.historial.cantidad > 1
    rw [hc]; exact_mod_cast not_lt.2 h
  refine ⟨?_, ?_, ?_⟩
  · unfold procesarLectura
    simp only [if_neg hle]
    split <;> rfl
  · intro x hx
    have h1 : s.historial.getCantidad = 1 := by
      show s.historial.cantidad = 1
      rw [hc, hx]; rfl
    have hp : s.historial.getPrimero = x := by
      unfold getPrimero; rw [hx]
    refine ⟨?_, hp⟩
    unfold procesarLectura
    simp only [if_neg hle, if_pos h1, hp]
  · intro h0
    have h1 : ¬ s.historial.getCantidad = 1 := by
      show ¬ s.historial.cantidad = 1
      rw [hc, h0]; decide
    unfold procesarLectura
    simp only [if_neg hle, if_neg h1]

/-- Witness for C9: a sensor holding the single reading `45.3f`, and a new sensor. -/
theorem procesarLectura_sin_eliminar_witness :
    (procesarLectura (registrarLectura (crear "T-001") (F32.redondear (453 / 10)))).1
      = registrarLectura (crear "T-001") (F32.redondear (453 / 10)) ∧
    (procesarLectura (registrarLectura (crear "T-001") (F32.redondear (453 / 10)))).2.mensaje
      = Mensaje.unicaLectura (F32.redondear (453 / 10)) ∧
    (procesarLectura (crear "T-001")).2.mensaje = Mensaje.sinLecturas :=
  ⟨(procesarLectura_sin_eliminar
      (registrarLectura (crear "T-001") (F32.redondear (453 / 10))) (by decide) (by decide)).1,
    ((procesarLectura_sin_eliminar
      (registrarLectura (crear "T-001") (F32.redondear (453 / 10))) (by decide) (by decide)).2.1
        (F32.redondear (453 / 10)) rfl).1,
    (procesarLectura_sin_eliminar (crear "T-001") (by decide) (by decide)).2.2 rfl⟩

end SensorTemperatura

namespace SensorPresion

open ListaSensor

/-- Claim C10. `procesarLectura` of a Pressure sensor removes nothing: the sensor is
left exactly as it was, whatever its history; the line printed carries the mean and
the count of the history, the mean being `0.0` when there is no reading; processing a
second time prints the same line. -/
theorem procesarLectura_no_elimina (s : SensorPresion) :
    (procesarLectura s).1 = s ∧
    (procesarLectura s).2.mensaje =
      Mensaje.promedioLecturas s.historial.calcularPromedio s.historial.getCantidad ∧
    (s.historial.nodos = [] →
      (procesarLectura s).2.mensaje =
        Mensaje.promedioLecturas (F32.num 0) s.historial.getCantidad) ∧
    (procesarLectura (procesarLectura s).1).2 = (procesarLectura s).2 := by
  refine ⟨rfl, rfl, ?_, rfl⟩
  intro h0
  show Mensaje.promedioLecturas s.historial.calcularPromedio s.historial.getCantidad = _
  unfold calcularPromedio
  rw [h0]

/-- Witness for C10: the readings `80` and `85` give count `2` and mean `82.5`, on the
first processing and on the second; a sensor without readings gives mean `0.0`. -/
theorem procesarLectura_no_elimina_witness :
    (procesarLectura ⟨SensorBase.crear "P-105", ⟨[80, 85], 2⟩⟩).2.mensaje
      = Mensaje.promedioLecturas (F32.num (165 / 2)) 2 ∧
    (procesarLectura (procesarLectura ⟨SensorBase.crear "P-105", ⟨[80, 85], 2⟩⟩).1).2.mensaje
      = Mensaje.promedioLecturas (F32.num (165 / 2)) 2 ∧
    (procesarLectura (crear "P-105")).2.mensaje = Mensaje.promedioLecturas (F32.num 0) 0 :=
  ⟨by decide!, by decide!, (procesarLectura_no_elimina (crear "P-105")).2.2.1 rfl⟩

end SensorPresion

/-! ## Lemmas on C strings and identifiers -/

theorem cadena_eq_self (p : List Char) (h : ∀ c ∈ p, c ≠ nulo) : cadena p = p := by
  unfold cadena
  rw [List.takeWhile_eq_self_iff]
  intro c hc
  simpa using h c hc

theorem cadena_sin_nulo (p : List Char) : ∀ c ∈ cadena p, c ≠ nulo := by
  intro c hc
  have := List.mem_takeWhile_imp hc
  simpa using this

theorem cadena_idem (p : List Char) : cadena (cadena p) = cadena p :=
  cadena_eq_self _ (cadena_sin_nulo p)

/-- The C string of a buffer that holds terminator-free characters and then a
terminator. -/
theorem cadena_append_nulo (p q : List Char) (h : ∀ c ∈ p, c ≠ nulo) :
    cadena (p ++ nulo :: q) = p := by
  unfold cadena
  rw [List.takeWhile_append_of_pos (by intro c hc; simpa using h c hc)]
  simp

/-- The C string in the buffer filled by `strncpy` of `n` characters and a terminator
behind them: the first `n` characters of the source string. -/
theorem cadena_strncpy (src : List Char) (n : Nat) :
    cadena (strncpy src n ++ [nulo]) = (cadena src).take n := by
  have hsn : ∀ c ∈ (cadena src).take n, c ≠ nulo :=
    fun c hc => cadena_sin_nulo src c (List.mem_of_mem_take hc)
  unfold strncpy
  simp only [List.append_assoc]
  cases hk : n - ((cadena src).take n).length with
  | zero => simpa using cadena_append_nulo _ [] hsn
  | succ k =>
    rw [List.replicate_succ, List.cons_append]
    exact cadena_append_nulo _ _ hsn

namespace SensorBase

theorem getId_crear (sensorId : String) :
    (crear sensorId).getId = String.mk ((cadena sensorId.data).take 49) := by
  unfold getId crear
  rw [cadena_strncpy]

theorem getId_sin_nulo (b : SensorBase) : ∀ c ∈ b.getId.data, c ≠ nulo :=
  cadena_sin_nulo b.id

/-- On the string of an identifier `strcmp` is the equality with the other string. -/
theorem strcmpIgual_getId (b : SensorBase) (q : String) (hq : ∀ c ∈ q.data, c ≠ nulo) :
    strcmpIgual b.getId.data q.data = true ↔ b.getId = q := by
  unfold strcmpIgual
  rw [cadena_eq_self _ (getId_sin_nulo b), cadena_eq_self _ hq, beq_iff_eq]
  constructor
  · intro h; exact String.ext h
  · intro h; rw [h]

end SensorBase

namespace Sensor

theorem sensor_getId_sin_nulo (s : Sensor) : ∀ c ∈ s.getId.data, c ≠ nulo := by
  cases s <;> exact SensorBase.getId_sin_nulo _

theorem sensor_strcmpIgual_getId (s : Sensor) (q : String) (hq : ∀ c ∈ q.data, c ≠ nulo) :
    strcmpIgual s.getId.data q.data = true ↔ s.getId = q := by
  cases s <;> exact SensorBase.strcmpIgual_getId _ q hq

theorem sensor_getId_crear (tipo : TipoSensor) (sensorId : String) :
    (crear tipo sensorId).getId = String.mk ((cadena sensorId.data).take 49) := by
  cases tipo <;> exact SensorBase.getId_crear sensorId

theorem getId_registrarLectura (s : Sensor) (lectura : F32) :
    (s.registrarLectura lectura).getId = s.getId := by
  cases s <;> rfl

theorem getId_procesarLectura (s : Sensor) : s.procesarLectura.1.getId = s.getId := by
  cases s with
  | temperatura t =>
    show (SensorTemperatura.procesarLectura t).1.getId = t.getId
    unfold SensorTemperatura.procesarLectura
    simp only
    split_ifs <;> rfl
  | presion p => rfl
  | vibracion v =>
    show (SensorVibracion.procesarLectura v).1.getId = v.getId
    unfold SensorVibracion.procesarLectura
    split_ifs <;> rfl

theorem imprimirInfo_fst (s : Sensor) : s.imprimirInfo.1 = s := by
  cases s <;> rfl

theorem getId_llamar (s : Sensor) (c : Llamada) : (s.llamar c).getId = s.getId := by
  cases c with
  | registrarLectura lectura => exact getId_registrarLectura s lectura
  | procesarLectura => exact getId_procesarLectura s
  | imprimirInfo => show s.imprimirInfo.1.getId = s.getId; rw [imprimirInfo_fst]

theorem getId_foldl_llamar (llamadas : List Llamada) :
    ∀ s : Sensor, (llamadas.foldl llamar s).getId = s.getId := by
  induction llamadas with
  | nil => intro s; rfl
  | cons c cs ih => intro s; rw [List.foldl_cons, ih, getId_llamar]

end Sensor

/-! ## Lemmas on the registry -/

namespace SistemaGestion

theorem enlazarSensor_eq_append (sensor : Sensor) (xs : List Sensor) :
    enlazarAlFinal sensor xs = xs ++ [sensor] := by
  induction xs with
  | nil => rfl
  | cons x xs ih => simp [enlazarAlFinal, ih]

/-- The search loop finds nothing exactly when no identifier in the chain compares
equal. -/
theorem buscarDesde_eq_none (id : String) :
    ∀ (actual : List Sensor) (pos : Nat),
      buscarDesde actual pos id = none ↔
        ∀ s ∈ actual, strcmpIgual s.getId.data id.data = false := by
  intro actual
  induction actual with
  | nil => intro pos; simp [buscarDesde]
  | cons s siguiente ih =>
    intro pos
    unfold buscarDesde
    by_cases h : strcmpIgual s.getId.data id.data = true
    · rw [if_pos h]
      simp [h]
    · rw [if_neg h, ih]
      simp only [Bool.not_eq_true] at h
      simp [h]

/-- The search loop returns the first position whose identifier compares equal. -/
theorem buscarDesde_eq_some (id : String) :
    ∀ (actual : List Sensor) (pos i : Nat),
      buscarDesde actual pos id = some i ↔
        ∃ k, i = pos + k ∧
          (∃ s, actual[k]? = some s ∧ strcmpIgual s.getId.data id.data = true) ∧
          ∀ j t, j < k → actual[j]? = some t → strcmpIgual t.getId.data id.data = false := by
  intro actual
  induction actual with
  | nil => intro pos i; simp [buscarDesde]
  | cons s siguiente ih =>
    intro pos i
    unfold buscarDesde
    by_cases h : strcmpIgual s.getId.data id.data = true
    · rw [if_pos h]
      constructor
      · intro hi
        injection hi with hi
        exact ⟨0, by omega, ⟨s, List.getElem?_cons_zero, h⟩,
          fun j t hj _ => absurd hj (Nat.not_lt_zero j)⟩
      · rintro ⟨k, hk, _, hantes⟩
        cases k with
        | zero => rw [hk]; rfl
        | succ k =>
          have := hantes 0 s (Nat.succ_pos k) List.getElem?_cons_zero
          rw [h] at this
          exact absurd this (by decide)
    · rw [if_neg h, ih]
      simp only [Bool.not_eq_true] at h
      constructor
      · rintro ⟨k, hk, ⟨t, ht, hpt⟩, hantes⟩
        refine ⟨k + 1, by omega, ⟨t, by simpa using ht, hpt⟩, ?_⟩
        intro j u hj hu
        cases j with
        | zero =>
          simp only [List.getElem?_cons_zero, Option.some.injEq] at hu
          rw [← hu]; exact h
        | succ j =>
          exact hantes j u (by omega) (by simpa using hu)
      · rintro ⟨k, hk, ⟨t, ht, hpt⟩, hantes⟩
        cases k with
        | zero =>
          simp only [List.getElem?_cons_zero, Option.some.injEq] at ht
          rw [← ht, h] at hpt
          exact absurd hpt (by decide)
        | succ k =>
          refine ⟨k, by omega, ⟨t, by simpa using ht, hpt⟩, ?_⟩
          intro j u hj hu
          exact hantes (j + 1) u (by omega) (by simpa using hu)

theorem buscarDesde_cons (id : String) (s : Sensor) (siguiente : List Sensor) (pos : Nat) :
    buscarDesde (s :: siguiente) pos id =
      if strcmpIgual s.getId.data id.data then some pos
      else buscarDesde siguiente (pos + 1) id := rfl

/-- Searching a chain made of two parts: the first part is searched first. -/
theorem buscarDesde_append (id : String) :
    ∀ (a b : List Sensor) (pos : Nat),
      buscarDesde (a ++ b) pos id =
        match buscarDesde a pos id with
        | some i => some i
        | none => buscarDesde b (pos + a.length) id := by
  intro a
  induction a with
  | nil => intro b pos; simp [buscarDesde]
  | cons s siguiente ih =>
    intro b pos
    simp only [List.cons_append, List.length_cons]
    rw [buscarDesde_cons, buscarDesde_cons]
    by_cases h : strcmpIgual s.getId.data id.data = true
    · simp only [if_pos h]
    · simp only [if_neg h]
      rw [ih]
      have : pos + 1 + siguiente.length = pos + (siguiente.length + 1) := by omega
      rw [this]

theorem procesarDesde_eq_map (actual : List Sensor) :
    procesarDesde actual =
      (actual.map (fun s => s.procesarLectura.1), actual.map (fun s => s.procesarLectura.2)) := by
  induction actual with
  | nil => rfl
  | cons s siguiente ih => simp [procesarDesde, ih]

theorem imprimirDesde_eq_map (actual : List Sensor) :
    imprimirDesde actual = (actual, actual.map (fun s => s.imprimirInfo.2)) := by
  induction actual with
  | nil => rfl
  | cons s siguiente ih => simp [imprimirDesde, ih, Sensor.imprimirInfo_fst]

end SistemaGestion

/-! ## The conversion from float to int -/

namespace F32

/-- Dropping the fractional part is the floor of a rational that is not negative and
the ceiling of a negative one. -/
theorem truncar_eq (q : ℚ) : truncar q = if 0 ≤ q then ⌊q⌋ else ⌈q⌉ := by
  unfold truncar
  by_cases h : 0 ≤ q
  · rw [if_pos h, Rat.floor_def]
    exact Int.tdiv_eq_ediv (Rat.num_nonneg.2 h) (Int.natCast_nonneg _)
  · rw [if_neg h]
    have hneg : 0 ≤ -q := by linarith [not_le.1 h]
    have h1 : ⌈q⌉ = -⌊-q⌋ := by rw [Int.floor_neg, neg_neg]
    rw [h1, Rat.floor_def, Rat.neg_num, Rat.neg_den]
    have h2 : 0 ≤ -q.num := by
      have := Rat.num_nonneg.2 hneg
      rwa [Rat.neg_num] at this
    rw [← Int.tdiv_eq_ediv h2 (Int.natCast_nonneg _), Int.neg_tdiv, neg_neg]

end F32

/-! ## The claims on the sensors, continued -/

namespace SensorVibracion

open ListaSensor

/-- Claim C11. `procesarLectura` of a Vibration sensor leaves the sensor, and so its
history, exactly as it was.  With a count above zero the line printed carries that
count and the mean of the history; with a count of zero it says there is nothing to
process and carries no mean.  When the count is the number of readings, the first case
is that of a non-empty history and the second that of the empty one. -/
theorem procesarLectura_solo_informa (s : SensorVibracion) :
    (procesarLectura s).1 = s ∧
    (0 < s.historial.getCantidad →
      (procesarLectura s).2.mensaje =
        Mensaje.conteoVibraciones s.historial.getCantidad s.historial.calcularPromedio) ∧
    (s.historial.getCantidad = 0 → (procesarLectura s).2.mensaje = Mensaje.sinLecturas) ∧
    (s.historial.Coherente → s.historial.nodos ≠ [] →
      (procesarLectura s).2.mensaje =
        Mensaje.conteoVibraciones (s.historial.nodos.length : Int)
          s.historial.calcularPromedio) ∧
    (s.historial.Coherente → s.historial.nodos = [] →
      (procesarLectura s).2.mensaje = Mensaje.sinLecturas) := by
  have hpos : 0 < s.historial.getCantidad →
      procesarLectura s = (s, ⟨TipoSensor.vibracion, s.getId,
        Mensaje.conteoVibraciones s.historial.getCantidad s.historial.calcularPromedio⟩) := by
    intro h
    unfold procesarLectura
    rw [if_pos h]
  have hzero : ¬ 0 < s.historial.getCantidad →
      procesarLectura s = (s, ⟨TipoSensor.vibracion, s.getId, Mensaje.sinLecturas⟩) := by
    intro h
    unfold procesarLectura
    rw [if_neg h]
  refine ⟨?_, ?_, ?_, ?_, ?_⟩
  · by_cases h : 0 < s.historial.getCantidad
    · rw [hpos h]
    · rw [hzero h]
  · intro h; rw [hpos h]
  · intro h; rw [hzero (by omega)]
  · intro hinv hne
    have hc : s.historial.getCantidad = (s.historial.nodos.length : Int) := hinv
    have hlen : 0 < s.historial.nodos.length := List.length_pos.2 hne
    have h : 0 < s.historial.getCantidad := by rw [hc]; exact_mod_cast hlen
    rw [hpos h, hc]
  · intro hinv h0
    have hc : s.historial.getCantidad = (s.historial.nodos.length : Int) := hinv
    have h : ¬ 0 < s.historial.getCantidad := by rw [hc, h0]; decide
    rw [hzero h]

/-- Witness for C11: the readings `25` and `30` give count `2` and mean `27.5`, and the
history stays `[25, 30]`; a new sensor gives the line without a mean. -/
theorem procesarLectura_solo_informa_witness :
    (procesarLectura (registrarLectura (registrarLectura (crear "V-001") (F32.num 25))
      (F32.num 30))).2.mensaje = Mensaje.conteoVibraciones 2 (F32.num (55 / 2)) ∧
    (procesarLectura (registrarLectura (registrarLectura (crear "V-001") (F32.num 25))
      (F32.num 30))).1.historial = ⟨[25, 30], 2⟩ ∧
    (procesarLectura (crear "V-001")).2.mensaje = Mensaje.sinLecturas :=
  ⟨by decide!,
    (congrArg (fun v : SensorVibracion => v.historial)
      (procesarLectura_solo_informa (registrarLectura (registrarLectura (crear "V-001")
        (F32.num 25)) (F32.num 30))).1).trans (by decide),
    (procesarLectura_solo_informa (crear "V-001")).2.2.1 rfl⟩

end SensorVibracion

namespace Sensor

open ListaSensor

/-- Counterexample to C12 as stated.  The raw value `3000000000` is a finite float and
its truncation toward zero is `3000000000`; a Pressure and a Vibration sensor store
`-2147483648` for it. -/
theorem registrarLectura_fuera_de_rango :
    F32.Representable 3000000000 ∧
    ⌊(3000000000 : ℚ)⌋ = 3000000000 ∧
    (SensorPresion.registrarLectura (SensorPresion.crear "P-105")
      (F32.num 3000000000)).historial.nodos = [-2147483648] ∧
    (SensorVibracion.registrarLectura (SensorVibracion.crear "V-001")
      (F32.num 3000000000)).historial.nodos = [-2147483648] ∧
    (SensorPresion.registrarLectura (SensorPresion.crear "P-105")
      (F32.num 3000000000)).historial.nodos ≠ [⌊(3000000000 : ℚ)⌋] :=
  ⟨by decide!, by simp, by decide!, by decide!, by
    rw [show ⌊(3000000000 : ℚ)⌋ = 3000000000 by simp]; decide!⟩

/-- Claim C12, amended. `registrarLectura` appends exactly one element at the tail of
the history of the sensor it is called on and leaves the earlier readings, the
identifier and (count apart) everything else as they were, whatever the raw value: the
raw value itself on a Temperature sensor, its conversion to `int` on a Pressure and on
a Vibration sensor.  For a finite raw value whose truncation toward zero (floor when
not negative, ceiling when negative) lies in the 32-bit signed range, that conversion
is the truncation toward zero. -/
theorem registrarLectura_agrega (st : SensorTemperatura) (sp : SensorPresion)
    (sv : SensorVibracion) (r : F32) :
    ((st.registrarLectura r).historial.nodos = st.historial.nodos ++ [r] ∧
      (st.registrarLectura r).historial.getCantidad = st.historial.getCantidad + 1 ∧
      (st.registrarLectura r).getId = st.getId) ∧
    ((sp.registrarLectura r).historial.nodos = sp.historial.nodos ++ [F32.aInt r] ∧
      (sp.registrarLectura r).historial.getCantidad = sp.historial.getCantidad + 1 ∧
      (sp.registrarLectura r).getId = sp.getId) ∧
    ((sv.registrarLectura r).historial.nodos = sv.historial.nodos ++ [F32.aInt r] ∧
      (sv.registrarLectura r).historial.getCantidad = sv.historial.getCantidad + 1 ∧
      (sv.registrarLectura r).getId = sv.getId) ∧
    (∀ q : ℚ, r = F32.num q →
      -2 ^ 31 ≤ (if 0 ≤ q then ⌊q⌋ else ⌈q⌉) → (if 0 ≤ q then ⌊q⌋ else ⌈q⌉) < 2 ^ 31 →
      F32.aInt r = if 0 ≤ q then ⌊q⌋ else ⌈q⌉) := by
  refine ⟨⟨?_, rfl, rfl⟩, ⟨?_, rfl, rfl⟩, ⟨?_, rfl, rfl⟩, ?_⟩
  · exact enlazarAlFinal_eq_append r st.historial.nodos
  · exact enlazarAlFinal_eq_append (F32.aInt r) sp.historial.nodos
  · exact enlazarAlFinal_eq_append (F32.aInt r) sv.historial.nodos
  · intro q hr hmin hmax
    rw [hr]
    show (if -2 ^ 31 ≤ F32.truncar q ∧ F32.truncar q < 2 ^ 31 then F32.truncar q
      else -2 ^ 31) = _
    rw [F32.truncar_eq, if_pos ⟨hmin, hmax⟩]

/-- Witness for C12 amended: the floats `80.9f` and `-3.7f` are stored as `80` (not the
rounded `81`) and `-3` (not the floor `-4`). -/
theorem registrarLectura_agrega_witness :
    F32.aInt (F32.redondear (809 / 10)) = 80 ∧
    F32.aInt (F32.redondear (-37 / 10)) = -3 ∧
    (SensorPresion.registrarLectura ⟨SensorBase.crear "P-105", ⟨[80, 85], 2⟩⟩
      (F32.redondear (809 / 10))).historial.nodos = [80, 85] ++ [80] ∧
    F32.aInt (F32.num (-37 / 10)) = if (0 : ℚ) ≤ -37 / 10 then ⌊(-37 / 10 : ℚ)⌋ else ⌈(-37 / 10 : ℚ)⌉ :=
  ⟨by decide!, by decide!,
    ((registrarLectura_agrega (SensorTemperatura.crear "T-001")
      ⟨SensorBase.crear "P-105", ⟨[80, 85], 2⟩⟩ (SensorVibracion.crear "V-001")
      (F32.redondear (809 / 10))).2.1.1).trans (by decide!),
    (registrarLectura_agrega (SensorTemperatura.crear "T-001") (SensorPresion.crear "P-105")
      (SensorVibracion.crear "V-001") (F32.num (-37 / 10))).2.2.2 (-37 / 10) rfl
      (by decide!) (by decide!)⟩

end Sensor

/-! ## The claims on the registry -/

namespace SistemaGestion

/-- For a query that is a C string the comparison of the search is the equality of
the identifier with the query. -/
theorem strcmp_false_iff (t : Sensor) (q : String) (hq : ∀ c ∈ q.data, c ≠ nulo) :
    strcmpIgual t.getId.data q.data = false ↔ t.getId ≠ q := by
  rw [Ne, ← Sensor.sensor_strcmpIgual_getId t q hq]
  simp

/-- The position `buscarSensor` returns is the first one with the identifier asked. -/
theorem buscarSensor_eq_some (g : SistemaGestion) (q : String)
    (hq : ∀ c ∈ q.data, c ≠ nulo) (i : Nat) :
    g.buscarSensor q = some i ↔
      ∃ s, g.sensores[i]? = some s ∧ s.getId = q ∧
        ∀ j t, j < i → g.sensores[j]? = some t → t.getId ≠ q := by
  unfold buscarSensor
  rw [buscarDesde_eq_some]
  constructor
  · rintro ⟨k, hk, ⟨s, hs, hps⟩, hantes⟩
    have hik : i = k := by omega
    subst hik
    exact ⟨s, hs, (Sensor.sensor_strcmpIgual_getId s q hq).1 hps,
      fun j t hj ht => (strcmp_false_iff t q hq).1 (hantes j t hj ht)⟩
  · rintro ⟨s, hs, hps, hantes⟩
    exact ⟨i, by omega, ⟨s, hs, (Sensor.sensor_strcmpIgual_getId s q hq).2 hps⟩,
      fun j t hj ht => (strcmp_false_iff t q hq).2 (hantes j t hj ht)⟩

/-- Claim C13. For a query `q` that is a C string, `buscarSensor` returns position `i`
exactly when the sensor at position `i` has identifier `q` (the same characters, all of
them) and no sensor before it has; it returns no sensor exactly when no sensor of the
registry has identifier `q`, as on the empty registry.  The registry itself is only
read: the method is a function of the chain. -/
theorem buscarSensor_primero (g : SistemaGestion) (q : String)
    (hq : ∀ c ∈ q.data, c ≠ nulo) :
    (∀ i, g.buscarSensor q = some i ↔
      ∃ s, g.sensores[i]? = some s ∧ s.getId = q ∧
        ∀ j t, j < i → g.sensores[j]? = some t → t.getId ≠ q) ∧
    (g.buscarSensor q = none ↔ ∀ s ∈ g.sensores, s.getId ≠ q) ∧
    vacio.buscarSensor q = none := by
  refine ⟨buscarSensor_eq_some g q hq, ?_, rfl⟩
  unfold buscarSensor
  rw [buscarDesde_eq_none]
  exact forall_congr' fun s => forall_congr' fun _ => strcmp_false_iff s q hq

/-- Witness for C13: the registry of `T-001`, `P-105`, `V-001` and the queries `P-105`
(found at position 1), `p-105` and `P-10` (not found). -/
theorem buscarSensor_primero_witness :
    buscarSensor (agregarSensor (agregarSensor (agregarSensor vacio
      (Sensor.crear TipoSensor.temperatura "T-001")) (Sensor.crear TipoSensor.presion "P-105"))
      (Sensor.crear TipoSensor.vibracion "V-001")) "P-105" = some 1 ∧
    buscarSensor (agregarSensor (agregarSensor (agregarSensor vacio
      (Sensor.crear TipoSensor.temperatura "T-001")) (Sensor.crear TipoSensor.presion "P-105"))
      (Sensor.crear TipoSensor.vibracion "V-001")) "p-105" = none ∧
    buscarSensor (agregarSensor (agregarSensor (agregarSensor vacio
      (Sensor.crear TipoSensor.temperatura "T-001")) (Sensor.crear TipoSensor.presion "P-105"))
      (Sensor.crear TipoSensor.vibracion "V-001")) "P-10" = none :=
  ⟨((buscarSensor_primero _ "P-105" (by decide)).1 1).2
      ⟨Sensor.crear TipoSensor.presion "P-105", by decide, by decide, by
        intro j t hj ht
        have hj0 : j = 0 := by omega
        subst hj0
        have : t = Sensor.crear TipoSensor.temperatura "T-001" := by
          have h0 : (agregarSensor (agregarSensor (agregarSensor vacio
            (Sensor.crear TipoSensor.temperatura "T-001"))
            (Sensor.crear TipoSensor.presion "P-105"))
            (Sensor.crear TipoSensor.vibracion "V-001")).sensores[0]? =
              some (Sensor.crear TipoSensor.temperatura "T-001") := by decide
          rw [h0] at ht
          exact (Option.some.inj ht).symm
        rw [this]; decide⟩,
    ((buscarSensor_primero _ "p-105" (by decide)).2.1).2 (by decide),
    ((buscarSensor_primero _ "P-10" (by decide)).2.1).2 (by decide)⟩

/-- Counterexample to C14 as stated.  After a Temperature sensor `X`, a Pressure sensor
constructed with the same id `X` is added at position 1: `buscarSensor` returns
position 0, the Temperature sensor.  A sensor constructed with an id of 50 characters
holds only 49 of them, and `buscarSensor` with the id of 50 returns no sensor. -/
theorem buscarSensor_tras_agregar_falla :
    buscarSensor (agregarSensor (agregarSensor vacio (Sensor.crear TipoSensor.temperatura "X"))
      (Sensor.crear TipoSensor.presion "X")) "X" = some 0 ∧
    (agregarSensor (agregarSensor vacio (Sensor.crear TipoSensor.temperatura "X"))
      (Sensor.crear TipoSensor.presion "X")).sensores[1]? =
        some (Sensor.crear TipoSensor.presion "X") ∧
    (agregarSensor (agregarSensor vacio (Sensor.crear TipoSensor.temperatura "X"))
      (Sensor.crear TipoSensor.presion "X")).sensores[0]? ≠
        some (Sensor.crear TipoSensor.presion "X") ∧
    buscarSensor (agregarSensor vacio (Sensor.crear TipoSensor.temperatura
      "01234567890123456789012345678901234567890123456789"))
      "01234567890123456789012345678901234567890123456789" = none :=
  ⟨by decide, by decide, by decide, by decide⟩

/-- Claim C14, amended. If `X` is a C string of at most 49 characters and no sensor of
the registry has identifier `X`, then after `agregarSensor` of a sensor constructed
with id `X`, `buscarSensor` with `X` returns the last position of the registry, which
holds the sensor just added. -/
theorem buscarSensor_tras_agregar (g : SistemaGestion) (tipo : TipoSensor) (X : String)
    (hX : ∀ c ∈ X.data, c ≠ nulo) (hlen : X.length ≤ 49)
    (hnuevo : ∀ s ∈ g.sensores, s.getId ≠ X) :
    buscarSensor (agregarSensor g (Sensor.crear tipo X)) X = some g.sensores.length ∧
    (agregarSensor g (Sensor.crear tipo X)).sensores[g.sensores.length]? =
      some (Sensor.crear tipo X) := by
  have hid : (Sensor.crear tipo X).getId = X := by
    rw [Sensor.sensor_getId_crear, cadena_eq_self _ hX, List.take_of_length_le hlen]
  have hsens : (agregarSensor g (Sensor.crear tipo X)).sensores =
      g.sensores ++ [Sensor.crear tipo X] := enlazarSensor_eq_append _ _
  constructor
  · have hnone : buscarDesde g.sensores 0 X = none := by
      rw [buscarDesde_eq_none]
      intro s hs
      have := hnuevo s hs
      rw [← Bool.not_eq_true]
      exact fun h => this ((Sensor.sensor_strcmpIgual_getId s X hX).1 h)
    unfold buscarSensor
    rw [hsens, buscarDesde_append, hnone]
    simp only [buscarDesde_cons, zero_add]
    rw [if_pos ((Sensor.sensor_strcmpIgual_getId _ X hX).2 hid)]
  · rw [hsens, List.getElem?_concat_length]

/-- Witness for C14 amended: `P-105` added to the registry that holds `T-001`. -/
theorem buscarSensor_tras_agregar_witness :
    buscarSensor (agregarSensor (agregarSensor vacio
      (Sensor.crear TipoSensor.temperatura "T-001"))
      (Sensor.crear TipoSensor.presion "P-105")) "P-105" = some 1 :=
  (buscarSensor_tras_agregar (agregarSensor vacio (Sensor.crear TipoSensor.temperatura "T-001"))
    TipoSensor.presion "P-105" (by decide) (by decide) (by decide)).1

/-- Claim C15. `agregarSensor` appends the sensor at the end of the registry without
any test: the chain becomes `sensores ++ [sensor]`, one entry longer, with every
earlier entry in its place; every search that found a sensor before finds the same one
afterwards.  So when a sensor with the identifier of the new one is already present at
position `i`, the registry afterwards holds two entries with that identifier, at `i`
and at the end, and `buscarSensor` keeps returning `i`. -/
theorem agregarSensor_al_final (g : SistemaGestion) (sensor : Sensor) :
    (agregarSensor g sensor).sensores = g.sensores ++ [sensor] ∧
    (agregarSensor g sensor).sensores.length = g.sensores.length + 1 ∧
    (∀ i, i < g.sensores.length → (agregarSensor g sensor).sensores[i]? = g.sensores[i]?) ∧
    (∀ q i, buscarSensor g q = some i → buscarSensor (agregarSensor g sensor) q = some i) ∧
    (∀ i, buscarSensor g sensor.getId = some i →
      buscarSensor (agregarSensor g sensor) sensor.getId = some i ∧
      i < g.sensores.length ∧
      (∃ t, (agregarSensor g sensor).sensores[i]? = some t ∧ t.getId = sensor.getId) ∧
      (agregarSensor g sensor).sensores[g.sensores.length]? = some sensor) := by
  have hsens : (agregarSensor g sensor).sensores = g.sensores ++ [sensor] :=
    enlazarSensor_eq_append _ _
  have hbusca : ∀ q i, buscarSensor g q = some i →
      buscarSensor (agregarSensor g sensor) q = some i := by
    intro q i h
    unfold buscarSensor at h ⊢
    rw [hsens, buscarDesde_append, h]
  refine ⟨hsens, by rw [hsens]; simp, ?_, hbusca, ?_⟩
  · intro i hi
    rw [hsens, List.getElem?_append_left hi]
  · intro i h
    obtain ⟨t, ht, hid, _⟩ :=
      (buscarSensor_eq_some g sensor.getId (Sensor.sensor_getId_sin_nulo sensor) i).1 h
    have hi : i < g.sensores.length := (List.getElem?_eq_some_iff.1 ht).1
    refine ⟨hbusca _ i h, hi, ⟨t, ?_, hid⟩, ?_⟩
    · rw [hsens, List.getElem?_append_left hi]; exact ht
    · rw [hsens, List.getElem?_concat_length]

/-- Witness for C15: a second sensor with id `X` added to the registry that holds a
Temperature sensor `X`; the search still returns position 0 and both entries are
there. -/
theorem agregarSensor_al_final_witness :
    (agregarSensor (agregarSensor vacio (Sensor.crear TipoSensor.temperatura "X"))
      (Sensor.crear TipoSensor.presion "X")).sensores =
        [Sensor.crear TipoSensor.temperatura "X"] ++ [Sensor.crear TipoSensor.presion "X"] ∧
    buscarSensor (agregarSensor (agregarSensor vacio (Sensor.crear TipoSensor.temperatura "X"))
      (Sensor.crear TipoSensor.presion "X")) (Sensor.crear TipoSensor.presion "X").getId
        = some 0 :=
  ⟨(agregarSensor_al_final (agregarSensor vacio (Sensor.crear TipoSensor.temperatura "X"))
      (Sensor.crear TipoSensor.presion "X")).1,
    ((agregarSensor_al_final (agregarSensor vacio (Sensor.crear TipoSensor.temperatura "X"))
      (Sensor.crear TipoSensor.presion "X")).2.2.2.2 0 (by decide)).1⟩

/-- Claim C16. `ejecutarProcesamiento` calls `procesarLectura` on every sensor of the
registry once, in the order of the chain: the lines printed are those of the sensors,
one per sensor and in that order, whatever each line says, and each sensor is left as
its own `procesarLectura` leaves it.  The registry keeps its length and the
identifiers keep their order. -/
theorem ejecutarProcesamiento_cada_sensor (g : SistemaGestion) :
    (ejecutarProcesamiento g).2 = g.sensores.map (fun s => s.procesarLectura.2) ∧
    (ejecutarProcesamiento g).1.sensores = g.sensores.map (fun s => s.procesarLectura.1) ∧
    (ejecutarProcesamiento g).2.length = g.sensores.length ∧
    (ejecutarProcesamiento g).1.sensores.length = g.sensores.length ∧
    (∀ (i : Nat) (s : Sensor), g.sensores[i]? = some s →
      (ejecutarProcesamiento g).2[i]? = some s.procesarLectura.2 ∧
      (ejecutarProcesamiento g).1.sensores[i]? = some s.procesarLectura.1) ∧
    (ejecutarProcesamiento g).1.sensores.map Sensor.getId = g.sensores.map Sensor.getId := by
  have h1 : (ejecutarProcesamiento g).2 = g.sensores.map (fun s => s.procesarLectura.2) := by
    unfold ejecutarProcesamiento
    simp only [procesarDesde_eq_map]
  have h2 : (ejecutarProcesamiento g).1.sensores =
      g.sensores.map (fun s => s.procesarLectura.1) := by
    unfold ejecutarProcesamiento
    simp only [procesarDesde_eq_map]
  refine ⟨h1, h2, by rw [h1, List.length_map], by rw [h2, List.length_map], ?_, ?_⟩
  · intro i s hs
    rw [h1, h2, List.getElem?_map, List.getElem?_map, hs]
    exact ⟨rfl, rfl⟩
  · rw [h2, List.map_map]
    apply List.map_congr_left
    intro s _
    exact Sensor.getId_procesarLectura s

/-- Witness for C16: the registry of the three example sensors, the first one without
readings: three lines, the first saying there is nothing to process. -/
theorem ejecutarProcesamiento_cada_sensor_witness :
    (ejecutarProcesamiento (agregarSensor (agregarSensor (agregarSensor vacio
      (Sensor.crear TipoSensor.temperatura "T-001"))
      (Sensor.registrarLectura (Sensor.registrarLectura
        (Sensor.crear TipoSensor.presion "P-105") (F32.num 80)) (F32.num 85)))
      (Sensor.registrarLectura (Sensor.registrarLectura
        (Sensor.crear TipoSensor.vibracion "V-001") (F32.num 25)) (F32.num 30)))).2.length = 3 ∧
    (ejecutarProcesamiento (agregarSensor (agregarSensor (agregarSensor vacio
      (Sensor.crear TipoSensor.temperatura "T-001"))
      (Sensor.registrarLectura (Sensor.registrarLectura
        (Sensor.crear TipoSensor.presion "P-105") (F32.num 80)) (F32.num 85)))
      (Sensor.registrarLectura (Sensor.registrarLectura
        (Sensor.crear TipoSensor.vibracion "V-001") (F32.num 25)) (F32.num 30)))).2 =
      [⟨TipoSensor.temperatura, "T-001", Mensaje.sinLecturas⟩,
        ⟨TipoSensor.presion, "P-105", Mensaje.promedioLecturas (F32.num (165 / 2)) 2⟩,
        ⟨TipoSensor.vibracion, "V-001", Mensaje.conteoVibraciones 2 (F32.num (55 / 2))⟩] :=
  ⟨(ejecutarProcesamiento_cada_sensor _).2.2.1.trans (by decide), by decide!⟩

/-- Claim C17. `imprimirTodos` prints one line per sensor of the registry, in the order
of the chain; the line of a sensor carries its class, its identifier, the count of its
history and the mean of its history.  The registry and every sensor in it are left as
they were. -/
theorem imprimirTodos_resumen (g : SistemaGestion) :
    (imprimirTodos g).1 = g ∧
    (imprimirTodos g).2.length = g.sensores.length ∧
    (imprimirTodos g).2 = g.sensores.map (fun s => s.imprimirInfo.2) ∧
    (∀ (i : Nat) (t : SensorTemperatura), g.sensores[i]? = some (Sensor.temperatura t) →
      (imprimirTodos g).2[i]? = some (⟨TipoSensor.temperatura, t.getId,
        t.historial.getCantidad, t.historial.calcularPromedio⟩ : Info)) ∧
    (∀ (i : Nat) (p : SensorPresion), g.sensores[i]? = some (Sensor.presion p) →
      (imprimirTodos g).2[i]? = some (⟨TipoSensor.presion, p.getId,
        p.historial.getCantidad, p.historial.calcularPromedio⟩ : Info)) ∧
    (∀ (i : Nat) (v : SensorVibracion), g.sensores[i]? = some (Sensor.vibracion v) →
      (imprimirTodos g).2[i]? = some (⟨TipoSensor.vibracion, v.getId,
        v.historial.getCantidad, v.historial.calcularPromedio⟩ : Info)) := by
  have h1 : (imprimirTodos g).2 = g.sensores.map (fun s => s.imprimirInfo.2) := by
    unfold imprimirTodos
    simp only [imprimirDesde_eq_map]
  have h0 : (imprimirTodos g).1 = g := by
    unfold imprimirTodos
    simp only [imprimirDesde_eq_map]
  refine ⟨h0, by rw [h1, List.length_map], h1, ?_, ?_, ?_⟩
  · intro i t ht
    rw [h1, List.getElem?_map, ht]; rfl
  · intro i p hp
    rw [h1, List.getElem?_map, hp]; rfl
  · intro i v hv
    rw [h1, List.getElem?_map, hv]; rfl

/-- Witness for C17: the registry of the three example sensors, the last two with two
readings each. -/
theorem imprimirTodos_resumen_witness :
    (imprimirTodos (agregarSensor (agregarSensor (agregarSensor vacio
      (Sensor.crear TipoSensor.temperatura "T-001"))
      (Sensor.registrarLectura (Sensor.registrarLectura
        (Sensor.crear TipoSensor.presion "P-105") (F32.num 80)) (F32.num 85)))
      (Sensor.registrarLectura (Sensor.registrarLectura
        (Sensor.crear TipoSensor.vibracion "V-001") (F32.num 25)) (F32.num 30)))).2.length = 3 ∧
    (imprimirTodos (agregarSensor (agregarSensor (agregarSensor vacio
      (Sensor.crear TipoSensor.temperatura "T-001"))
      (Sensor.registrarLectura (Sensor.registrarLectura
        (Sensor.crear TipoSensor.presion "P-105") (F32.num 80)) (F32.num 85)))
      (Sensor.registrarLectura (Sensor.registrarLectura
        (Sensor.crear TipoSensor.vibracion "V-001") (F32.num 25)) (F32.num 30)))).2[1]? =
      some (⟨TipoSensor.presion, "P-105", 2, F32.num (165 / 2)⟩ : Info) :=
  ⟨(imprimirTodos_resumen _).2.1.trans (by decide),
    ((imprimirTodos_resumen _).2.2.2.2.1 1
      (SensorPresion.registrarLectura (SensorPresion.registrarLectura
        (SensorPresion.crear "P-105") (F32.num 80)) (F32.num 85)) (by decide)).trans
      (by decide!)⟩

end SistemaGestion

namespace Sensor

open ListaSensor

/-- Claim C18. On a sensor of any class `imprimirInfo` leaves the sensor, hence its
history and its identifier, as it was; any number of successive calls leaves it so,
and the call after them prints the line the first call prints.  The mean in that line
is `calcularPromedio` of the history, a function of the chain alone, so that it is the
same at every call. -/
theorem imprimirInfo_lectura_pura (s : Sensor) (n : Nat) :
    s.imprimirInfo.1 = s ∧
    Nat.iterate (fun st : Sensor => st.imprimirInfo.1) n s = s ∧
    (Nat.iterate (fun st : Sensor => st.imprimirInfo.1) n s).imprimirInfo.2
      = s.imprimirInfo.2 ∧
    (∀ t, s = temperatura t → s.imprimirInfo.2.promedio = t.historial.calcularPromedio ∧
      s.imprimirInfo.1 = temperatura t) ∧
    (∀ p, s = presion p → s.imprimirInfo.2.promedio = p.historial.calcularPromedio ∧
      s.imprimirInfo.1 = presion p) ∧
    (∀ v, s = vibracion v → s.imprimirInfo.2.promedio = v.historial.calcularPromedio ∧
      s.imprimirInfo.1 = vibracion v) := by
  have hit : Nat.iterate (fun st : Sensor => st.imprimirInfo.1) n s = s := by
    induction n with
    | zero => rfl
    | succ n ih =>
      rw [Function.iterate_succ_apply']
      show (Nat.iterate (fun st : Sensor => st.imprimirInfo.1) n s).imprimirInfo.1 = s
      rw [ih, imprimirInfo_fst]
  refine ⟨imprimirInfo_fst s, hit, by rw [hit], ?_, ?_, ?_⟩
  · intro t ht; rw [ht]; exact ⟨rfl, rfl⟩
  · intro p hp; rw [hp]; exact ⟨rfl, rfl⟩
  · intro v hv; rw [hv]; exact ⟨rfl, rfl⟩

/-- Witness for C18: a Pressure sensor with the readings `80` and `85`, described three
times and then once more. -/
theorem imprimirInfo_lectura_pura_witness :
    (Nat.iterate (fun st : Sensor => st.imprimirInfo.1) 3
      (presion ⟨SensorBase.crear "P-105", ⟨[80, 85], 2⟩⟩)).imprimirInfo.2
      = ⟨TipoSensor.presion, "P-105", 2, F32.num (165 / 2)⟩ :=
  ((imprimirInfo_lectura_pura (presion ⟨SensorBase.crear "P-105", ⟨[80, 85], 2⟩⟩) 3).2.2.1).trans
    (by decide!)

/-- Claim C19. For a constructor argument that is a C string, `getId` of the new
sensor is the argument itself when it has at most 49 characters and its first 49
characters when it has more; it never has more than 49 characters, and it is the same
after any sequence of `registrarLectura`, `procesarLectura` and `imprimirInfo`
calls. -/
theorem getId_truncado (tipo : TipoSensor) (sensorId : String)
    (hC : ∀ c ∈ sensorId.data, c ≠ nulo) (llamadas : List Llamada) :
    (sensorId.length ≤ 49 → (crear tipo sensorId).getId = sensorId) ∧
    (49 < sensorId.length → (crear tipo sensorId).getId = String.mk (sensorId.data.take 49) ∧
      (crear tipo sensorId).getId.length = 49) ∧
    (crear tipo sensorId).getId.length ≤ 49 ∧
    (llamadas.foldl llamar (crear tipo sensorId)).getId = (crear tipo sensorId).getId := by
  have hid : (crear tipo sensorId).getId = String.mk (sensorId.data.take 49) := by
    rw [sensor_getId_crear, cadena_eq_self _ hC]
  refine ⟨?_, ?_, ?_, getId_foldl_llamar llamadas _⟩
  · intro hlen
    rw [hid, List.take_of_length_le hlen]
  · intro hlen
    refine ⟨hid, ?_⟩
    rw [hid]
    show (sensorId.data.take 49).length = 49
    rw [List.length_take]
    exact Nat.min_eq_left (Nat.le_of_lt hlen)
  · rw [hid]
    show (sensorId.data.take 49).length ≤ 49
    exact List.length_take_le _ _

/-- Witness for C19: the id `T-001`, and an id of 50 characters, of which the last is
lost; then a reading, a processing and a description. -/
theorem getId_truncado_witness :
    (crear TipoSensor.temperatura "T-001").getId = "T-001" ∧
    (crear TipoSensor.presion "01234567890123456789012345678901234567890123456789").getId
      = "0123456789012345678901234567890123456789012345678" ∧
    (([Llamada.registrarLectura (F32.num 80), Llamada.procesarLectura,
        Llamada.imprimirInfo] : List Llamada).foldl llamar
      (crear TipoSensor.presion "01234567890123456789012345678901234567890123456789")).getId
      = "0123456789012345678901234567890123456789012345678" :=
  ⟨(getId_truncado TipoSensor.temperatura "T-001" (by decide) []).1 (by decide),
    ((getId_truncado TipoSensor.presion "01234567890123456789012345678901234567890123456789"
      (by decide) []).2.1 (by decide)).1.trans (by decide),
    ((getId_truncado TipoSensor.presion "01234567890123456789012345678901234567890123456789"
      (by decide) [Llamada.registrarLectura (F32.num 80), Llamada.procesarLectura,
        Llamada.imprimirInfo]).2.2.2).trans (by decide)⟩

end Sensor

namespace ListaSensor

variable {T : Type}

/-- Claim C20. `getPrimero` returns the `dato` of the head node of a non-empty history
and the zero of the element type on the empty one, `0` for `int` and `0.0` for
`float`.  The empty history and the history whose head reading is zero therefore give
the same answer and differ only in `getCantidad`.  The method is a function of the
chain: it only reads it. -/
theorem getPrimero_cabeza [Lectura T] (l : ListaSensor T) :
    (∀ dato resto, l.nodos = dato :: resto → l.getPrimero = dato) ∧
    (l.nodos = [] → l.getPrimero = Lectura.cero) ∧
    (Lectura.cero : Int) = 0 ∧ (Lectura.cero : F32) = F32.num 0 ∧
    (getPrimero (vacia : ListaSensor Int) = getPrimero (insertar (vacia : ListaSensor Int) 0) ∧
      getCantidad (vacia : ListaSensor Int) ≠ getCantidad (insertar (vacia : ListaSensor Int) 0)) ∧
    (getPrimero (vacia : ListaSensor F32)
        = getPrimero (insertar (vacia : ListaSensor F32) (F32.num 0)) ∧
      getCantidad (vacia : ListaSensor F32)
        ≠ getCantidad (insertar (vacia : ListaSensor F32) (F32.num 0))) := by
  refine ⟨?_, ?_, rfl, rfl, ⟨rfl, by decide⟩, ⟨rfl, by decide⟩⟩
  · intro dato resto h
    unfold getPrimero
    rw [h]
  · intro h
    unfold getPrimero
    rw [h]

/-- Witness for C20: the head of `[3, 1, 2, 1]`, and the empty `int` history. -/
theorem getPrimero_cabeza_witness :
    getPrimero (⟨[3, 1, 2, 1], 4⟩ : ListaSensor Int) = 3 ∧
    getPrimero (vacia : ListaSensor Int) = 0 :=
  ⟨(getPrimero_cabeza (⟨[3, 1, 2, 1], 4⟩ : ListaSensor Int)).1 3 [1, 2, 1] rfl,
    (getPrimero_cabeza (vacia : ListaSensor Int)).2.1 rfl⟩

end ListaSensor

/-! ## The claims on the registry, continued -/

namespace SistemaGestion

/-- Searching after `agregarSensor`: the old chain first, then the new sensor. -/
theorem buscarSensor_agregarSensor (g : SistemaGestion) (sensor : Sensor) (q : String) :
    buscarSensor (agregarSensor g sensor) q =
      match buscarSensor g q with
      | some i => some i
      | none => if strcmpIgual sensor.getId.data q.data then some g.sensores.length else none := by
  have hsens : (agregarSensor g sensor).sensores = g.sensores ++ [sensor] :=
    enlazarSensor_eq_append _ _
  unfold buscarSensor
  rw [hsens, buscarDesde_append]
  cases buscarDesde g.sensores 0 q with
  | some i => rfl
  | none => simp [buscarDesde]

/-- Claim C27. If `X` is a C string of at most 49 characters and no sensor of the
registry has identifier `X`, then after `agregarSensor` of a sensor constructed with id
`X`, `buscarSensor` with `X` returns the position of the sensor just added, and with
any other C string `q` it returns what it returned before. -/
theorem buscarSensor_agregar_nuevo (g : SistemaGestion) (tipo : TipoSensor) (X : String)
    (hX : ∀ c ∈ X.data, c ≠ nulo) (hlen : X.length ≤ 49)
    (hnuevo : ∀ s ∈ g.sensores, s.getId ≠ X) :
    buscarSensor (agregarSensor g (Sensor.crear tipo X)) X = some g.sensores.length ∧
    (agregarSensor g (Sensor.crear tipo X)).sensores[g.sensores.length]? =
      some (Sensor.crear tipo X) ∧
    (∀ q : String, (∀ c ∈ q.data, c ≠ nulo) → q ≠ X →
      buscarSensor (agregarSensor g (Sensor.crear tipo X)) q = buscarSensor g q) := by
  have hid : (Sensor.crear tipo X).getId = X := by
    rw [Sensor.sensor_getId_crear, cadena_eq_self _ hX, List.take_of_length_le hlen]
  have hsens : (agregarSensor g (Sensor.crear tipo X)).sensores =
      g.sensores ++ [Sensor.crear tipo X] := enlazarSensor_eq_append _ _
  refine ⟨?_, ?_, ?_⟩
  · have hnone : buscarSensor g X = none := by
      unfold buscarSensor
      rw [buscarDesde_eq_none]
      intro s hs
      exact (strcmp_false_iff s X hX).2 (hnuevo s hs)
    rw [buscarSensor_agregarSensor, hnone]
    simp only
    rw [if_pos ((Sensor.sensor_strcmpIgual_getId _ X hX).2 hid)]
  · rw [hsens, List.getElem?_concat_length]
  · intro q hq hne
    rw [buscarSensor_agregarSensor]
    cases hb : buscarSensor g q with
    | some i => rfl
    | none =>
      simp only
      have : strcmpIgual (Sensor.crear tipo X).getId.data q.data = false := by
        rw [strcmp_false_iff _ q hq, hid]
        exact fun h => hne h.symm
      rw [this]
      rfl

/-- Witness for C27: `P-105` added to the registry that holds `T-001`; the searches
for `P-105`, `T-001` and `V-001` afterwards. -/
theorem buscarSensor_agregar_nuevo_witness :
    buscarSensor (agregarSensor (agregarSensor vacio
      (Sensor.crear TipoSensor.temperatura "T-001"))
      (Sensor.crear TipoSensor.presion "P-105")) "P-105" = some 1 ∧
    buscarSensor (agregarSensor (agregarSensor vacio
      (Sensor.crear TipoSensor.temperatura "T-001"))
      (Sensor.crear TipoSensor.presion "P-105")) "T-001" = some 0 ∧
    buscarSensor (agregarSensor (agregarSensor vacio
      (Sensor.crear TipoSensor.temperatura "T-001"))
      (Sensor.crear TipoSensor.presion "P-105")) "V-001" = none :=
  ⟨(buscarSensor_agregar_nuevo (agregarSensor vacio
      (Sensor.crear TipoSensor.temperatura "T-001"))
      TipoSensor.presion "P-105" (by decide) (by decide) (by decide)).1,
    ((buscarSensor_agregar_nuevo (agregarSensor vacio
      (Sensor.crear TipoSensor.temperatura "T-001"))
      TipoSensor.presion "P-105" (by decide) (by decide) (by decide)).2.2 "T-001"
        (by decide) (by decide)).trans (by decide),
    ((buscarSensor_agregar_nuevo (agregarSensor vacio
      (Sensor.crear TipoSensor.temperatura "T-001"))
      TipoSensor.presion "P-105" (by decide) (by decide) (by decide)).2.2 "V-001"
        (by decide) (by decide)).trans (by decide)⟩

theorem length_registrarEn (lectura : F32) :
    ∀ (actual : List Sensor) (pos : Nat),
      (registrarEn actual pos lectura).length = actual.length := by
  intro actual
  induction actual with
  | nil => intro pos; rfl
  | cons s siguiente ih =>
    intro pos
    cases pos with
    | zero => rfl
    | succ pos => simp [registrarEn, ih]

/-- The call through the pointer at `pos` reaches the sensor at `pos` and no other. -/
theorem getElem?_registrarEn (lectura : F32) :
    ∀ (actual : List Sensor) (pos j : Nat),
      (registrarEn actual pos lectura)[j]? =
        if j = pos then (actual[j]?).map (fun s => s.registrarLectura lectura)
        else actual[j]? := by
  intro actual
  induction actual with
  | nil => intro pos j; simp [registrarEn]
  | cons s siguiente ih =>
    intro pos j
    cases pos with
    | zero =>
      cases j with
      | zero => simp [registrarEn]
      | succ j => simp [registrarEn]
    | succ pos =>
      cases j with
      | zero => simp [registrarEn]
      | succ j => simp [registrarEn, ih]

theorem map_getId_registrarEn (lectura : F32) :
    ∀ (actual : List Sensor) (pos : Nat),
      (registrarEn actual pos lectura).map Sensor.getId = actual.map Sensor.getId := by
  intro actual
  induction actual with
  | nil => intro pos; rfl
  | cons s siguiente ih =>
    intro pos
    cases pos with
    | zero => simp [registrarEn, Sensor.getId_registrarLectura]
    | succ pos => simp [registrarEn, ih]

/-- Claim C28. When `buscarSensor` returns the sensor at position `i`, registering a
reading through that pointer replaces the sensor at `i` by what its own
`registrarLectura` leaves, whose identifier is the same: every other position holds
the sensor it held, identifier and history included, and the registry keeps its
length and the order of its identifiers. -/
theorem registrarPorId_solo_ese_sensor (g : SistemaGestion) (id : String) (lectura : F32)
    (i : Nat) (h : g.buscarSensor id = some i) :
    (registrarPorId g id lectura).sensores.length = g.sensores.length ∧
    (∀ j, j ≠ i → (registrarPorId g id lectura).sensores[j]? = g.sensores[j]?) ∧
    (∃ s, g.sensores[i]? = some s ∧
      (registrarPorId g id lectura).sensores[i]? = some (s.registrarLectura lectura) ∧
      (s.registrarLectura lectura).getId = s.getId) ∧
    (registrarPorId g id lectura).sensores.map Sensor.getId = g.sensores.map Sensor.getId := by
  have hreg : (registrarPorId g id lectura).sensores = registrarEn g.sensores i lectura := by
    unfold registrarPorId
    rw [h]
  have hi : ∃ s, g.sensores[i]? = some s := by
    unfold buscarSensor at h
    obtain ⟨k, hk, ⟨s, hs, _⟩, _⟩ := (buscarDesde_eq_some id g.sensores 0 i).1 h
    have hik : i = k := by omega
    exact ⟨s, by rw [hik]; exact hs⟩
  obtain ⟨s, hs⟩ := hi
  refine ⟨by rw [hreg, length_registrarEn], ?_, ⟨s, hs, ?_, Sensor.getId_registrarLectura s lectura⟩,
    by rw [hreg, map_getId_registrarEn]⟩
  · intro j hj
    rw [hreg, getElem?_registrarEn, if_neg hj]
  · rw [hreg, getElem?_registrarEn, if_pos rfl, hs]
    rfl

/-- Witness for C28: the reading `80` registered on `P-105` in the registry of
`T-001`, `P-105`, `V-001`. -/
theorem registrarPorId_solo_ese_sensor_witness :
    (registrarPorId (agregarSensor (agregarSensor (agregarSensor vacio
      (Sensor.crear TipoSensor.temperatura "T-001")) (Sensor.crear TipoSensor.presion "P-105"))
      (Sensor.crear TipoSensor.vibracion "V-001")) "P-105" (F32.num 80)).sensores =
      [Sensor.crear TipoSensor.temperatura "T-001",
        Sensor.presion ⟨SensorBase.crear "P-105", ⟨[80], 1⟩⟩,
        Sensor.crear TipoSensor.vibracion "V-001"] ∧
    (registrarPorId (agregarSensor (agregarSensor (agregarSensor vacio
      (Sensor.crear TipoSensor.temperatura "T-001")) (Sensor.crear TipoSensor.presion "P-105"))
      (Sensor.crear TipoSensor.vibracion "V-001")) "P-105" (F32.num 80)).sensores.length = 3 :=
  ⟨by decide!,
    (registrarPorId_solo_ese_sensor (agregarSensor (agregarSensor (agregarSensor vacio
      (Sensor.crear TipoSensor.temperatura "T-001")) (Sensor.crear TipoSensor.presion "P-105"))
      (Sensor.crear TipoSensor.vibracion "V-001")) "P-105" (F32.num 80) 1 (by decide)).1.trans
      (by decide)⟩

end SistemaGestion

/-! ## Lemmas on repeated removal and exact means -/

namespace ListaSensor

variable {T : Type}

/-- A chain is the part before a position, the reading there and the part after it;
erasing the position leaves the two parts. -/
theorem partir_en (xs : List T) (i : Nat) (hi : i < xs.length) :
    xs = xs.take i ++ xs[i] :: xs.drop (i + 1) ∧
    xs.eraseIdx i = xs.take i ++ xs.drop (i + 1) := by
  constructor
  · rw [← List.drop_eq_getElem_cons hi, List.take_append_drop]
  · exact List.eraseIdx_eq_take_drop_succ xs i

theorem perm_eraseIdx (xs : List T) (i : Nat) (hi : i < xs.length) :
    List.Perm xs (xs[i] :: xs.eraseIdx i) := by
  obtain ⟨h1, h2⟩ := partir_en xs i hi
  rw [h2]
  conv_lhs => rw [h1]
  exact List.perm_middle

/-- What one call of `eliminarMenor` does on a non-empty chain over a linear order:
the value logged is a least reading, and the chain left is a permutation of the old
one without it. -/
theorem eliminarMenor_paso [LinearOrder T] (l : ListaSensor T) (hne : l.nodos ≠ []) :
    ∃ m, datoEliminado l = some m ∧ (∀ x ∈ l.nodos, m ≤ x) ∧
      List.Perm l.nodos (m :: (eliminarMenor l).nodos) ∧
      (eliminarMenor l).nodos.length + 1 = l.nodos.length := by
  obtain ⟨nodos, cantidad⟩ := l
  cases nodos with
  | nil => exact absurd rfl hne
  | cons cabeza resto =>
    have hidx : (eliminarMenor (⟨cabeza :: resto, cantidad⟩ : ListaSensor T)).nodos =
        (cabeza :: resto).eraseIdx (buscarMenor (cabeza :: resto) 0 0 cabeza) := rfl
    have hlt := buscarMenor_lt_length cabeza resto
    refine ⟨(cabeza :: resto)[buscarMenor (cabeza :: resto) 0 0 cabeza], ?_, ?_, ?_, ?_⟩
    · show (cabeza :: resto)[buscarMenor (cabeza :: resto) 0 0 cabeza]? = _
      exact List.getElem?_eq_getElem hlt
    · -- the position found is a position of a least reading
      obtain ⟨d, hd, hdmin, _⟩ :=
        buscarMenor_spec (fun _ : T => True) (fun a _ => lt_irrefl a)
          (fun a b c _ _ _ hab hbc => lt_trans hab hbc)
          (fun a b c _ _ _ hab hbc => not_lt.2 (le_trans (not_lt.1 hbc) (not_lt.1 hab)))
          cabeza resto (fun _ _ => trivial)
      obtain ⟨_, hdi⟩ := List.getElem?_eq_some_iff.1 hd
      intro x hx
      rw [hdi]
      exact not_lt.1 (hdmin x hx)
    · rw [hidx]
      exact perm_eraseIdx _ _ hlt
    · rw [hidx, List.length_eraseIdx_of_lt hlt]
      simp

/-- Removing as many times as there are readings empties the chain, and the values
logged are the readings in non-decreasing order. -/
theorem eliminarVeces_ordena [LinearOrder T] :
    ∀ (n : Nat) (l : ListaSensor T), l.nodos.length = n →
      (eliminarVeces n l).2.nodos = [] ∧
      List.Perm (eliminarVeces n l).1 l.nodos ∧
      List.Sorted (fun a b : T => a ≤ b) (eliminarVeces n l).1 := by
  intro n
  induction n with
  | zero =>
    intro l hl
    refine ⟨List.length_eq_zero.1 hl, ?_, ?_⟩
    · rw [List.length_eq_zero.1 hl]; exact List.Perm.refl _
    · exact List.sorted_nil
  | succ n ih =>
    intro l hl
    have hne : l.nodos ≠ [] := by
      intro h0; rw [h0] at hl; simp at hl
    obtain ⟨m, hm, hmin, hperm, hlen⟩ := eliminarMenor_paso l hne
    obtain ⟨h1, h2, h3⟩ := ih l.eliminarMenor (by omega)
    have hdef : eliminarVeces (n + 1) l =
        ((datoEliminado l).toList ++ (eliminarVeces n l.eliminarMenor).1,
          (eliminarVeces n l.eliminarMenor).2) := rfl
    rw [hdef, hm]
    simp only [Option.toList_some, List.singleton_append]
    refine ⟨h1, ?_, ?_⟩
    · exact (List.Perm.cons m h2).trans hperm.symm
    · refine List.sorted_cons.2 ⟨?_, h3⟩
      intro b hb
      have hb2 : b ∈ l.eliminarMenor.nodos := h2.mem_iff.1 hb
      exact hmin b (hperm.mem_iff.2 (List.mem_cons_of_mem m hb2))

end ListaSensor

/-- Erasing a least value does not lower the exact mean of at least two values. -/
theorem mediaExacta_eraseIdx {T : Type} (f : T → ℚ) (xs : List T) (i : Nat)
    (hi : i < xs.length) (h2 : 2 ≤ xs.length) (hmin : ∀ x ∈ xs, f xs[i] ≤ f x) :
    mediaExacta (xs.map f) ≤ mediaExacta ((xs.eraseIdx i).map f) := by
  obtain ⟨h1, hE⟩ := ListaSensor.partir_en xs i hi
  have hsum : (xs.map f).sum = f xs[i] + ((xs.eraseIdx i).map f).sum := by
    rw [hE]
    conv_lhs => rw [h1]
    simp only [List.map_append, List.map_cons, List.sum_append, List.sum_cons]
    ring
  have hlen : ((xs.eraseIdx i).map f).length + 1 = (xs.map f).length := by
    rw [List.length_map, List.length_map, List.length_eraseIdx_of_lt hi]
    omega
  have hbound : ((xs.map f).length : ℚ) * f xs[i] ≤ (xs.map f).sum := by
    have : ∀ ys : List T, (∀ y ∈ ys, f xs[i] ≤ f y) →
        ((ys.map f).length : ℚ) * f xs[i] ≤ (ys.map f).sum := by
      intro ys
      induction ys with
      | nil => intro _; simp
      | cons y ys ih =>
        intro hy
        have h1 := hy y (List.mem_cons_self _ _)
        have h2 := ih (fun z hz => hy z (List.mem_cons_of_mem _ hz))
        simp only [List.map_cons, List.length_cons, List.sum_cons, Nat.cast_add, Nat.cast_one]
        linarith
    exact this xs hmin
  unfold mediaExacta
  have hn : (0 : ℚ) < ((xs.map f).length : ℚ) := by
    rw [List.length_map]; exact_mod_cast (by omega : 0 < xs.length)
  have hn1 : (0 : ℚ) < (((xs.eraseIdx i).map f).length : ℚ) := by
    rw [List.length_map, List.length_eraseIdx_of_lt hi]
    exact_mod_cast (by omega : 0 < xs.length - 1)
  have hcast : ((xs.map f).length : ℚ) = (((xs.eraseIdx i).map f).length : ℚ) + 1 := by
    exact_mod_cast hlen.symm
  rw [div_le_div_iff₀ hn hn1]
  rw [hsum] at hbound ⊢
  rw [hcast] at hbound ⊢
  nlinarith

/-! ## The claims on repeated removal -/

namespace ListaSensor

variable {T : Type}

/-- Claim C30. Over a linear order, `eliminarMenor` applied as many times as the
history has readings empties it; the values removed, in the order of their removal,
form a non-decreasing sequence that is a permutation of the original readings; and at
every stage the value removed is below or equal to every reading that remains. -/
theorem eliminarVeces_vacia_en_orden [LinearOrder T] (l : ListaSensor T) :
    (eliminarVeces l.nodos.length l).2.nodos = [] ∧
    List.Sorted (fun a b : T => a ≤ b) (eliminarVeces l.nodos.length l).1 ∧
    List.Perm (eliminarVeces l.nodos.length l).1 l.nodos ∧
    (∀ k v, datoEliminado (eliminarVeces k l).2 = some v →
      ∀ x ∈ (eliminarMenor (eliminarVeces k l).2).nodos, v ≤ x) := by
  obtain ⟨h1, h2, h3⟩ := eliminarVeces_ordena l.nodos.length l rfl
  refine ⟨h1, h3, h2, ?_⟩
  intro k v hv x hx
  have hne : (eliminarVeces k l).2.nodos ≠ [] := by
    intro h0
    unfold datoEliminado at hv
    rw [h0] at hv
    exact absurd hv (by simp)
  obtain ⟨m, hm, hmin, hperm, _⟩ := eliminarMenor_paso (eliminarVeces k l).2 hne
  rw [hm] at hv
  rw [← Option.some.inj hv]
  exact hmin x (hperm.mem_iff.2 (List.mem_cons_of_mem m hx))

/-- Witness for C30: four removals on `[3, 1, 2, 1]` log `1, 1, 2, 3` and leave no
reading; after the first removal `[3, 2, 1]` remains. -/
theorem eliminarVeces_vacia_en_orden_witness :
    (eliminarVeces 4 (⟨[3, 1, 2, 1], 4⟩ : ListaSensor Int)).1 = [1, 1, 2, 3] ∧
    (eliminarVeces 4 (⟨[3, 1, 2, 1], 4⟩ : ListaSensor Int)).2.nodos = [] ∧
    (∀ x ∈ (eliminarMenor (eliminarVeces 0 (⟨[3, 1, 2, 1], 4⟩ : ListaSensor Int)).2).nodos,
      (1 : Int) ≤ x) :=
  ⟨by decide,
    (eliminarVeces_vacia_en_orden (⟨[3, 1, 2, 1], 4⟩ : ListaSensor Int)).1,
    (eliminarVeces_vacia_en_orden (⟨[3, 1, 2, 1], 4⟩ : ListaSensor Int)).2.2.2 0 1
      (by decide)⟩

end ListaSensor

/-! ## One step of the Temperature policy -/

namespace SensorTemperatura

open ListaSensor

/-- With more than one reading, all of them numbers, `procesarLectura` erases a
position holding a least reading and prints the mean of what is left. -/
theorem paso_elimina (s : SensorTemperatura) (hinv : s.historial.Coherente)
    (hnum : ∀ x ∈ s.historial.nodos, x.esNumero = true)
    (h : 1 < s.historial.nodos.length) :
    ∃ i, ∃ _ : i < s.historial.nodos.length,
      (∀ x ∈ s.historial.nodos, ¬ x < s.historial.nodos[i]) ∧
      (procesarLectura s).1.historial =
        (⟨s.historial.nodos.eraseIdx i, s.historial.cantidad - 1⟩ : ListaSensor F32) ∧
      (procesarLectura s).2.mensaje =
        Mensaje.menorEliminada (procesarLectura s).1.historial.calcularPromedio
          (s.historial.cantidad - 1) := by
  have hne : s.historial.nodos ≠ [] := by
    intro h0; rw [h0] at h; simp at h
  obtain ⟨i, hi, hmin, _, herase, hcant⟩ :=
    eliminarMenor_spec (fun x : F32 => x.esNumero = true) (fun a _ => F32.lt_irrefl_numero a)
      (fun a b c _ _ _ hab hbc => F32.lt_trans_numero a b c hab hbc)
      F32.lt_negtrans_numero s.historial hne hnum
  have hc : s.historial.cantidad = (s.historial.nodos.length : Int) := hinv
  have hgt : s.historial.getCantidad > 1 := by
    show s.historial.cantidad > 1
    rw [hc]; exact_mod_cast h
  have hproc : procesarLectura s =
      ({ s with historial := s.historial.eliminarMenor },
        ⟨TipoSensor.temperatura, s.getId,
          Mensaje.menorEliminada s.historial.eliminarMenor.calcularPromedio
            s.historial.eliminarMenor.getCantidad⟩) := by
    unfold procesarLectura
    simp only [if_pos hgt]
  have hel : s.historial.eliminarMenor =
      (⟨s.historial.nodos.eraseIdx i, s.historial.cantidad - 1⟩ : ListaSensor F32) := by
    cases hs : s.historial.eliminarMenor with
    | mk nodos cantidad =>
      rw [hs] at herase hcant
      simp only at herase hcant
      rw [herase, hcant]
  refine ⟨i, hi, hmin, ?_, ?_⟩
  · rw [hproc]; exact hel
  · rw [hproc]
    show Mensaje.menorEliminada s.historial.eliminarMenor.calcularPromedio
      s.historial.eliminarMenor.getCantidad = _
    rw [hel]; rfl

/-- With at most one reading `procesarLectura` leaves the sensor as it is. -/
theorem paso_quieto (s : SensorTemperatura) (hinv : s.historial.Coherente)
    (h : s.historial.nodos.length ≤ 1) : (procesarLectura s).1 = s := by
  have hc : s.historial.cantidad = (s.historial.nodos.length : Int) := hinv
  have hle : ¬ s.historial.getCantidad > 1 := by
    show ¬ s.historial.cantidad > 1
    rw [hc]; exact_mod_cast not_lt.2 h
  unfold procesarLectura
  simp only [if_neg hle]
  split <;> rfl

/-- What `k` successive calls of `procesarLectura` keep: the class invariant, readings
taken from the original ones, the number of readings, and for every original reading a
remaining one that is not below it. -/
theorem iterar_procesar (s : SensorTemperatura) (hinv : s.historial.Coherente)
    (hnum : ∀ x ∈ s.historial.nodos, x.esNumero = true)
    (hn : 1 ≤ s.historial.nodos.length) (k : Nat) :
    (Nat.iterate (fun t : SensorTemperatura => (procesarLectura t).1) k s).historial.Coherente ∧
    (∀ x ∈ (Nat.iterate (fun t : SensorTemperatura => (procesarLectura t).1) k s).historial.nodos,
      x ∈ s.historial.nodos) ∧
    (Nat.iterate (fun t : SensorTemperatura => (procesarLectura t).1) k s).historial.nodos.length
      = max 1 (s.historial.nodos.length - k) ∧
    (∀ x ∈ s.historial.nodos,
      ∃ y ∈ (Nat.iterate (fun t : SensorTemperatura => (procesarLectura t).1) k
        s).historial.nodos, ¬ y < x) := by
  induction k with
  | zero =>
    refine ⟨hinv, fun x hx => hx, ?_, fun x hx => ⟨x, hx, F32.lt_irrefl_numero x⟩⟩
    show s.historial.nodos.length = max 1 (s.historial.nodos.length - 0)
    omega
  | succ k ih =>
    obtain ⟨hcoh, hsub, hlen, hdom⟩ := ih
    rw [Function.iterate_succ_apply']
    generalize Nat.iterate (fun t : SensorTemperatura => (procesarLectura t).1) k s = sk
      at hcoh hsub hlen hdom ⊢
    have hnumk : ∀ x ∈ sk.historial.nodos, x.esNumero = true := fun x hx => hnum x (hsub x hx)
    by_cases h1 : 1 < sk.historial.nodos.length
    · obtain ⟨i, hi, hmin, hhist, _⟩ := paso_elimina sk hcoh hnumk h1
      show (procesarLectura sk).1.historial.Coherente ∧ _
      rw [hhist]
      have hc : sk.historial.cantidad = (sk.historial.nodos.length : Int) := hcoh
      refine ⟨?_, ?_, ?_, ?_⟩
      · show sk.historial.cantidad - 1 = ((sk.historial.nodos.eraseIdx i).length : Int)
        rw [hc, List.length_eraseIdx_of_lt hi]
        have : 1 ≤ sk.historial.nodos.length := by omega
        push_cast [this]; rfl
      · intro x hx
        exact hsub x (List.mem_of_mem_eraseIdx hx)
      · show (sk.historial.nodos.eraseIdx i).length = _
        rw [List.length_eraseIdx_of_lt hi]
        omega
      · intro x hx
        show ∃ y ∈ sk.historial.nodos.eraseIdx i, ¬ y < x
        obtain ⟨y, hy, hyx⟩ := hdom x hx
        by_cases hy2 : y ∈ sk.historial.nodos.eraseIdx i
        · exact ⟨y, hy2, hyx⟩
        · -- `y` sits only at the erased position: any other reading will do
          have hyi : y = sk.historial.nodos[i] := by
            obtain ⟨j, hj⟩ := List.getElem?_of_mem hy
            by_cases hji : j = i
            · subst hji
              obtain ⟨_, hjv⟩ := List.getElem?_eq_some_iff.1 hj
              exact hjv.symm
            · exact absurd (List.mem_eraseIdx_iff_getElem?.2 ⟨j, hji, hj⟩) hy2
          have hlen2 : 0 < (sk.historial.nodos.eraseIdx i).length := by
            rw [List.length_eraseIdx_of_lt hi]; omega
          obtain ⟨z, hz⟩ := List.exists_mem_of_length_pos hlen2
          have hz1 : z ∈ sk.historial.nodos := List.mem_of_mem_eraseIdx hz
          refine ⟨z, hz, ?_⟩
          have hzy : ¬ z < y := by rw [hyi]; exact hmin z hz1
          exact F32.lt_negtrans_numero z y x (hnumk z hz1) (hnumk y hy) (hnum x hx) hzy hyx
    · have hq := paso_quieto sk hcoh (not_lt.1 h1)
      show (procesarLectura sk).1.historial.Coherente ∧ _
      rw [hq]
      refine ⟨hcoh, hsub, ?_, hdom⟩
      omega

/-- Claim C26. On a Temperature sensor with `n ≥ 1` readings, all of them numbers,
`k` successive calls of `procesarLectura` leave exactly `max 1 (n - k)` readings, so
never none.  When a single reading is left it is one of the original readings, none of
which is above it, and a further call leaves the sensor as it is. -/
theorem procesarLectura_nunca_vacia (s : SensorTemperatura) (hinv : s.historial.Coherente)
    (hnum : ∀ x ∈ s.historial.nodos, x.esNumero = true)
    (hn : 1 ≤ s.historial.nodos.length) (k : Nat) :
    (Nat.iterate (fun t : SensorTemperatura => (procesarLectura t).1) k s).historial.nodos.length
      = max 1 (s.historial.nodos.length - k) ∧
    (Nat.iterate (fun t : SensorTemperatura => (procesarLectura t).1) k s).historial.getCantidad
      = ((max 1 (s.historial.nodos.length - k) : Nat) : Int) ∧
    (Nat.iterate (fun t : SensorTemperatura => (procesarLectura t).1) k s).historial.nodos ≠ [] ∧
    (∀ r, (Nat.iterate (fun t : SensorTemperatura => (procesarLectura t).1) k
        s).historial.nodos = [r] →
      r ∈ s.historial.nodos ∧ (∀ x ∈ s.historial.nodos, ¬ r < x) ∧
      (procesarLectura (Nat.iterate (fun t : SensorTemperatura => (procesarLectura t).1) k s)).1
        = Nat.iterate (fun t : SensorTemperatura => (procesarLectura t).1) k s) := by
  obtain ⟨hcoh, hsub, hlen, hdom⟩ := iterar_procesar s hinv hnum hn k
  refine ⟨hlen, ?_, ?_, ?_⟩
  · have hc : (Nat.iterate (fun t : SensorTemperatura => (procesarLectura t).1) k
        s).historial.cantidad = _ := hcoh
    show (Nat.iterate (fun t : SensorTemperatura => (procesarLectura t).1) k
        s).historial.cantidad = _
    rw [hc, hlen]
  · intro h0
    rw [h0] at hlen
    simp only [List.length_nil] at hlen
    omega
  · intro r hr
    refine ⟨hsub r (by rw [hr]; exact List.mem_singleton_self r), ?_, ?_⟩
    · intro x hx
      obtain ⟨y, hy, hyx⟩ := hdom x hx
      rw [hr, List.mem_singleton] at hy
      rw [← hy]; exact hyx
    · exact paso_quieto _ hcoh (by rw [hr]; simp)

/-- Witness for C26: the readings `45.3f`, `42.1f`, `50f`; after one call two remain,
after two calls and after five calls only `50f`, the greatest. -/
theorem procesarLectura_nunca_vacia_witness :
    (Nat.iterate (fun t : SensorTemperatura => (procesarLectura t).1) 5
      ⟨SensorBase.crear "T-001",
        ⟨[F32.redondear (453 / 10), F32.redondear (421 / 10), F32.num 50], 3⟩⟩).historial.nodos.length
      = max 1 (3 - 5) ∧
    (Nat.iterate (fun t : SensorTemperatura => (procesarLectura t).1) 5
      ⟨SensorBase.crear "T-001",
        ⟨[F32.redondear (453 / 10), F32.redondear (421 / 10), F32.num 50], 3⟩⟩).historial.nodos
      = [F32.num 50] ∧
    (Nat.iterate (fun t : SensorTemperatura => (procesarLectura t).1) 1
      ⟨SensorBase.crear "T-001",
        ⟨[F32.redondear (453 / 10), F32.redondear (421 / 10), F32.num 50], 3⟩⟩).historial.nodos
      = [F32.redondear (453 / 10), F32.num 50] :=
  ⟨(procesarLectura_nunca_vacia
      ⟨SensorBase.crear "T-001",
        ⟨[F32.redondear (453 / 10), F32.redondear (421 / 10), F32.num 50], 3⟩⟩
      (by decide) (by decide!) (by decide) 5).1,
    by decide!, by decide!⟩

end SensorTemperatura

/-! ## The claim on the mean after a removal -/

namespace ListaSensor

/-- Between finite floats, not being below is being at least equal in value. -/
theorem valor_le_of_not_lt (a b : F32) (ha : ∃ q, a = F32.num q) (hb : ∃ q, b = F32.num q)
    (h : ¬ a < b) : F32.valor b ≤ F32.valor a := by
  obtain ⟨qa, rfl⟩ := ha
  obtain ⟨qb, rfl⟩ := hb
  rw [F32.lt_iff_menorQue] at h
  simpa [F32.menorQue, F32.valor] using h

/-- Claim C29. In exact arithmetic, the mean of an `int` history of at least two
readings after `eliminarMenor` is not below the mean before (`mediaExacta`); whenever
`calcularPromedio` computes these two means without overflow or rounding, its value
after the removal is not below its value before.  The same holds on a Temperature
sensor with at least two finite readings for the history `procesarLectura` leaves, so
that the mean it prints after the removal is not below the mean of the history
before. -/
theorem promedio_no_baja_al_eliminar :
    (∀ l : ListaSensor Int, 2 ≤ l.nodos.length →
      mediaExacta (l.nodos.map (fun n : Int => (n : ℚ))) ≤
        mediaExacta (l.eliminarMenor.nodos.map (fun n : Int => (n : ℚ))) ∧
      (calcularPromedio l = F32.num (mediaExacta (l.nodos.map (fun n : Int => (n : ℚ)))) →
        calcularPromedio l.eliminarMenor =
          F32.num (mediaExacta (l.eliminarMenor.nodos.map (fun n : Int => (n : ℚ)))) →
        ¬ calcularPromedio l.eliminarMenor < calcularPromedio l)) ∧
    (∀ s : SensorTemperatura, s.historial.Coherente →
      (∀ x ∈ s.historial.nodos, ∃ q, x = F32.num q) →
      2 ≤ s.historial.nodos.length →
      mediaExacta (s.historial.nodos.map F32.valor) ≤
        mediaExacta (s.procesarLectura.1.historial.nodos.map F32.valor) ∧
      (calcularPromedio s.historial = F32.num (mediaExacta (s.historial.nodos.map F32.valor)) →
        calcularPromedio s.procesarLectura.1.historial =
          F32.num (mediaExacta (s.procesarLectura.1.historial.nodos.map F32.valor)) →
        ∃ p c, s.procesarLectura.2.mensaje = Mensaje.menorEliminada p c ∧
          p = calcularPromedio s.procesarLectura.1.historial ∧
          ¬ p < calcularPromedio s.historial)) := by
  constructor
  · intro l h2
    have hne : l.nodos ≠ [] := by
      intro h0; rw [h0] at h2; simp at h2
    obtain ⟨i, hi, hmin, _, herase, _⟩ :=
      eliminarMenor_spec (fun _ : Int => True) (fun a _ => lt_irrefl a)
        (fun a b c _ _ _ hab hbc => lt_trans hab hbc)
        (fun a b c _ _ _ hab hbc => not_lt.2 (le_trans (not_lt.1 hbc) (not_lt.1 hab)))
        l hne (fun _ _ => trivial)
    have hle : mediaExacta (l.nodos.map (fun n : Int => (n : ℚ))) ≤
        mediaExacta (l.eliminarMenor.nodos.map (fun n : Int => (n : ℚ))) := by
      rw [herase]
      apply mediaExacta_eraseIdx (fun n : Int => (n : ℚ)) l.nodos i hi h2
      intro x hx
      exact_mod_cast not_lt.1 (hmin x hx)
    refine ⟨hle, ?_⟩
    intro hantes hdespues
    rw [hantes, hdespues, F32.lt_iff_menorQue]
    simpa [F32.menorQue] using hle
  · intro s hinv hfin h2
    have hnum : ∀ x ∈ s.historial.nodos, x.esNumero = true := by
      intro x hx
      obtain ⟨q, rfl⟩ := hfin x hx
      rfl
    obtain ⟨i, hi, hmin, hhist, hmsg⟩ := SensorTemperatura.paso_elimina s hinv hnum (by omega)
    have hle : mediaExacta (s.historial.nodos.map F32.valor) ≤
        mediaExacta (s.procesarLectura.1.historial.nodos.map F32.valor) := by
      rw [hhist]
      apply mediaExacta_eraseIdx F32.valor s.historial.nodos i hi h2
      intro x hx
      exact valor_le_of_not_lt x _ (hfin x hx) (hfin _ (List.getElem_mem _)) (hmin x hx)
    refine ⟨hle, ?_⟩
    intro hantes hdespues
    refine ⟨_, _, hmsg, rfl, ?_⟩
    rw [hantes, hdespues, F32.lt_iff_menorQue]
    simpa [F32.menorQue] using hle

/-- Witness for C29: the `int` history `[80, 85]`, mean `82.5` before and `85` after;
the Temperature readings `80`, `85`, for which the call prints the mean `85`. -/
theorem promedio_no_baja_al_eliminar_witness :
    (mediaExacta (([80, 85] : List Int).map (fun n : Int => (n : ℚ))) ≤
        mediaExacta ((eliminarMenor (⟨[80, 85], 2⟩ : ListaSensor Int)).nodos.map
          (fun n : Int => (n : ℚ))) ∧
      ¬ calcularPromedio (eliminarMenor (⟨[80, 85], 2⟩ : ListaSensor Int))
        < calcularPromedio (⟨[80, 85], 2⟩ : ListaSensor Int)) ∧
    (∃ p c, (SensorTemperatura.procesarLectura
        ⟨SensorBase.crear "T-001", ⟨[F32.num 80, F32.num 85], 2⟩⟩).2.mensaje
          = Mensaje.menorEliminada p c ∧
      p = calcularPromedio (SensorTemperatura.procesarLectura
        ⟨SensorBase.crear "T-001", ⟨[F32.num 80, F32.num 85], 2⟩⟩).1.historial ∧
      ¬ p < calcularPromedio (⟨[F32.num 80, F32.num 85], 2⟩ : ListaSensor F32)) :=
  ⟨⟨(promedio_no_baja_al_eliminar.1 (⟨[80, 85], 2⟩ : ListaSensor Int) (by decide)).1,
      (promedio_no_baja_al_eliminar.1 (⟨[80, 85], 2⟩ : ListaSensor Int) (by decide)).2
        (by decide!) (by decide!)⟩,
    (promedio_no_baja_al_eliminar.2 ⟨SensorBase.crear "T-001", ⟨[F32.num 80, F32.num 85], 2⟩⟩
      (by decide) (by
        intro x hx
        simp only [List.mem_cons, List.mem_singleton, List.not_mem_nil, or_false] at hx
        rcases hx with rfl | rfl
        · exact ⟨80, rfl⟩
        · exact ⟨85, rfl⟩) (by decide)).2 (by decide!) (by decide!)⟩

end ListaSensor

/-! ## Lemmas on the serial branch -/

/-- The scan for a comma walks over comma-free characters up to the first comma. -/
theorem buscarComaEn_append (a b : List Char) (h : ∀ c ∈ a, c ≠ coma) :
    ∀ pos, buscarComaEn (a ++ coma :: b) pos = some (pos + a.length) := by
  induction a with
  | nil => intro pos; simp [buscarComaEn]
  | cons c a ih =>
    intro pos
    have hc : c ≠ coma := h c (List.mem_cons_self _ _)
    show (if c = coma then some pos else buscarComaEn (a ++ coma :: b) (pos + 1)) = _
    rw [if_neg hc, ih (fun d hd => h d (List.mem_cons_of_mem _ hd)), List.length_cons]
    congr 1
    omega

/-- Without a comma the scan finds nothing. -/
theorem buscarComaEn_none (a : List Char) (h : ∀ c ∈ a, c ≠ coma) :
    ∀ pos, buscarComaEn a pos = none := by
  induction a with
  | nil => intro pos; rfl
  | cons c a ih =>
    intro pos
    have hc : c ≠ coma := h c (List.mem_cons_self _ _)
    show (if c = coma then some pos else buscarComaEn a (pos + 1)) = _
    rw [if_neg hc]
    exact ih (fun d hd => h d (List.mem_cons_of_mem _ hd)) _

/-- The fields of a line `K,id,value` whose `K` is not a comma and whose `id` has no
comma. -/
theorem camposLinea_bien_formada (K : Char) (id value : String) (hK : K ≠ coma)
    (hid : ∀ c ∈ id.data, c ≠ coma) :
    camposLinea (String.mk (K :: coma :: (id.data ++ coma :: value.data))) = (K, id, value) := by
  have h1 : buscarComa (K :: coma :: (id.data ++ coma :: value.data)) 0 = some 1 := by
    simp [buscarComa, buscarComaEn, hK]
  have h2 : buscarComa (K :: coma :: (id.data ++ coma :: value.data)) (1 + 1)
      = some (2 + id.data.length) := by
    unfold buscarComa
    simp only [List.drop_succ_cons, List.drop_zero]
    exact buscarComaEn_append id.data value.data hid 2
  unfold camposLinea
  simp only [h1, h2]
  have h3 : 2 + id.data.length - (1 + 1) = id.data.length := by omega
  have h4 : List.drop (2 + id.data.length + 1) (K :: coma :: (id.data ++ coma :: value.data))
      = value.data := by
    have : 2 + id.data.length + 1 = (id.data.length + 1) + 1 + 1 := by omega
    rw [this, List.drop_succ_cons, List.drop_succ_cons]
    rw [show id.data ++ coma :: value.data = (id.data ++ [coma]) ++ value.data by simp]
    rw [List.drop_append_of_le_length (by simp)]
    simp
  rw [h3, h4]
  simp only [List.drop_succ_cons, List.drop_zero, List.headD_cons, Prod.mk.injEq, true_and]
  refine ⟨?_, trivial⟩
  apply String.ext
  simp

/-- A line with fewer than two commas gives no fields. -/
theorem camposLinea_sin_comas (s : String)
    (h : buscarComa s.data 0 = none ∨
      ∃ i, buscarComa s.data 0 = some i ∧ buscarComa s.data (i + 1) = none) :
    camposLinea s = (nulo, "", "") := by
  unfold camposLinea
  rcases h with h | ⟨i, h1, h2⟩
  · simp only [h]
  · simp only [h1, h2]

namespace SistemaGestion

theorem registrarEn_append_length (lectura : F32) (sensor : Sensor) :
    ∀ xs : List Sensor,
      registrarEn (xs ++ [sensor]) xs.length lectura = xs ++ [sensor.registrarLectura lectura] := by
  intro xs
  induction xs with
  | nil => rfl
  | cons x xs ih => simp [registrarEn, ih]

end SistemaGestion

/-- The sensor is looked up, and created when missing, without any reading being
registered: the registry afterwards is the old one, or the old one with one new
sensor of empty history at the end. -/
theorem resolverSensor_sin_lectura (sistema : SistemaGestion) (tipo : Char) (id : String) :
    (resolverSensor sistema tipo id).1 = sistema ∨
    ∃ t, (resolverSensor sistema tipo id).1.sensores = sistema.sensores ++ [Sensor.crear t id] := by
  unfold resolverSensor
  cases sistema.buscarSensor id with
  | some pos => exact Or.inl rfl
  | none =>
    simp only
    split_ifs
    · exact Or.inr ⟨TipoSensor.temperatura, SistemaGestion.enlazarSensor_eq_append _ _⟩
    · exact Or.inr ⟨TipoSensor.presion, SistemaGestion.enlazarSensor_eq_append _ _⟩
    · exact Or.inr ⟨TipoSensor.vibracion, SistemaGestion.enlazarSensor_eq_append _ _⟩
    · exact Or.inl rfl

/-- The three ways through `case 8`: nothing read, a line turned away, a line whose
fields are all there. -/
theorem menuCaso8_casos (stof : String → Option F32) (sistema : SistemaGestion) (s : String) :
    (s.data = [] → menuCaso8 stof sistema s = (sistema, [Aviso.timeout])) ∧
    (s.data ≠ [] →
      ((camposLinea s).1 = nulo ∨ (camposLinea s).2.1.data = [] ∨
        (camposLinea s).2.2.data = []) →
      menuCaso8 stof sistema s = (sistema, [Aviso.formatoInvalido])) ∧
    (s.data ≠ [] →
      ¬ ((camposLinea s).1 = nulo ∨ (camposLinea s).2.1.data = [] ∨
        (camposLinea s).2.2.data = []) →
      menuCaso8 stof sistema s =
        match stof (camposLinea s).2.2 with
        | some valor =>
          match (resolverSensor sistema (camposLinea s).1 (camposLinea s).2.1).2.1 with
          | some pos =>
            ({ sensores := SistemaGestion.registrarEn
                (resolverSensor sistema (camposLinea s).1 (camposLinea s).2.1).1.sensores
                pos valor },
              (resolverSensor sistema (camposLinea s).1 (camposLinea s).2.1).2.2
                ++ [Aviso.ok valor])
          | none => ((resolverSensor sistema (camposLinea s).1 (camposLinea s).2.1).1,
              (resolverSensor sistema (camposLinea s).1 (camposLinea s).2.1).2.2)
        | none => ((resolverSensor sistema (camposLinea s).1 (camposLinea s).2.1).1,
            (resolverSensor sistema (camposLinea s).1 (camposLinea s).2.1).2.2
              ++ [Aviso.valorNoNumerico])) := by
  refine ⟨?_, ?_, ?_⟩
  · intro h
    unfold menuCaso8
    rw [if_pos h]
  · intro h hc
    unfold menuCaso8
    rw [if_neg h]
    simp only [if_pos hc]
  · intro h hc
    unfold menuCaso8
    rw [if_neg h]
    simp only [if_neg hc]

/-- The lines the serial branch turns away.  A line with fewer than two commas, or
with an empty `id` or an empty value between and after them, leaves the registry as it
is.  A line whose value the parser refuses registers no reading: the registry is the
old one, or the old one with one new sensor of empty history at the end. -/
theorem menuCaso8_rechaza (stof : String → Option F32) (sistema : SistemaGestion)
    (s : String) :
    ((camposLinea s).1 = nulo ∨ (camposLinea s).2.1.data = [] ∨ (camposLinea s).2.2.data = [] →
      (menuCaso8 stof sistema s).1 = sistema) ∧
    (stof (camposLinea s).2.2 = none →
      (menuCaso8 stof sistema s).1 = sistema ∨
      ∃ t, (menuCaso8 stof sistema s).1.sensores =
        sistema.sensores ++ [Sensor.crear t (camposLinea s).2.1]) := by
  obtain ⟨h1, h2, h3⟩ := menuCaso8_casos stof sistema s
  constructor
  · intro h
    by_cases hs : s.data = []
    · rw [h1 hs]
    · rw [h2 hs h]
  · intro h
    by_cases hs : s.data = []
    · rw [h1 hs]; exact Or.inl rfl
    · by_cases hc : (camposLinea s).1 = nulo ∨ (camposLinea s).2.1.data = [] ∨
          (camposLinea s).2.2.data = []
      · rw [h2 hs hc]; exact Or.inl rfl
      · rw [h3 hs hc, h]
        exact resolverSensor_sin_lectura sistema _ _

/-! ## The claims on the serial branch -/

/-- Claim C24, at a line whose kind field is missing.  The registry holds the sensors
`T-001`, `P-105` and `V-001` without readings; the line `,T-001,5` has two commas and
nothing before the first.  The branch takes the comma itself for `tipo`, does not turn
the line away, finds `T-001` and registers the reading `5` on it. -/
theorem menuCaso8_sin_tipo_registra :
    camposLinea ",T-001,5" = (coma, "T-001", "5") ∧
    (menuCaso8 stofDecimal
      (SistemaGestion.agregarSensor (SistemaGestion.agregarSensor (SistemaGestion.agregarSensor
        SistemaGestion.vacio (Sensor.crear TipoSensor.temperatura "T-001"))
        (Sensor.crear TipoSensor.presion "P-105")) (Sensor.crear TipoSensor.vibracion "V-001"))
      ",T-001,5").1.sensores =
      [Sensor.temperatura ⟨SensorBase.crear "T-001", ⟨[F32.num 5], 1⟩⟩,
        Sensor.crear TipoSensor.presion "P-105", Sensor.crear TipoSensor.vibracion "V-001"] ∧
    (menuCaso8 stofDecimal
      (SistemaGestion.agregarSensor (SistemaGestion.agregarSensor (SistemaGestion.agregarSensor
        SistemaGestion.vacio (Sensor.crear TipoSensor.temperatura "T-001"))
        (Sensor.crear TipoSensor.presion "P-105")) (Sensor.crear TipoSensor.vibracion "V-001"))
      ",T-001,5").2 = [Aviso.ok (F32.num 5)] :=
  ⟨by decide, by decide!, by decide!⟩

/-- Counterexample to C25 as stated.  On the empty registry the line
`T,<id of 50 characters>,5` is well formed and its id is not in the registry.  The
branch creates a Temperature sensor that holds only 49 characters of the id, does not
find it again under the id of the line, and registers nothing: the history of the new
sensor is empty. -/
theorem menuCaso8_id_largo :
    camposLinea "T,01234567890123456789012345678901234567890123456789,5" =
      ('T', "01234567890123456789012345678901234567890123456789", "5") ∧
    (menuCaso8 stofDecimal SistemaGestion.vacio
      "T,01234567890123456789012345678901234567890123456789,5").1.sensores =
      [Sensor.temperatura ⟨SensorBase.crear "01234567890123456789012345678901234567890123456789",
        ⟨[], 0⟩⟩] ∧
    (SensorBase.crear "01234567890123456789012345678901234567890123456789").getId ≠
      "01234567890123456789012345678901234567890123456789" ∧
    (menuCaso8 stofDecimal SistemaGestion.vacio
      "T,01234567890123456789012345678901234567890123456789,5").2 = [Aviso.creando] :=
  ⟨by decide, by decide!, by decide, by decide!⟩

/-- Claim C25, amended. Take a line `K,id,value` whose `id` is a non-empty C string of
at most 49 characters without a comma and not the identifier of any sensor of the
registry, and whose non-empty `value` the parser reads as `v`.  When `K` is `T` or `t`
the branch leaves the registry with one more sensor at the end, a Temperature sensor
with that id whose history is `[v]`; when `K` is `P` or `p`, a Pressure sensor whose
history is `[v converted to int]`; when `K` is `V` or `v`, a Vibration sensor likewise.
When `K` is none of the six the registry is left as it is: no sensor is created and no
reading registered. -/
theorem menuCaso8_crea_y_registra (stof : String → Option F32) (sistema : SistemaGestion)
    (K : Char) (id value : String) (v : F32)
    (hnul : ∀ c ∈ id.data, c ≠ nulo) (hcoma : ∀ c ∈ id.data, c ≠ coma)
    (hid : id.data ≠ []) (hlen : id.length ≤ 49) (hval : value.data ≠ [])
    (hstof : stof value = some v)
    (hnuevo : ∀ s ∈ sistema.sensores, s.getId ≠ id) :
    (K = 'T' ∨ K = 't' →
      (menuCaso8 stof sistema (String.mk (K :: coma :: (id.data ++ coma :: value.data)))).1.sensores
        = sistema.sensores ++ [Sensor.temperatura ⟨SensorBase.crear id, ⟨[v], 1⟩⟩]) ∧
    (K = 'P' ∨ K = 'p' →
      (menuCaso8 stof sistema (String.mk (K :: coma :: (id.data ++ coma :: value.data)))).1.sensores
        = sistema.sensores ++ [Sensor.presion ⟨SensorBase.crear id, ⟨[F32.aInt v], 1⟩⟩]) ∧
    (K = 'V' ∨ K = 'v' →
      (menuCaso8 stof sistema (String.mk (K :: coma :: (id.data ++ coma :: value.data)))).1.sensores
        = sistema.sensores ++ [Sensor.vibracion ⟨SensorBase.crear id, ⟨[F32.aInt v], 1⟩⟩]) ∧
    (¬ (K = 'T' ∨ K = 't' ∨ K = 'P' ∨ K = 'p' ∨ K = 'V' ∨ K = 'v') →
      (menuCaso8 stof sistema (String.mk (K :: coma :: (id.data ++ coma :: value.data)))).1
        = sistema) ∧
    (SensorBase.crear id).getId = id := by
  have hgetId : ∀ t, (Sensor.crear t id).getId = id := by
    intro t
    rw [Sensor.sensor_getId_crear, cadena_eq_self _ hnul, List.take_of_length_le hlen]
  have hbase : (SensorBase.crear id).getId = id := hgetId TipoSensor.temperatura
  have hnone : sistema.buscarSensor id = none := by
    unfold SistemaGestion.buscarSensor
    rw [SistemaGestion.buscarDesde_eq_none]
    intro s hs
    exact (SistemaGestion.strcmp_false_iff s id hnul).2 (hnuevo s hs)
  have hs : (String.mk (K :: coma :: (id.data ++ coma :: value.data))).data ≠ [] := by simp
  obtain ⟨_, hinval, hval3⟩ := menuCaso8_casos stof sistema
    (String.mk (K :: coma :: (id.data ++ coma :: value.data)))
  -- what happens once a sensor of class `t` has been created
  have hcrea : ∀ t : TipoSensor, K ≠ coma → K ≠ nulo →
      resolverSensor sistema K id =
        (sistema.agregarSensor (Sensor.crear t id),
          (sistema.agregarSensor (Sensor.crear t id)).buscarSensor id, [Aviso.creando]) →
      (menuCaso8 stof sistema (String.mk (K :: coma :: (id.data ++ coma :: value.data)))).1.sensores
        = sistema.sensores ++ [(Sensor.crear t id).registrarLectura v] := by
    intro t hK hK0 hres
    have hcampos := camposLinea_bien_formada K id value hK hcoma
    have hok : ¬ ((camposLinea (String.mk (K :: coma :: (id.data ++ coma :: value.data)))).1 = nulo ∨
        (camposLinea (String.mk (K :: coma :: (id.data ++ coma :: value.data)))).2.1.data = [] ∨
        (camposLinea (String.mk (K :: coma :: (id.data ++ coma :: value.data)))).2.2.data = []) := by
      rw [hcampos]
      simp only [not_or]
      exact ⟨hK0, hid, hval⟩
    rw [hval3 hs hok, hcampos]
    simp only [hstof, hres]
    have hfind : (sistema.agregarSensor (Sensor.crear t id)).buscarSensor id
        = some sistema.sensores.length := by
      rw [SistemaGestion.buscarSensor_agregarSensor, hnone]
      simp only
      rw [if_pos ((Sensor.sensor_strcmpIgual_getId _ id hnul).2 (hgetId t))]
    rw [hfind]
    simp only
    rw [show (sistema.agregarSensor (Sensor.crear t id)).sensores
        = sistema.sensores ++ [Sensor.crear t id] from SistemaGestion.enlazarSensor_eq_append _ _]
    exact SistemaGestion.registrarEn_append_length v _ _
  refine ⟨?_, ?_, ?_, ?_, hbase⟩
  · intro hK
    have hK1 : K ≠ coma := by rcases hK with h | h <;> rw [h] <;> decide
    have hK0 : K ≠ nulo := by rcases hK with h | h <;> rw [h] <;> decide
    have hres : resolverSensor sistema K id =
        (sistema.agregarSensor (Sensor.crear TipoSensor.temperatura id),
          (sistema.agregarSensor (Sensor.crear TipoSensor.temperatura id)).buscarSensor id,
          [Aviso.creando]) := by
      unfold resolverSensor
      rw [hnone]
      simp only [if_pos hK]
    rw [hcrea TipoSensor.temperatura hK1 hK0 hres]
    rfl
  · intro hK
    have hK1 : K ≠ coma := by rcases hK with h | h <;> rw [h] <;> decide
    have hK0 : K ≠ nulo := by rcases hK with h | h <;> rw [h] <;> decide
    have hT : ¬ (K = 'T' ∨ K = 't') := by rcases hK with h | h <;> rw [h] <;> decide
    have hres : resolverSensor sistema K id =
        (sistema.agregarSensor (Sensor.crear TipoSensor.presion id),
          (sistema.agregarSensor (Sensor.crear TipoSensor.presion id)).buscarSensor id,
          [Aviso.creando]) := by
      unfold resolverSensor
      rw [hnone]
      simp only [if_neg hT, if_pos hK]
    rw [hcrea TipoSensor.presion hK1 hK0 hres]
    rfl
  · intro hK
    have hK1 : K ≠ coma := by rcases hK with h | h <;> rw [h] <;> decide
    have hK0 : K ≠ nulo := by rcases hK with h | h <;> rw [h] <;> decide
    have hT : ¬ (K = 'T' ∨ K = 't') := by rcases hK with h | h <;> rw [h] <;> decide
    have hP : ¬ (K = 'P' ∨ K = 'p') := by rcases hK with h | h <;> rw [h] <;> decide
    have hres : resolverSensor sistema K id =
        (sistema.agregarSensor (Sensor.crear TipoSensor.vibracion id),
          (sistema.agregarSensor (Sensor.crear TipoSensor.vibracion id)).buscarSensor id,
          [Aviso.creando]) := by
      unfold resolverSensor
      rw [hnone]
      simp only [if_neg hT, if_neg hP, if_pos hK]
    rw [hcrea TipoSensor.vibracion hK1 hK0 hres]
    rfl
  · intro hK
    simp only [not_or] at hK
    obtain ⟨h1, h2, h3, h4, h5, h6⟩ := hK
    by_cases hKc : K = coma
    · -- the line starts with two commas: the `id` field is empty
      have hcampos : (camposLinea (String.mk (K :: coma :: (id.data ++ coma :: value.data)))).2.1.data
          = [] := by
        rw [hKc]
        unfold camposLinea
        have e1 : buscarComa (coma :: coma :: (id.data ++ coma :: value.data)) 0 = some 0 := by
          simp [buscarComa, buscarComaEn]
        have e2 : buscarComa (coma :: coma :: (id.data ++ coma :: value.data)) (0 + 1)
            = some 1 := by
          simp [buscarComa, buscarComaEn]
        simp only [e1, e2]
        simp
      rw [hinval hs (Or.inr (Or.inl hcampos))]
    · by_cases hK0 : K = nulo
      · have hcampos := camposLinea_bien_formada K id value hKc hcoma
        rw [hinval hs (Or.inl (by rw [hcampos]; exact hK0))]
      · have hcampos := camposLinea_bien_formada K id value hKc hcoma
        have hok : ¬ ((camposLinea (String.mk (K :: coma :: (id.data ++ coma :: value.data)))).1
              = nulo ∨
            (camposLinea (String.mk (K :: coma :: (id.data ++ coma :: value.data)))).2.1.data = [] ∨
            (camposLinea (String.mk (K :: coma :: (id.data ++ coma :: value.data)))).2.2.data
              = []) := by
          rw [hcampos]
          simp only [not_or]
          exact ⟨hK0, hid, hval⟩
        have hres : resolverSensor sistema K id = (sistema, none, [Aviso.creando]) := by
          unfold resolverSensor
          rw [hnone]
          simp only [h1, h2, h3, h4, h5, h6, or_self, if_false, hnone]
        rw [hval3 hs hok, hcampos]
        simp only [hstof, hres]

/-- Witness for C25 amended: the line `P,P-200,81` on the registry that holds `T-001`
creates the Pressure sensor `P-200` with the history `[81]`. -/
theorem menuCaso8_crea_y_registra_witness :
    (menuCaso8 stofDecimal
      (SistemaGestion.agregarSensor SistemaGestion.vacio
        (Sensor.crear TipoSensor.temperatura "T-001"))
      (String.mk ('P' :: coma :: ("P-200".data ++ coma :: "81".data)))).1.sensores
      = (SistemaGestion.agregarSensor SistemaGestion.vacio
          (Sensor.crear TipoSensor.temperatura "T-001")).sensores
        ++ [Sensor.presion ⟨SensorBase.crear "P-200", ⟨[F32.aInt (F32.num 81)], 1⟩⟩] ∧
    (String.mk ('P' :: coma :: ("P-200".data ++ coma :: "81".data))) = "P,P-200,81" :=
  ⟨(menuCaso8_crea_y_registra stofDecimal
      (SistemaGestion.agregarSensor SistemaGestion.vacio
        (Sensor.crear TipoSensor.temperatura "T-001"))
      'P' "P-200" "81" (F32.num 81) (by decide) (by decide) (by decide) (by decide) (by decide)
      (by decide!) (by decide)).2.1 (Or.inl rfl),
    by decide⟩

/-! ## The heap: reading and writing cells -/

namespace Monton

variable {T : Type}

theorem leer_lt {m : Monton T} {p : Nat} {n : Nodo T} (h : leer m p = some n) :
    p < m.length := by
  unfold leer at h
  by_contra hp
  rw [List.getElem?_eq_none (by omega)] at h
  simp at h

theorem leer_append_of_lt (m : Monton T) (c : Option (Nodo T)) {p : Nat}
    (h : p < m.length) : leer (m ++ [c]) p = leer m p := by
  unfold leer
  rw [List.getElem?_append_left h]

theorem leer_append_length (m : Monton T) (c : Option (Nodo T)) :
    leer (m ++ [c]) m.length = c := by
  unfold leer
  simp

theorem leer_set_ne (m : Monton T) {p q : Nat} (c : Option (Nodo T)) (h : q ≠ p) :
    leer (m.set p c) q = leer m q := by
  unfold leer
  rw [List.getElem?_set_ne (Ne.symm h)]

theorem leer_set_eq (m : Monton T) {p : Nat} (c : Option (Nodo T)) (h : p < m.length) :
    leer (m.set p c) p = c := by
  unfold leer
  rw [List.getElem?_set_self h]
  rfl

theorem length_ponerSiguiente (m : Monton T) (p : Nat) (sig : Option Nat) :
    (ponerSiguiente m p sig).length = m.length := by
  unfold ponerSiguiente
  cases leer m p <;> simp

theorem leer_ponerSiguiente_ne (m : Monton T) {p q : Nat} (sig : Option Nat) (h : q ≠ p) :
    leer (ponerSiguiente m p sig) q = leer m q := by
  unfold ponerSiguiente
  cases leer m p with
  | none => rfl
  | some n => exact leer_set_ne m _ h

theorem leer_ponerSiguiente_eq {m : Monton T} {p : Nat} {n : Nodo T} (sig : Option Nat)
    (h : leer m p = some n) :
    leer (ponerSiguiente m p sig) p = some { dato := n.dato, siguiente := sig } := by
  unfold ponerSiguiente
  rw [h]
  exact leer_set_eq m _ (leer_lt h)

theorem length_liberar (m : Monton T) (p : Nat) : (liberar m p).length = m.length := by
  unfold liberar
  simp

theorem leer_liberar_ne (m : Monton T) {p q : Nat} (h : q ≠ p) :
    leer (liberar m p) q = leer m q :=
  leer_set_ne m _ h

theorem leer_liberar_eq (m : Monton T) (p : Nat) : leer (liberar m p) p = none := by
  by_cases hp : p < m.length
  · exact leer_set_eq m _ hp
  · unfold leer
    rw [List.getElem?_eq_none (by rw [length_liberar]; omega)]
    rfl

/-! ## The heap: chains -/

theorem representa_marco {m n : Monton T} {p : Option Nat} {xs : List T} {ds : List Nat}
    (h : Representa m p xs ds) (hm : ∀ d ∈ ds, leer n d = leer m d) :
    Representa n p xs ds := by
  induction h with
  | nil => exact Representa.nil
  | cons ha hn _ ih =>
    refine Representa.cons ?_ hn (ih (fun d hd => hm d (List.mem_cons_of_mem _ hd)))
    rw [hm _ (List.mem_cons_self _ _)]
    exact ha

theorem representa_length {m : Monton T} {p : Option Nat} {xs : List T} {ds : List Nat}
    (h : Representa m p xs ds) : ds.length = xs.length := by
  induction h with
  | nil => rfl
  | cons _ _ _ ih => simp [ih]

theorem representa_nodup {m : Monton T} {p : Option Nat} {xs : List T} {ds : List Nat}
    (h : Representa m p xs ds) : ds.Nodup := by
  induction h with
  | nil => exact List.nodup_nil
  | cons _ hn _ ih => exact List.nodup_cons.mpr ⟨hn, ih⟩

theorem representa_lt {m : Monton T} {p : Option Nat} {xs : List T} {ds : List Nat}
    (h : Representa m p xs ds) : ∀ d ∈ ds, d < m.length := by
  induction h with
  | nil => intro d hd; simp at hd
  | cons ha _ _ ih =>
    intro d hd
    rcases List.mem_cons.mp hd with rfl | hd
    · exact leer_lt ha
    · exact ih d hd

theorem representa_cabeza {m : Monton T} {p : Option Nat} {xs : List T} {ds : List Nat}
    (h : Representa m p xs ds) : p = ds[0]? := by
  cases h <;> simp

theorem representa_none {m : Monton T} {xs : List T} {ds : List Nat}
    (h : Representa m none xs ds) : xs = [] ∧ ds = [] := by
  cases h
  exact ⟨rfl, rfl⟩

theorem representa_unico {m : Monton T} {p : Option Nat} {xs : List T} {ds : List Nat}
    (h : Representa m p xs ds) :
    ∀ {ys : List T} {es : List Nat}, Representa m p ys es → ys = xs ∧ es = ds := by
  induction h with
  | nil => intro ys es h2; exact representa_none h2
  | cons ha _ _ ih =>
    intro ys es h2
    cases h2 with
    | cons hb _ hr =>
      rw [ha] at hb
      injection hb with hb
      injection hb with h1 h2
      subst h1
      subst h2
      obtain ⟨e1, e2⟩ := ih hr
      rw [e1, e2]
      exact ⟨rfl, rfl⟩

theorem length_le_of_nodup_lt {ds : List Nat} {n : Nat} (hn : ds.Nodup)
    (hl : ∀ d ∈ ds, d < n) : ds.length ≤ n := by
  rw [← List.toFinset_card_of_nodup hn, ← Finset.card_range n]
  apply Finset.card_le_card
  intro d hd
  exact Finset.mem_range.mpr (hl d (List.mem_toFinset.mp hd))

theorem representa_length_le {m : Monton T} {p : Option Nat} {xs : List T} {ds : List Nat}
    (h : Representa m p xs ds) : ds.length ≤ m.length :=
  length_le_of_nodup_lt (representa_nodup h) (representa_lt h)

theorem representa_leer {m : Monton T} {p : Option Nat} {xs : List T} {ds : List Nat}
    (h : Representa m p xs ds) :
    ∀ (k d : Nat), ds[k]? = some d →
      ∃ x, xs[k]? = some x ∧ leer m d = some { dato := x, siguiente := ds[k + 1]? } := by
  induction h with
  | nil => intro k d hk; simp at hk
  | cons ha _ hr ih =>
    intro k d hk
    cases k with
    | zero =>
      simp only [List.getElem?_cons_zero, Option.some.injEq] at hk
      subst hk
      refine ⟨_, List.getElem?_cons_zero, ?_⟩
      rw [ha, representa_cabeza hr]
      simp
    | succ k =>
      simp only [List.getElem?_cons_succ] at hk
      obtain ⟨x, hx, hl⟩ := ih k d hk
      exact ⟨x, by simpa using hx, by simpa using hl⟩

theorem representa_siguienteDe {m : Monton T} {p : Option Nat} {xs : List T} {ds : List Nat}
    (h : Representa m p xs ds) (k d : Nat) (hk : ds[k]? = some d) :
    siguienteDe m d = ds[k + 1]? := by
  obtain ⟨x, _, hl⟩ := representa_leer h k d hk
  unfold siguienteDe
  rw [hl]
  rfl

/-! ## The heap: `insertar` -/

theorem ultimo_representa {m : Monton T} :
    ∀ (pasos : Nat) {a : Nat} {xs : List T} {ds : List Nat},
      Representa m (some a) xs ds → ds.length ≤ pasos + 1 →
      ds.getLast? = some (ultimo m pasos a) := by
  intro pasos
  induction pasos with
  | zero =>
    intro a xs ds h hl
    cases h with
    | cons ha hn hr =>
      rename_i dato sig datos dirs
      have : dirs = [] := by
        cases dirs with
        | nil => rfl
        | cons _ _ => simp at hl
      subst this
      rfl
  | succ pasos ih =>
    intro a xs ds h hl
    have hs := representa_siguienteDe h 0 a (representa_cabeza h).symm
    cases h with
    | cons ha hn hr =>
      rename_i dato sig datos dirs
      have hc := representa_cabeza hr
      simp only [List.getElem?_cons_succ, zero_add] at hs
      unfold ultimo
      rw [hs, ← hc]
      cases sig with
      | none =>
        obtain ⟨_, rfl⟩ := representa_none hr
        rfl
      | some s =>
        have := ih hr (by simpa using hl)
        rw [← this]
        cases hr with
        | cons _ _ _ => rfl

theorem representa_enlazar {m : Monton T} {v : T} {nu : Nat}
    (hnu : leer m nu = some { dato := v, siguiente := none })
    {p : Option Nat} {xs : List T} {ds : List Nat} (h : Representa m p xs ds) :
    ∀ u, ds.getLast? = some u → nu ∉ ds →
      Representa (ponerSiguiente m u (some nu)) p (xs ++ [v]) (ds ++ [nu]) := by
  induction h with
  | nil => intro u hu; simp at hu
  | cons ha hn hr ih =>
    rename_i a dato sig datos dirs
    intro u hu hnd
    have hne : nu ≠ a := fun e => hnd (e ▸ List.mem_cons_self _ _)
    have hnd2 : nu ∉ dirs := fun e => hnd (List.mem_cons_of_mem _ e)
    cases dirs with
    | nil =>
      obtain rfl : sig = none := by cases hr; rfl
      obtain rfl : datos = [] := by cases hr; rfl
      simp only [List.getLast?_singleton, Option.some.injEq] at hu
      subst hu
      refine Representa.cons (leer_ponerSiguiente_eq _ ha) (by simpa using Ne.symm hne) ?_
      refine Representa.cons ?_ (by simp) Representa.nil
      rw [leer_ponerSiguiente_ne _ _ hne]
      exact hnu
    | cons b dirs =>
      have hu2 : (b :: dirs).getLast? = some u := by
        rw [← hu]; simp [List.getLast?_cons_cons]
      have hua : a ≠ u := by
        intro e
        apply hn
        rw [e]
        exact List.mem_of_mem_getLast? hu2
      refine Representa.cons ?_ ?_ (ih u hu2 hnd2)
      · rw [leer_ponerSiguiente_ne _ _ hua]
        exact ha
      · intro hmem
        rcases List.mem_append.mp hmem with h1 | h1
        · exact hn h1
        · simp at h1
          exact hne h1.symm

theorem insertar_representa {m : Monton T} {l : Campos} {xs : List T} {ds : List Nat}
    (h : Representa m l.cabeza xs ds) (v : T) :
    Representa (insertar m l v).1 (insertar m l v).2.cabeza (xs ++ [v]) (ds ++ [m.length]) ∧
    (insertar m l v).2.cantidad = l.cantidad + 1 ∧
    (insertar m l v).1.length = m.length + 1 ∧
    ∀ q, q < m.length → q ∉ ds → leer (insertar m l v).1 q = leer m q := by
  have hlt := representa_lt h
  have hnu : m.length ∉ ds := fun e => Nat.lt_irrefl _ (hlt _ e)
  have h1 : Representa (m ++ [some (Nodo.mk v none)]) l.cabeza xs ds :=
    representa_marco h (fun d hd => leer_append_of_lt m _ (hlt d hd))
  unfold insertar nuevo
  cases hc : l.cabeza with
  | none =>
    rw [hc] at h
    obtain ⟨rfl, rfl⟩ := representa_none h
    refine ⟨?_, rfl, by simp, fun q hq _ => leer_append_of_lt m _ hq⟩
    exact Representa.cons (leer_append_length m _) (by simp) Representa.nil
  | some c =>
    rw [hc] at h1
    have hu := ultimo_representa (m ++ [some (Nodo.mk v none)]).length.pred
      h1 (by
        have := representa_length_le h1
        simp at this ⊢
        omega)
    have hfuel : ultimo (m ++ [some (Nodo.mk v none)])
        (m ++ [some (Nodo.mk v none)]).length c =
        ultimo (m ++ [some (Nodo.mk v none)])
          (m ++ [some (Nodo.mk v none)]).length.pred c := by
      have h2 := ultimo_representa (m ++ [some (Nodo.mk v none)]).length
        h1 (by
          have := representa_length_le h1
          omega)
      rw [hu] at h2
      exact (Option.some.inj h2).symm
    simp only
    rw [hfuel]
    refine ⟨representa_enlazar (leer_append_length m _) h1 _ hu hnu, trivial, ?_, ?_⟩
    · rw [length_ponerSiguiente]; simp
    · intro q hq hqd
      rw [leer_ponerSiguiente_ne, leer_append_of_lt m _ hq]
      intro e
      apply hqd
      rw [e]
      exact List.mem_of_mem_getLast? hu

/-! ## The heap: `eliminarMenor` -/

theorem buscarMenorEn_representa [LT T] [DecidableRel (fun a b : T => a < b)]
    {m : Monton T} {p : Option Nat} {xs : List T} {ds : List Nat}
    (h : Representa m p xs ds) :
    ∀ (pasos k mi menor : Nat) (dm : T),
      ds.length ≤ k + pasos → ds[mi]? = some menor → xs[mi]? = some dm →
      buscarMenorEn m pasos (if k = 0 then none else ds[k - 1]?) ds[k]?
          (if mi = 0 then none else ds[mi - 1]?) menor =
        ((if ListaSensor.buscarMenor (xs.drop k) k mi dm = 0 then none
          else ds[ListaSensor.buscarMenor (xs.drop k) k mi dm - 1]?),
         (ds[ListaSensor.buscarMenor (xs.drop k) k mi dm]?).getD 0) := by
  have hlen := representa_length h
  have fin : ∀ (k mi menor : Nat) (dm : T), ds.length ≤ k → ds[mi]? = some menor →
      ((if mi = 0 then none else ds[mi - 1]?), menor) =
        ((if ListaSensor.buscarMenor (xs.drop k) k mi dm = 0 then none
          else ds[ListaSensor.buscarMenor (xs.drop k) k mi dm - 1]?),
         (ds[ListaSensor.buscarMenor (xs.drop k) k mi dm]?).getD 0) := by
    intro k mi menor dm hk hmi
    rw [List.drop_eq_nil_of_le (by omega)]
    simp only [ListaSensor.buscarMenor]
    rw [hmi]
    rfl
  intro pasos
  induction pasos with
  | zero =>
    intro k mi menor dm hk hmi _
    rw [buscarMenorEn]
    exact fin k mi menor dm (by omega) hmi
  | succ pasos ih =>
    intro k mi menor dm hk hmi hdm
    by_cases hkl : k < ds.length
    · have hka : ds[k]? = some ds[k] := List.getElem?_eq_getElem hkl
      obtain ⟨x, hx, hlx⟩ := representa_leer h k _ hka
      obtain ⟨y, hy, hly⟩ := representa_leer h mi _ hmi
      rw [hdm] at hy
      obtain rfl := Option.some.inj hy
      have hkx : k < xs.length := by omega
      have hxe : x = xs[k] := by
        rw [List.getElem?_eq_getElem hkx] at hx
        exact (Option.some.inj hx).symm
      rw [hka, buscarMenorEn, hlx, hly, List.drop_eq_getElem_cons hkx, ← hxe,
        ListaSensor.buscarMenor]
      simp only
      have hant : (if k + 1 = 0 then none else ds[k + 1 - 1]?) = some ds[k] := by
        simp [hka]
      by_cases hlt : x < dm
      · rw [if_pos hlt, if_pos hlt]
        have := ih (k + 1) k ds[k] x (by omega) hka hx
        rw [hant] at this
        exact this
      · rw [if_neg hlt, if_neg hlt]
        have := ih (k + 1) mi menor dm (by omega) hmi hdm
        rw [hant] at this
        exact this
    · rw [List.getElem?_eq_none (show ds.length ≤ k by omega)]
      simp only [buscarMenorEn]
      exact fin k mi menor dm (by omega) hmi

theorem representa_desenlazar {m : Monton T} {p : Option Nat} {xs : List T} {ds : List Nat}
    (h : Representa m p xs ds) :
    ∀ (i ant men : Nat), 0 < i → ds[i - 1]? = some ant → ds[i]? = some men →
      Representa (liberar (ponerSiguiente m ant ds[i + 1]?) men) p
        (xs.eraseIdx i) (ds.eraseIdx i) := by
  induction h with
  | nil => intro i ant men _ _ hm; simp at hm
  | cons ha hn hr ih =>
    rename_i a dato sig datos dirs
    intro i ant men hi hant hmen
    obtain ⟨i, rfl⟩ : ∃ j, i = j + 1 := ⟨i - 1, by omega⟩
    simp only [List.getElem?_cons_succ, List.eraseIdx_cons_succ] at hmen ⊢
    have hmd : men ∈ dirs := List.getElem?_mem hmen
    have ham : a ≠ men := fun e => hn (e ▸ hmd)
    cases i with
    | zero =>
      simp only [zero_add, Nat.sub_self, List.getElem?_cons_zero, Option.some.injEq] at hant
      subst hant
      have hnd := representa_nodup hr
      cases hr with
      | nil => simp at hmen
      | cons hb hnb hrr =>
        rename_i b dato2 sig2 datos2 dirs2
        simp only [List.getElem?_cons_zero, Option.some.injEq] at hmen
        subst hmen
        simp only [zero_add, List.eraseIdx_cons_zero, List.getElem?_cons_succ,
          List.getElem?_cons_zero]
        have hl : leer (liberar (ponerSiguiente m a dirs2[0]?) b) a =
            some { dato := dato, siguiente := sig2 } := by
          rw [leer_liberar_ne _ ham, leer_ponerSiguiente_eq _ ha, representa_cabeza hrr]
        refine Representa.cons hl (fun e => hn (List.mem_cons_of_mem _ e)) ?_
        · refine representa_marco hrr (fun d hd => ?_)
          have h1 : d ≠ b := fun e => hnb (e ▸ hd)
          have h2 : d ≠ a := fun e => hn (List.mem_cons_of_mem _ (e ▸ hd))
          rw [leer_liberar_ne _ h1, leer_ponerSiguiente_ne _ _ h2]
    | succ i =>
      simp only [Nat.add_sub_cancel, List.getElem?_cons_succ] at hant
      have hantd : ant ∈ dirs := List.getElem?_mem hant
      have haa : a ≠ ant := fun e => hn (e ▸ hantd)
      have := ih (i + 1) ant men (by omega) (by simpa using hant) hmen
      refine Representa.cons ?_ ?_ this
      · rw [leer_liberar_ne _ ham, leer_ponerSiguiente_ne _ _ haa]
        exact ha
      · intro e
        exact hn ((List.eraseIdx_sublist _ _).subset e)

theorem eliminarMenor_representa [LT T] [DecidableRel (fun a b : T => a < b)]
    {m : Monton T} {l : Campos} {xs : List T} {ds : List Nat}
    (h : Representa m l.cabeza xs ds) :
    ∃ es, (∀ d ∈ es, d ∈ ds) ∧
      Representa (eliminarMenor m l).1 (eliminarMenor m l).2.cabeza
        (ListaSensor.eliminarMenor { nodos := xs, cantidad := l.cantidad }).nodos es ∧
      (eliminarMenor m l).2.cantidad =
        (ListaSensor.eliminarMenor { nodos := xs, cantidad := l.cantidad }).cantidad ∧
      (eliminarMenor m l).1.length = m.length ∧
      ∀ q, q ∉ ds → leer (eliminarMenor m l).1 q = leer m q := by
  cases hc : l.cabeza with
  | none =>
    rw [hc] at h
    obtain ⟨rfl, rfl⟩ := representa_none h
    refine ⟨[], fun d hd => hd, ?_, ?_, ?_, ?_⟩ <;> simp only [eliminarMenor, hc]
    · exact Representa.nil
    · rfl
    · intro q _; trivial
  | some c =>
    rw [hc] at h
    have hbus := buscarMenorEn_representa h m.length 0
    have hle := representa_length_le h
    have hlen := representa_length h
    have hall := h
    cases h with
    | cons ha hn hr =>
      rename_i dato sig datos dirs
      have hb := hbus 0 c dato (by omega) List.getElem?_cons_zero List.getElem?_cons_zero
      rw [if_pos rfl, List.getElem?_cons_zero] at hb
      simp only [List.drop_zero] at hb
      have hj := ListaSensor.buscarMenor_lt_length dato datos
      simp only [eliminarMenor, hc, ListaSensor.eliminarMenor]
      rw [hb]
      generalize ListaSensor.buscarMenor (dato :: datos) 0 0 dato = j at hj ⊢
      have hjd : j < (c :: dirs).length := by rw [hlen]; exact hj
      by_cases hj0 : j = 0
      · subst hj0
        simp only [if_true, List.getElem?_cons_zero, Option.getD_some, List.eraseIdx_cons_zero]
        have hs : siguienteDe m c = sig := by
          unfold siguienteDe; rw [ha]; rfl
        rw [hs]
        refine ⟨dirs, fun d hd => List.mem_cons_of_mem _ hd, ?_, trivial, length_liberar m c, ?_⟩
        · refine representa_marco hr (fun d hd => leer_liberar_ne m ?_)
          exact fun e => hn (e ▸ hd)
        · intro q hq
          exact leer_liberar_ne m (fun e => hq (e ▸ List.mem_cons_self _ _))
      · have hmen : (c :: dirs)[j]? = some (c :: dirs)[j] := List.getElem?_eq_getElem hjd
        have hant : (c :: dirs)[j - 1]? = some (c :: dirs)[j - 1] :=
          List.getElem?_eq_getElem (by omega)
        rw [if_neg hj0, hmen, hant]
        simp only [Option.getD_some]
        rw [representa_siguienteDe hall j _ hmen]
        refine ⟨(c :: dirs).eraseIdx j, fun d hd => (List.eraseIdx_sublist _ _).subset hd,
          representa_desenlazar hall j _ _ (by omega) hant hmen, trivial, ?_, ?_⟩
        · rw [length_liberar, length_ponerSiguiente]
        · intro q hq
          rw [leer_liberar_ne, leer_ponerSiguiente_ne]
          · exact fun e => hq (e ▸ List.getElem_mem _)
          · exact fun e => hq (e ▸ List.getElem_mem _)

/-! ## The heap: `calcularPromedio` -/

theorem acumularEn_representa [Lectura T] {m : Monton T} :
    ∀ (pasos : Nat) {p : Option Nat} {xs : List T} {ds : List Nat},
      Representa m p xs ds → ds.length ≤ pasos →
      ∀ (suma : T) (count : Int),
        acumularEn m pasos p suma count = ListaSensor.acumular xs suma count := by
  intro pasos
  induction pasos with
  | zero =>
    intro p xs ds h hl suma count
    obtain rfl : ds = [] := List.length_eq_zero.mp (by omega)
    cases h
    rfl
  | succ pasos ih =>
    intro p xs ds h hl suma count
    cases h with
    | nil => rfl
    | cons ha _ hr =>
      rw [acumularEn, ha, ListaSensor.acumular]
      exact ih hr (by simpa using hl) _ _

theorem calcularPromedio_representa [Lectura T] {m : Monton T} {l : Campos} {xs : List T}
    {ds : List Nat} (h : Representa m l.cabeza xs ds) :
    calcularPromedio m l =
      ListaSensor.calcularPromedio { nodos := xs, cantidad := l.cantidad } := by
  have hle := representa_length_le h
  unfold calcularPromedio ListaSensor.calcularPromedio
  cases hc : l.cabeza with
  | none =>
    rw [hc] at h
    obtain ⟨rfl, _⟩ := representa_none h
    rfl
  | some c =>
    rw [hc] at h
    have := acumularEn_representa m.length h hle
    cases h with
    | cons _ _ _ =>
      simp only
      rw [this]

/-! ## The heap: copy construction and assignment -/

theorem copiarDesde_representa :
    ∀ (sufXs : List T) (pasos : Nat) (m : Monton T) (actual : Option Nat) (sufDs : List Nat)
      (this : Campos) (preXs : List T) (cs : List Nat),
      Representa m actual sufXs sufDs → Representa m this.cabeza preXs cs →
      (∀ d ∈ sufDs, d ∉ cs) → sufDs.length ≤ pasos →
      Representa (copiarDesde pasos m actual this).1 (copiarDesde pasos m actual this).2.cabeza
        (preXs ++ sufXs) (cs ++ List.range' m.length sufXs.length) ∧
      (copiarDesde pasos m actual this).2.cantidad = this.cantidad + sufXs.length ∧
      (copiarDesde pasos m actual this).1.length = m.length + sufXs.length ∧
      ∀ q, q < m.length → q ∉ cs → leer (copiarDesde pasos m actual this).1 q = leer m q := by
  intro sufXs
  induction sufXs with
  | nil =>
    intro pasos m actual sufDs this preXs cs h ht _ _
    cases h
    have : copiarDesde pasos m none this = (m, this) := by
      cases pasos <;> rfl
    rw [this]
    simpa using ht
  | cons x xs ih =>
    intro pasos m actual sufDs this preXs cs h ht hdis hl
    cases h with
    | cons ha hn hr =>
      rename_i a sig dirs
      obtain ⟨pasos, rfl⟩ : ∃ k, pasos = k + 1 := ⟨pasos - 1, by simp at hl; omega⟩
      have hlt := representa_lt hr
      obtain ⟨i1, i2, i3, i4⟩ := insertar_representa ht x
      have hr2 : Representa (insertar m this x).1 sig xs dirs :=
        representa_marco hr (fun d hd =>
          i4 d (hlt d hd) (hdis d (List.mem_cons_of_mem _ hd)))
      have hdis2 : ∀ d ∈ dirs, d ∉ cs ++ [m.length] := by
        intro d hd hmem
        rcases List.mem_append.mp hmem with h1 | h1
        · exact hdis d (List.mem_cons_of_mem _ hd) h1
        · simp at h1
          have := hlt d hd
          omega
      obtain ⟨j1, j2, j3, j4⟩ := ih pasos (insertar m this x).1 sig dirs (insertar m this x).2
        (preXs ++ [x]) (cs ++ [m.length]) hr2 i1 hdis2 (by simpa using hl)
      have hstep : copiarDesde (pasos + 1) m (some a) this =
          copiarDesde pasos (insertar m this x).1 sig (insertar m this x).2 := by
        rw [copiarDesde, ha]
      rw [hstep]
      refine ⟨?_, ?_, ?_, ?_⟩
      · rw [i3] at j1
        simpa [List.range'_succ] using j1
      · rw [j2, i2]
        simp only [List.length_cons]
        push_cast
        ring
      · rw [j3, i3]
        simp only [List.length_cons]
        omega
      · intro q hq hqc
        rw [j4 q (by omega) ?_, i4 q hq hqc]
        intro hmem
        rcases List.mem_append.mp hmem with h1 | h1
        · exact hqc h1
        · simp at h1
          omega

theorem liberarDesde_representa :
    ∀ (pasos : Nat) (m : Monton T) (p : Option Nat) (xs : List T) (ds : List Nat),
      Representa m p xs ds → ds.length ≤ pasos →
      (liberarDesde m pasos p).length = m.length ∧
      ∀ q, leer (liberarDesde m pasos p) q = if q ∈ ds then none else leer m q := by
  intro pasos
  induction pasos with
  | zero =>
    intro m p xs ds h hl
    obtain rfl : ds = [] := List.length_eq_zero.mp (by omega)
    exact ⟨rfl, fun q => by simp [liberarDesde]⟩
  | succ pasos ih =>
    intro m p xs ds h hl
    cases h with
    | nil => exact ⟨rfl, fun q => by simp [liberarDesde]⟩
    | cons ha hn hr =>
      rename_i a dato sig datos dirs
      have hs : siguienteDe m a = sig := by
        unfold siguienteDe; rw [ha]; rfl
      have hr2 : Representa (liberar m a) sig datos dirs :=
        representa_marco hr (fun d hd => leer_liberar_ne m (fun e => hn (e ▸ hd)))
      obtain ⟨k1, k2⟩ := ih (liberar m a) sig datos dirs hr2 (by simpa using hl)
      rw [liberarDesde, hs]
      refine ⟨by rw [k1, length_liberar], fun q => ?_⟩
      rw [k2 q]
      by_cases hq : q ∈ dirs
      · rw [if_pos hq, if_pos (List.mem_cons_of_mem _ hq)]
      · rw [if_neg hq]
        by_cases hqa : q = a
        · subst hqa
          rw [if_pos (List.mem_cons_self _ _), leer_liberar_eq]
        · rw [if_neg (by simp [hq, hqa]), leer_liberar_ne m hqa]

theorem copiar_representa {m : Monton T} {h : Campos} {xs : List T} {ds : List Nat}
    (hrep : Representa m h.cabeza xs ds) :
    Representa (copiar m h).1 (copiar m h).2.cabeza xs (List.range' m.length xs.length) ∧
    (copiar m h).2.cantidad = xs.length ∧
    (copiar m h).1.length = m.length + xs.length ∧
    ∀ q, q < m.length → leer (copiar m h).1 q = leer m q := by
  obtain ⟨c1, c2, c3, c4⟩ := copiarDesde_representa xs m.length m h.cabeza ds
    { cabeza := none, cantidad := 0 } [] [] hrep Representa.nil (fun _ _ => by simp)
    (representa_length_le hrep)
  refine ⟨by simpa using c1, by simpa using c2, c3, fun q hq => c4 q hq (by simp)⟩

theorem asignar_representa {m : Monton T} {t s : Campos} {xt xs : List T} {dt ds : List Nat}
    (ht : Representa m t.cabeza xt dt) (hs : Representa m s.cabeza xs ds)
    (hdis : ∀ d ∈ ds, d ∉ dt) :
    Representa (asignar false m t s).1 (asignar false m t s).2.cabeza xs
      (List.range' m.length xs.length) ∧
    (asignar false m t s).2.cantidad = xs.length ∧
    (asignar false m t s).1.length = m.length + xs.length ∧
    ∀ q, q < m.length →
      leer (asignar false m t s).1 q = if q ∈ dt then none else leer m q := by
  obtain ⟨k1, k2⟩ := liberarDesde_representa m.length m t.cabeza xt dt ht
    (representa_length_le ht)
  have hs1 : Representa (liberarDesde m m.length t.cabeza) s.cabeza xs ds :=
    representa_marco hs (fun d hd => by rw [k2 d, if_neg (hdis d hd)])
  obtain ⟨c1, c2, c3, c4⟩ := copiarDesde_representa xs
    (liberarDesde m m.length t.cabeza).length (liberarDesde m m.length t.cabeza) s.cabeza ds
    { cabeza := none, cantidad := 0 } [] [] hs1 Representa.nil (fun _ _ => by simp)
    (representa_length_le hs1)
  have he : asignar false m t s = copiarDesde (liberarDesde m m.length t.cabeza).length
      (liberarDesde m m.length t.cabeza) s.cabeza { cabeza := none, cantidad := 0 } := rfl
  rw [he]
  rw [k1] at c1 c2 c3 c4 ⊢
  refine ⟨by simpa using c1, by simpa using c2, c3, fun q hq => ?_⟩
  rw [c4 q hq (by simp), k2 q]

/-! ## Copies are deep and independent -/

/-- Claim C21. Copy-constructing from a history `h` whose chain holds the readings `xs`
(with `cantidad` the number of nodes) gives an object whose chain holds `xs` in the same
order on nodes that are none of the nodes of `h`, with the same `cantidad` as `h`; the
chain of `h` holds `xs` on the same nodes afterwards and every node that existed before
is as it was.  On lists: inserting the readings of `h`, head first, into the empty
history gives `h` back. -/
theorem copiar_misma_secuencia_y_cuenta (m : Monton T) (h : Campos) (xs : List T)
    (ds : List Nat) (hrep : Representa m h.cabeza xs ds)
    (hcoh : h.cantidad = (xs.length : Int)) :
    (∃ cs, (∀ d ∈ cs, d ∉ ds) ∧ Representa (copiar m h).1 (copiar m h).2.cabeza xs cs) ∧
    getCantidad (copiar m h).2 = getCantidad h ∧
    Representa (copiar m h).1 h.cabeza xs ds ∧
    (∀ q, q < m.length → leer (copiar m h).1 q = leer m q) ∧
    xs.foldl ListaSensor.insertar ListaSensor.vacia =
      { nodos := xs, cantidad := h.cantidad } ∧
    ListaSensor.copiar { nodos := xs, cantidad := h.cantidad } =
      { nodos := xs, cantidad := h.cantidad } := by
  obtain ⟨c1, c2, _, c4⟩ := copiar_representa hrep
  have hlt := representa_lt hrep
  have hl : xs.foldl ListaSensor.insertar ListaSensor.vacia =
      { nodos := xs, cantidad := h.cantidad } := by
    rw [ListaSensor.foldl_insertar, hcoh]
    simp [ListaSensor.vacia]
  refine ⟨⟨_, ?_, c1⟩, ?_, representa_marco hrep (fun d hd => c4 d (hlt d hd)), c4, hl, hl⟩
  · intro d hd hmem
    have := hlt d hmem
    have := (List.mem_range'_1.mp hd).1
    omega
  · unfold getCantidad
    rw [c2, hcoh]

/-- Witness for C21: the `int` history `[3, 1, 2]` on the nodes at addresses 0, 1, 2. -/
theorem copiar_misma_secuencia_y_cuenta_witness :
    (∃ cs, (∀ d ∈ cs, d ∉ [0, 1, 2]) ∧
      Representa
        (copiar ([some ⟨3, some 1⟩, some ⟨1, some 2⟩, some ⟨2, none⟩] : Monton Int)
          ⟨some 0, 3⟩).1
        (copiar ([some ⟨3, some 1⟩, some ⟨1, some 2⟩, some ⟨2, none⟩] : Monton Int)
          ⟨some 0, 3⟩).2.cabeza [3, 1, 2] cs) ∧
    copiar ([some ⟨3, some 1⟩, some ⟨1, some 2⟩, some ⟨2, none⟩] : Monton Int) ⟨some 0, 3⟩ =
      ([some ⟨3, some 1⟩, some ⟨1, some 2⟩, some ⟨2, none⟩,
        some ⟨3, some 4⟩, some ⟨1, some 5⟩, some ⟨2, none⟩], ⟨some 3, 3⟩) :=
  ⟨(copiar_misma_secuencia_y_cuenta
      ([some ⟨3, some 1⟩, some ⟨1, some 2⟩, some ⟨2, none⟩] : Monton Int) ⟨some 0, 3⟩
      [3, 1, 2] [0, 1, 2]
      (Representa.cons rfl (by decide)
        (Representa.cons rfl (by decide) (Representa.cons rfl (by decide) Representa.nil)))
      rfl).1,
    by decide⟩

/-- Claim C22. For two different objects `t` and `s` whose chains hold `xt` and `xs` on
separate nodes (with `cantidad` of `s` the number of its nodes), after `t = s` the chain
of `t` holds `xs` in the same order on nodes that are none of the nodes of `s`, whatever
`xt` was, `cantidad` of `t` is that of `s`, every node `t` had is deleted, and the chain
of `s` holds `xs` on the same nodes as before; `t = t` changes neither the heap nor the
fields.  On lists: the assignment gives the history of `s`, and self-assignment gives
the history back. -/
theorem asignar_reemplaza_y_conserva (m : Monton T) (t s : Campos) (xt xs : List T)
    (dt ds : List Nat) (ht : Representa m t.cabeza xt dt)
    (hs : Representa m s.cabeza xs ds) (hdis : ∀ d ∈ ds, d ∉ dt)
    (hcoh : s.cantidad = (xs.length : Int)) :
    (∃ cs, (∀ d ∈ cs, d ∉ ds) ∧ (∀ d ∈ cs, d ∉ dt) ∧
      Representa (asignar false m t s).1 (asignar false m t s).2.cabeza xs cs) ∧
    getCantidad (asignar false m t s).2 = getCantidad s ∧
    (∀ d ∈ dt, leer (asignar false m t s).1 d = none) ∧
    Representa (asignar false m t s).1 s.cabeza xs ds ∧
    asignar true m t t = (m, t) ∧
    ListaSensor.asignar false { nodos := xt, cantidad := t.cantidad }
        { nodos := xs, cantidad := s.cantidad } = { nodos := xs, cantidad := s.cantidad } ∧
    ListaSensor.asignar true { nodos := xt, cantidad := t.cantidad }
        { nodos := xt, cantidad := t.cantidad } = { nodos := xt, cantidad := t.cantidad } := by
  obtain ⟨c1, c2, _, c4⟩ := asignar_representa ht hs hdis
  have hlt := representa_lt ht
  have hls := representa_lt hs
  refine ⟨⟨_, ?_, ?_, c1⟩, ?_, ?_, ?_, rfl, ?_, rfl⟩
  · intro d hd hmem
    have := hls d hmem
    have := (List.mem_range'_1.mp hd).1
    omega
  · intro d hd hmem
    have := hlt d hmem
    have := (List.mem_range'_1.mp hd).1
    omega
  · unfold getCantidad
    rw [c2, hcoh]
  · intro d hd
    rw [c4 d (hlt d hd), if_pos hd]
  · refine representa_marco hs (fun d hd => ?_)
    rw [c4 d (hls d hd), if_neg (hdis d hd)]
  · unfold ListaSensor.asignar
    rw [if_neg (by decide), ListaSensor.foldl_insertar, hcoh]
    simp

/-- Witness for C22: `t` holds `[5, 6]` on the nodes 0 and 1, `s` holds `[3, 1]` on the
nodes 2 and 3. -/
theorem asignar_reemplaza_y_conserva_witness :
    (∀ d ∈ [0, 1],
      leer (asignar false
        ([some ⟨5, some 1⟩, some ⟨6, none⟩, some ⟨3, some 3⟩, some ⟨1, none⟩] : Monton Int)
        ⟨some 0, 2⟩ ⟨some 2, 2⟩).1 d = none) ∧
    asignar false
        ([some ⟨5, some 1⟩, some ⟨6, none⟩, some ⟨3, some 3⟩, some ⟨1, none⟩] : Monton Int)
        ⟨some 0, 2⟩ ⟨some 2, 2⟩ =
      ([none, none, some ⟨3, some 3⟩, some ⟨1, none⟩, some ⟨3, some 5⟩, some ⟨1, none⟩],
        ⟨some 4, 2⟩) :=
  ⟨(asignar_reemplaza_y_conserva
      ([some ⟨5, some 1⟩, some ⟨6, none⟩, some ⟨3, some 3⟩, some ⟨1, none⟩] : Monton Int)
      ⟨some 0, 2⟩ ⟨some 2, 2⟩ [5, 6] [3, 1] [0, 1] [2, 3]
      (Representa.cons rfl (by decide) (Representa.cons rfl (by decide) Representa.nil))
      (Representa.cons rfl (by decide) (Representa.cons rfl (by decide) Representa.nil))
      (by decide) rfl).2.2.1,
    by decide⟩

/-- Claim C23. After copying a history `h` whose chain holds `xs` (with `cantidad` the
number of nodes) and then calling `insertar` or `eliminarMenor` on the copy, the chain
of `h` holds the same readings `xs` in the same order on the same nodes, `cantidad` of
`h` is still the number of these nodes, and `calcularPromedio` of `h` returns what it
returned before the copy was made. -/
theorem mutar_copia_no_toca_original [Lectura T] [LT T]
    [DecidableRel (fun a b : T => a < b)] (m : Monton T) (h : Campos) (xs : List T)
    (ds : List Nat) (hrep : Representa m h.cabeza xs ds)
    (hcoh : h.cantidad = (xs.length : Int)) (valor : T) :
    (Representa (insertar (copiar m h).1 (copiar m h).2 valor).1 h.cabeza xs ds ∧
      calcularPromedio (insertar (copiar m h).1 (copiar m h).2 valor).1 h =
        calcularPromedio m h) ∧
    (Representa (eliminarMenor (copiar m h).1 (copiar m h).2).1 h.cabeza xs ds ∧
      calcularPromedio (eliminarMenor (copiar m h).1 (copiar m h).2).1 h =
        calcularPromedio m h) ∧
    getCantidad h = (ds.length : Int) := by
  obtain ⟨c1, _, c3, c4⟩ := copiar_representa hrep
  have hlt := representa_lt hrep
  have hdis : ∀ d ∈ ds, d ∉ List.range' m.length xs.length := by
    intro d hd hmem
    have := hlt d hd
    have := (List.mem_range'_1.mp hmem).1
    omega
  have h0 : Representa (copiar m h).1 h.cabeza xs ds :=
    representa_marco hrep (fun d hd => c4 d (hlt d hd))
  obtain ⟨_, _, _, i4⟩ := insertar_representa c1 valor
  obtain ⟨_, _, _, _, _, e5⟩ := eliminarMenor_representa c1
  have hi : Representa (insertar (copiar m h).1 (copiar m h).2 valor).1 h.cabeza xs ds :=
    representa_marco h0 (fun d hd => i4 d (by rw [c3]; have := hlt d hd; omega) (hdis d hd))
  have he : Representa (eliminarMenor (copiar m h).1 (copiar m h).2).1 h.cabeza xs ds :=
    representa_marco h0 (fun d hd => e5 d (hdis d hd))
  refine ⟨⟨hi, ?_⟩, ⟨he, ?_⟩, ?_⟩
  · rw [calcularPromedio_representa hi, calcularPromedio_representa hrep]
  · rw [calcularPromedio_representa he, calcularPromedio_representa hrep]
  · unfold getCantidad
    rw [hcoh, representa_length hrep]

/-- Witness for C23: the `int` history `[3, 1, 2]` on the nodes 0, 1, 2; its copy gets
the reading 7, or loses its least reading. -/
theorem mutar_copia_no_toca_original_witness :
    calcularPromedio
        (insertar
          (copiar ([some ⟨3, some 1⟩, some ⟨1, some 2⟩, some ⟨2, none⟩] : Monton Int)
            ⟨some 0, 3⟩).1
          (copiar ([some ⟨3, some 1⟩, some ⟨1, some 2⟩, some ⟨2, none⟩] : Monton Int)
            ⟨some 0, 3⟩).2 7).1 ⟨some 0, 3⟩ =
      calcularPromedio ([some ⟨3, some 1⟩, some ⟨1, some 2⟩, some ⟨2, none⟩] : Monton Int)
        ⟨some 0, 3⟩ ∧
    eliminarMenor
        (copiar ([some ⟨3, some 1⟩, some ⟨1, some 2⟩, some ⟨2, none⟩] : Monton Int)
          ⟨some 0, 3⟩).1
        (copiar ([some ⟨3, some 1⟩, some ⟨1, some 2⟩, some ⟨2, none⟩] : Monton Int)
          ⟨some 0, 3⟩).2 =
      ([some ⟨3, some 1⟩, some ⟨1, some 2⟩, some ⟨2, none⟩,
        some ⟨3, some 5⟩, none, some ⟨2, none⟩], ⟨some 3, 2⟩) :=
  ⟨(mutar_copia_no_toca_original
      ([some ⟨3, some 1⟩, some ⟨1, some 2⟩, some ⟨2, none⟩] : Monton Int) ⟨some 0, 3⟩
      [3, 1, 2] [0, 1, 2]
      (Representa.cons rfl (by decide)
        (Representa.cons rfl (by decide) (Representa.cons rfl (by decide) Representa.nil)))
      rfl 7).1.2,
    by decide⟩

end Monton

/-! ## The serial branch: creation comes before parsing -/

/-- Counterexample to C31 as stated.  On the empty registry the line
`T,<id of 50 characters>,abc` has a valid kind, an id that is not in the registry and a
value the parser refuses.  The branch creates a Temperature sensor with an empty
history, but the sensor holds only 49 characters of the id: no sensor of the registry
afterwards has the id of the line. -/
theorem menuCaso8_valor_invalido_id_largo :
    camposLinea "T,01234567890123456789012345678901234567890123456789,abc" =
      ('T', "01234567890123456789012345678901234567890123456789", "abc") ∧
    stofDecimal "abc" = none ∧
    (menuCaso8 stofDecimal SistemaGestion.vacio
      "T,01234567890123456789012345678901234567890123456789,abc").1.sensores =
      [Sensor.temperatura ⟨SensorBase.crear "01234567890123456789012345678901234567890123456789",
        ⟨[], 0⟩⟩] ∧
    (∀ s ∈ (menuCaso8 stofDecimal SistemaGestion.vacio
        "T,01234567890123456789012345678901234567890123456789,abc").1.sensores,
      s.getId ≠ "01234567890123456789012345678901234567890123456789") ∧
    (SensorBase.crear "01234567890123456789012345678901234567890123456789").getId =
      "0123456789012345678901234567890123456789012345678" :=
  ⟨by decide, by decide!, by decide!, by decide!, by decide⟩

/-- Claim C31, amended. Take a line `K,id,value` whose `K` is one of `T`, `t`, `P`,
`p`, `V`, `v`, whose `id` is a non-empty C string of at most 49 characters without a
comma and not the identifier of any sensor of the registry, and whose non-empty `value`
the parser refuses.  The registry the branch leaves is the one the lookup-and-create
step leaves, whatever the parser does: the old sensors as they were, followed by one
new sensor of the class `K` names, with that id and an empty history.  The warning of
the creation is printed before the error of the parser. -/
theorem menuCaso8_crea_antes_de_stof (stof : String → Option F32) (sistema : SistemaGestion)
    (K : Char) (id value : String)
    (hK : K = 'T' ∨ K = 't' ∨ K = 'P' ∨ K = 'p' ∨ K = 'V' ∨ K = 'v')
    (hnul : ∀ c ∈ id.data, c ≠ nulo) (hcoma : ∀ c ∈ id.data, c ≠ coma)
    (hid : id.data ≠ []) (hlen : id.length ≤ 49) (hval : value.data ≠ [])
    (hstof : stof value = none)
    (hnuevo : ∀ s ∈ sistema.sensores, s.getId ≠ id) :
    (menuCaso8 stof sistema (String.mk (K :: coma :: (id.data ++ coma :: value.data)))).1 =
      (resolverSensor sistema K id).1 ∧
    (menuCaso8 stof sistema (String.mk (K :: coma :: (id.data ++ coma :: value.data)))).2 =
      [Aviso.creando, Aviso.valorNoNumerico] ∧
    (K = 'T' ∨ K = 't' →
      (menuCaso8 stof sistema (String.mk (K :: coma :: (id.data ++ coma :: value.data)))).1.sensores
        = sistema.sensores ++ [Sensor.temperatura ⟨SensorBase.crear id, ⟨[], 0⟩⟩]) ∧
    (K = 'P' ∨ K = 'p' →
      (menuCaso8 stof sistema (String.mk (K :: coma :: (id.data ++ coma :: value.data)))).1.sensores
        = sistema.sensores ++ [Sensor.presion ⟨SensorBase.crear id, ⟨[], 0⟩⟩]) ∧
    (K = 'V' ∨ K = 'v' →
      (menuCaso8 stof sistema (String.mk (K :: coma :: (id.data ++ coma :: value.data)))).1.sensores
        = sistema.sensores ++ [Sensor.vibracion ⟨SensorBase.crear id, ⟨[], 0⟩⟩]) ∧
    (SensorBase.crear id).getId = id := by
  have hbase : (SensorBase.crear id).getId = id := by
    rw [SensorBase.getId_crear, cadena_eq_self _ hnul, List.take_of_length_le hlen]
  have hnone : sistema.buscarSensor id = none := by
    unfold SistemaGestion.buscarSensor
    rw [SistemaGestion.buscarDesde_eq_none]
    intro s hs
    exact (SistemaGestion.strcmp_false_iff s id hnul).2 (hnuevo s hs)
  have hKc : K ≠ coma := by
    rcases hK with h | h | h | h | h | h <;> rw [h] <;> decide
  have hK0 : K ≠ nulo := by
    rcases hK with h | h | h | h | h | h <;> rw [h] <;> decide
  have hs : (String.mk (K :: coma :: (id.data ++ coma :: value.data))).data ≠ [] := by simp
  have hcampos := camposLinea_bien_formada K id value hKc hcoma
  have hok : ¬ ((camposLinea (String.mk (K :: coma :: (id.data ++ coma :: value.data)))).1 = nulo ∨
      (camposLinea (String.mk (K :: coma :: (id.data ++ coma :: value.data)))).2.1.data = [] ∨
      (camposLinea (String.mk (K :: coma :: (id.data ++ coma :: value.data)))).2.2.data = []) := by
    rw [hcampos]
    simp only [not_or]
    exact ⟨hK0, hid, hval⟩
  have hmenu : menuCaso8 stof sistema (String.mk (K :: coma :: (id.data ++ coma :: value.data))) =
      ((resolverSensor sistema K id).1,
        (resolverSensor sistema K id).2.2 ++ [Aviso.valorNoNumerico]) := by
    rw [(menuCaso8_casos stof sistema _).2.2 hs hok, hcampos]
    simp only [hstof]
  have havisos : (resolverSensor sistema K id).2.2 = [Aviso.creando] := by
    unfold resolverSensor
    rw [hnone]
  have hcrea : ∀ t : TipoSensor,
      (resolverSensor sistema K id).1 = sistema.agregarSensor (Sensor.crear t id) →
      (menuCaso8 stof sistema (String.mk (K :: coma :: (id.data ++ coma :: value.data)))).1.sensores
        = sistema.sensores ++ [Sensor.crear t id] := by
    intro t ht
    rw [hmenu]
    simp only
    rw [ht]
    exact SistemaGestion.enlazarSensor_eq_append _ _
  refine ⟨by rw [hmenu], by rw [hmenu]; simp only; rw [havisos]; rfl, ?_, ?_, ?_, hbase⟩
  · intro h
    apply hcrea TipoSensor.temperatura
    unfold resolverSensor
    rw [hnone]
    simp only [if_pos h]
  · intro h
    have hT : ¬ (K = 'T' ∨ K = 't') := by rcases h with h | h <;> rw [h] <;> decide
    apply hcrea TipoSensor.presion
    unfold resolverSensor
    rw [hnone]
    simp only [if_neg hT, if_pos h]
  · intro h
    have hT : ¬ (K = 'T' ∨ K = 't') := by rcases h with h | h <;> rw [h] <;> decide
    have hP : ¬ (K = 'P' ∨ K = 'p') := by rcases h with h | h <;> rw [h] <;> decide
    apply hcrea TipoSensor.vibracion
    unfold resolverSensor
    rw [hnone]
    simp only [if_neg hT, if_neg hP, if_pos h]

/-- Witness for C31 amended: the line `V,V-900,abc` on the registry that holds `T-001`
leaves `T-001` as it was, followed by the Vibration sensor `V-900` without readings. -/
theorem menuCaso8_crea_antes_de_stof_witness :
    (menuCaso8 stofDecimal
      (SistemaGestion.agregarSensor SistemaGestion.vacio
        (Sensor.crear TipoSensor.temperatura "T-001"))
      (String.mk ('V' :: coma :: ("V-900".data ++ coma :: "abc".data)))).1.sensores
      = (SistemaGestion.agregarSensor SistemaGestion.vacio
          (Sensor.crear TipoSensor.temperatura "T-001")).sensores
        ++ [Sensor.vibracion ⟨SensorBase.crear "V-900", ⟨[], 0⟩⟩] ∧
    (String.mk ('V' :: coma :: ("V-900".data ++ coma :: "abc".data))) = "V,V-900,abc" ∧
    stofDecimal "abc" = none :=
  ⟨(menuCaso8_crea_antes_de_stof stofDecimal
      (SistemaGestion.agregarSensor SistemaGestion.vacio
        (Sensor.crear TipoSensor.temperatura "T-001"))
      'V' "V-900" "abc" (by decide) (by decide) (by decide) (by decide) (by decide) (by decide)
      (by decide!) (by decide)).2.2.2.2.1 (Or.inl rfl),
    by decide, by decide!⟩

end SensorSystem
